import Mathlib

/-!
# Loan lifecycle: state model, ledger repository and workflow engine

A shallow embedding of the loan service (`internal/models`, `internal/repositories`,
`internal/services`) together with the properties of its state machine, its
transition guards, its atomic accumulate primitive and its transactional workflow.

Conventions of the embedding

* `float64` amounts and rates are exact rationals (`ℚ`): comparisons of stored values
  are those of Go, but a difference, sum or product is exact here where Go rounds it
  to binary64, and NaN and the infinities have no counterpart; the properties below
  are those that do not depend on that rounding, or that are stated for exact
  arithmetic;
* a `uuid.UUID` is represented by its canonical string form, so `ID.String()` is the
  identity;
* a `time.Time` is a natural number (a clock reading);
* a Go `error` result is `Option Error` (`none` is `nil`), a `(T, error)` result is
  `Except Error T`;
* the outcome of everything that lives outside the program (the SQL driver, the
  payment provider, `uuid.New()`, the clocks) is supplied by an `Env` value, over
  which the theorems quantify;
* the notification scheduler (`cron_service.go`) runs in a `CronWorld` with a `CronEnv`
  of its own, in which every single call may fail and which fixes the order in which
  a pass ranges over a Go map.
-/

namespace Go10

/-! ## internal/models/base.go -/

/-- The Go type `LoanState` is a string type: every string is a value of it. -/
abbrev LoanState := String

abbrev UUID := String

abbrev Time := Nat

abbrev FileType := String

def LoanStateProposed : LoanState := "proposed"
def LoanStateApproved : LoanState := "approved"
def LoanStateInvested : LoanState := "invested"
def LoanStateDisbursed : LoanState := "disbursed"

/-- The map `validStates`; a key that is absent reads as `false`. -/
def validStates (ls : LoanState) : Bool :=
  if ls = LoanStateProposed then true
  else if ls = LoanStateApproved then true
  else if ls = LoanStateInvested then true
  else if ls = LoanStateDisbursed then true
  else false

/-- The map `validTransitions`; a key that is absent reads as the nil slice. -/
def validTransitions (ls : LoanState) : List LoanState :=
  if ls = LoanStateProposed then [LoanStateApproved]
  else if ls = LoanStateApproved then [LoanStateInvested]
  else if ls = LoanStateInvested then [LoanStateDisbursed]
  else if ls = LoanStateDisbursed then []
  else []

def LoanState.IsValid (ls : LoanState) : Bool :=
  validStates ls

/-- The `for _, state := range allowedStates` loop of `CanTransitionTo`. -/
def LoanState.rangeAllowed (target : LoanState) : List LoanState → Bool
  | [] => false
  | state :: rest => if state = target then true else LoanState.rangeAllowed target rest

def LoanState.CanTransitionTo (ls target : LoanState) : Bool :=
  LoanState.rangeAllowed target (validTransitions ls)

/-! ## Errors -/

/-- Two decimal digits, zero padded. -/
def pad2 (n : Nat) : String :=
  if n < 10 then "0" ++ toString n else toString n

/-- The verb `%.2f` on an exact amount: sign, integer part, point and two decimals,
rounded half to even. -/
def formatF2 (x : ℚ) : String :=
  let scaled : ℚ := |x| * 100
  let n : Nat := scaled.floor.toNat
  let frac : ℚ := scaled - n
  let r : Nat := if 1 / 2 < frac ∨ (frac = 1 / 2 ∧ n % 2 = 1) then n + 1 else n
  (if x < 0 then "-" else "") ++ toString (r / 100) ++ "." ++ pad2 (r % 100)

/-- The error values the program builds (one constructor per `fmt.Errorf` site) and the
ones it receives from outside. -/
inductive Error where
  /-- Text `"invalid target state: %s"` -/
  | invalidTargetState (target : LoanState)
  /-- Text `"cannot transition from %s to %s"` -/
  | cannotTransition (current target : LoanState)
  /-- Text `"loan must be in proposed state to be approved, current state: %s"` -/
  | mustBeProposed (current : LoanState)
  /-- Text `"loan must be in approved state to receive investments, current state: %s"` -/
  | mustBeApproved (current : LoanState)
  /-- Text `"loan must be in invested state to be disbursed, current state: %s"` -/
  | mustBeInvested (current : LoanState)
  /-- Text `"loan must be fully invested before disbursement. Required: %.2f, Invested: %.2f"` -/
  | notFullyInvested (required invested : ℚ)
  /-- Text `"loan must have an agreement letter to be disbursed"` -/
  | noAgreementLetter
  /-- Text `"investment amount must be greater than 0"` -/
  | amountNotPositive
  /-- Text `"investment amount %.2f exceeds remaining amount %.2f"` -/
  | exceedsRemaining (amount remaining : ℚ)
  /-- Text `"loan not found, already fully invested, or not in approved state"` -/
  | notApplied
  /-- Text `"disbursed amount %.2f must match principal amount %.2f"` -/
  | amountMismatch (disbursed principal : ℚ)
  /-- The sentinel `sql.ErrNoRows`. -/
  | errNoRows
  /-- Any other error produced outside the program (SQL driver, payment provider). -/
  | external (msg : String)
  /-- Wrapping `fmt.Errorf("<context>: %w", err)`. -/
  | wrap (context : String) (inner : Error)
  /-- Text `"failed to rollback transaction: %w (original error: %w)"` -/
  | rollbackFailed (rollbackErr original : Error)
  deriving DecidableEq, Repr

/-- The text of `err.Error()`. -/
def Error.message : Error → String
  | .invalidTargetState t => "invalid target state: " ++ t
  | .cannotTransition c t => "cannot transition from " ++ c ++ " to " ++ t
  | .mustBeProposed c => "loan must be in proposed state to be approved, current state: " ++ c
  | .mustBeApproved c =>
      "loan must be in approved state to receive investments, current state: " ++ c
  | .mustBeInvested c => "loan must be in invested state to be disbursed, current state: " ++ c
  | .notFullyInvested p t =>
      "loan must be fully invested before disbursement. Required: " ++ formatF2 p
        ++ ", Invested: " ++ formatF2 t
  | .noAgreementLetter => "loan must have an agreement letter to be disbursed"
  | .amountNotPositive => "investment amount must be greater than 0"
  | .exceedsRemaining a r =>
      "investment amount " ++ formatF2 a ++ " exceeds remaining amount " ++ formatF2 r
  | .notApplied => "loan not found, already fully invested, or not in approved state"
  | .amountMismatch d p =>
      "disbursed amount " ++ formatF2 d ++ " must match principal amount " ++ formatF2 p
  | .errNoRows => "sql: no rows in result set"
  | .external msg => msg
  | .wrap context inner => context ++ ": " ++ inner.message
  | .rollbackFailed r o =>
      "failed to rollback transaction: " ++ r.message ++ " (original error: " ++ o.message ++ ")"

/-! ## internal/models/user.go, internal/models/loan.go -/

structure Borrower where
  ID : UUID
  FirstName : String
  LastName : String
  deriving DecidableEq, Repr

def Borrower.FullName (b : Borrower) : String :=
  b.FirstName ++ " " ++ b.LastName

/-- The struct `Investment` of internal/models/investment.go (with its embedded
`BaseModel`); also the shape of a row of the table `investments`. -/
structure Investment where
  ID : UUID
  CreatedAt : Time
  UpdatedAt : Time
  LoanID : UUID
  InvestorID : UUID
  Amount : ℚ
  InvestmentDate : Time
  ExpectedReturn : ℚ
  AgreementSent : Bool
  AgreementSentAt : Option Time
  deriving DecidableEq, Repr

def Investment.CalculateExpectedReturn (i : Investment) (loanROI : ℚ) : ℚ :=
  i.Amount * loanROI

/-- The struct `Loan` (with its embedded `BaseModel`); it is also the shape of a row of the
table `loans`, whose soft-delete marker is `DeletedAt`.  Of the relationship fields
only `Borrower` is ever populated by the code modelled here; `Investments` is kept
because its length is reported. -/
structure Loan where
  ID : UUID
  CreatedAt : Time
  UpdatedAt : Time
  DeletedAt : Option Time
  BorrowerID : UUID
  PrincipalAmount : ℚ
  InterestRate : ℚ
  ROI : ℚ
  State : LoanState
  AgreementLetterURL : String
  TotalInvested : ℚ
  Borrower : Option Borrower
  Investments : List Investment
  deriving DecidableEq, Repr

/-- The method `RemainingInvestmentAmount`, in exact arithmetic: the difference is not
rounded to binary64 as it is in Go. -/
def Loan.RemainingInvestmentAmount (l : Loan) : ℚ :=
  l.PrincipalAmount - l.TotalInvested

def Loan.IsFullyInvested (l : Loan) : Bool :=
  decide (l.TotalInvested ≥ l.PrincipalAmount)

def Loan.validateApprovalTransition (l : Loan) : Option Error :=
  if l.State ≠ LoanStateProposed then some (.mustBeProposed l.State)
  else none

def Loan.validateInvestmentTransition (l : Loan) : Option Error :=
  if l.State ≠ LoanStateApproved then some (.mustBeApproved l.State)
  else none

def Loan.validateDisbursementTransition (l : Loan) : Option Error :=
  if l.State ≠ LoanStateInvested then some (.mustBeInvested l.State)
  else if !l.IsFullyInvested then some (.notFullyInvested l.PrincipalAmount l.TotalInvested)
  else if l.AgreementLetterURL = "" then some .noAgreementLetter
  else none

def Loan.ValidateStateTransition (l : Loan) (targetState : LoanState) : Option Error :=
  if !LoanState.IsValid targetState then some (.invalidTargetState targetState)
  else if !LoanState.CanTransitionTo l.State targetState then
    some (.cannotTransition l.State targetState)
  else if targetState = LoanStateApproved then l.validateApprovalTransition
  else if targetState = LoanStateInvested then l.validateInvestmentTransition
  else if targetState = LoanStateDisbursed then l.validateDisbursementTransition
  else none

/-- The method `ValidateInvestmentAmount`: the three checks in the order of the source.
The remaining amount is the exact difference (see `RemainingInvestmentAmount`), and
there is no NaN amount. -/
def Loan.ValidateInvestmentAmount (l : Loan) (amount : ℚ) : Option Error :=
  if amount ≤ 0 then some .amountNotPositive
  else if l.State ≠ LoanStateApproved then some (.mustBeApproved l.State)
  else
    let remaining := l.RemainingInvestmentAmount
    if amount > remaining then some (.exceedsRemaining amount remaining)
    else none

structure LoanStateHistory where
  ID : UUID
  CreatedAt : Time
  UpdatedAt : Time
  LoanID : UUID
  PreviousState : LoanState
  NewState : LoanState
  ChangedBy : UUID
  ChangeReason : String
  ChangeDate : Time
  deriving DecidableEq, Repr

structure Approval where
  ID : UUID
  CreatedAt : Time
  UpdatedAt : Time
  LoanID : UUID
  ValidatorID : UUID
  ApprovalDate : Time
  VisitProofImageURL : String
  VisitProofImageType : FileType
  Notes : String
  deriving DecidableEq, Repr

structure Disbursement where
  ID : UUID
  CreatedAt : Time
  UpdatedAt : Time
  LoanID : UUID
  FieldOfficerID : UUID
  DisbursementDate : Time
  SignedAgreementURL : String
  SignedAgreementFileType : FileType
  DisbursedAmount : ℚ
  Notes : String
  deriving DecidableEq, Repr

/-! ## internal/models/request.go, internal/models/response.go -/

structure CreateLoanRequest where
  BorrowerID : UUID
  PrincipalAmount : ℚ
  InterestRate : ℚ
  ROI : ℚ
  deriving DecidableEq, Repr

structure CreateApprovalRequest where
  LoanID : UUID
  ValidatorID : UUID
  ApprovalDate : Time
  VisitProofImageURL : String
  VisitProofImageType : FileType
  Notes : String
  deriving DecidableEq, Repr

structure CreateInvestmentRequest where
  LoanID : UUID
  InvestorID : UUID
  Amount : ℚ
  InvestmentDate : Time
  deriving DecidableEq, Repr

structure CreateDisbursementRequest where
  LoanID : UUID
  FieldOfficerID : UUID
  DisbursementDate : Time
  SignedAgreementURL : String
  SignedAgreementFileType : FileType
  DisbursedAmount : ℚ
  Notes : String
  deriving DecidableEq, Repr

structure LoanSummaryResponse where
  ID : UUID
  BorrowerName : String
  PrincipalAmount : ℚ
  InterestRate : ℚ
  ROI : ℚ
  State : LoanState
  TotalInvested : ℚ
  RemainingInvestment : ℚ
  InvestorCount : Nat
  CreatedAt : Time
  UpdatedAt : Time
  deriving DecidableEq, Repr

structure LoanApprovalResponse where
  ID : UUID
  LoanID : UUID
  ValidatorID : UUID
  ApprovalDate : Time
  VisitProofImageURL : String
  VisitProofImageType : FileType
  Notes : String
  CreatedAt : Time
  UpdatedAt : Time
  deriving DecidableEq, Repr

structure InvestmentResponse where
  ID : UUID
  LoanID : UUID
  InvestorID : UUID
  Amount : ℚ
  ExpectedReturn : ℚ
  InvestmentDate : Time
  CreatedAt : Time
  UpdatedAt : Time
  deriving DecidableEq, Repr

structure DisbursementResponse where
  ID : UUID
  LoanID : UUID
  FieldOfficerID : UUID
  DisbursementDate : Time
  SignedAgreementURL : String
  SignedAgreementFileType : FileType
  DisbursedAmount : ℚ
  Notes : String
  CreatedAt : Time
  UpdatedAt : Time
  deriving DecidableEq, Repr

/-- The struct `PaymentResult` of pkg/adapters/interfaces.go. -/
structure PaymentResult where
  TransactionID : String
  Status : String
  Message : String
  deriving DecidableEq, Repr

/-! ## The datastore and the world outside the program -/

/-- A row of the table `loans` without its primary key (the key is the argument of
`DB.loans`); the columns are the ones named in the statements of the repository. -/
structure LoanRow where
  borrower_id : UUID
  principal_amount : ℚ
  interest_rate : ℚ
  roi : ℚ
  state : LoanState
  agreement_letter_url : String
  total_invested : ℚ
  created_at : Time
  updated_at : Time
  deleted_at : Option Time
  deriving DecidableEq, Repr

/-- A row of the table `borrowers` without its primary key; the columns the workflow
never looks at (id number, contact data, timestamps) are left out. -/
structure BorrowerRow where
  first_name : String
  last_name : String
  deriving DecidableEq, Repr

/-- The persisted state.  `loans` and `borrowers` are keyed by their primary key `id`;
the other tables are only ever appended to by the code modelled here and are kept in
insertion order. -/
structure DB where
  loans : UUID → Option LoanRow
  borrowers : UUID → Option BorrowerRow
  approvals : List Approval
  investments : List Investment
  disbursements : List Disbursement
  loan_state_histories : List LoanStateHistory

/-- Everything one run of a service operation obtains from outside the program:
fresh identifiers, clock readings, for every call into the SQL driver the error it
returns (if any), and the answer of the payment provider.  `SystemEmployeeID` is the
constant of package `internal/constant`, whose source is not at hand; it is taken to
be a well-formed UUID (so that `uuid.MustParse` returns it). -/
structure Env where
  newID : UUID
  historyID : UUID
  goNow : Time
  dbNow : Time
  SystemEmployeeID : UUID
  beginErr : Option Error
  commitErr : Option Error
  rollbackErr : Option Error
  createLoanErr : Option Error
  getLoanErr : Option Error
  createApprovalErr : Option Error
  updateLoanStateErr : Option Error
  recordHistoryErr : Option Error
  createInvestmentErr : Option Error
  updateTotalInvestedErr : Option Error
  updateAgreementURLErr : Option Error
  createDisbursementErr : Option Error
  payment : Except Error PaymentResult

/-! ## internal/repositories/loan_repository.go -/

/-- The zero value of `uuid.UUID`. -/
def uuidNil : UUID := "00000000-0000-0000-0000-000000000000"

/-- The driver's error for an INSERT whose primary key is already present. -/
def ErrDuplicateKey : Error :=
  .external "pq: duplicate key value violates unique constraint loans_pkey"

/-- Write `row` under the key `id`. -/
def DB.setLoan (db : DB) (id : UUID) (row : LoanRow) : DB :=
  { db with loans := fun k => if k = id then some row else db.loans k }

/-- The `Scan` of the ten loan columns `id, borrower_id, principal_amount, interest_rate,
roi, state, agreement_letter_url, total_invested, created_at, updated_at` into a fresh
`models.Loan`. -/
def LoanRow.scan (id : UUID) (r : LoanRow) : Loan :=
  { ID := id
    CreatedAt := r.created_at
    UpdatedAt := r.updated_at
    DeletedAt := none
    BorrowerID := r.borrower_id
    PrincipalAmount := r.principal_amount
    InterestRate := r.interest_rate
    ROI := r.roi
    State := r.state
    AgreementLetterURL := r.agreement_letter_url
    TotalInvested := r.total_invested
    Borrower := none
    Investments := [] }

/-- One `QueryRow(...).Scan(...)`: either the driver fails and nothing is changed, or the
statement `stmt` is executed. -/
def queryRow {α : Type} (driverErr : Option Error) (stmt : DB → Except Error α × DB)
    (db : DB) : Except Error α × DB :=
  match driverErr with
  | some err => (.error err, db)
  | none => stmt db

namespace LoanRepository

/-- The statement `INSERT INTO loans (...) VALUES (...) RETURNING created_at, updated_at`. -/
def insertLoanStmt (now : Time) (loan : Loan) (db : DB) : Except Error Loan × DB :=
  match db.loans loan.ID with
  | some _ => (.error ErrDuplicateKey, db)
  | none =>
    let row : LoanRow :=
      { borrower_id := loan.BorrowerID
        principal_amount := loan.PrincipalAmount
        interest_rate := loan.InterestRate
        roi := loan.ROI
        state := loan.State
        agreement_letter_url := loan.AgreementLetterURL
        total_invested := loan.TotalInvested
        created_at := now
        updated_at := now
        deleted_at := none }
    (.ok { loan with CreatedAt := now, UpdatedAt := now }, db.setLoan loan.ID row)

def CreateLoan (driverErr : Option Error) (newID : UUID) (now : Time) (db : DB)
    (loan : Loan) : Except Error Loan × DB :=
  let loan := { loan with ID := newID }
  queryRow driverErr (insertLoanStmt now loan) db

/-- The statement `SELECT ... FROM loans l INNER JOIN borrowers b ON l.borrower_id = b.id
WHERE l.id = $1 AND l.deleted_at IS NULL`, scanned into a loan and its borrower. -/
def selectLoanStmt (loanID : UUID) (db : DB) : Except Error Loan × DB :=
  match db.loans loanID with
  | none => (.error .errNoRows, db)
  | some r =>
    if r.deleted_at.isSome then (.error .errNoRows, db)
    else
      match db.borrowers r.borrower_id with
      | none => (.error .errNoRows, db)
      | some b =>
        let borrower : Borrower :=
          { ID := r.borrower_id, FirstName := b.first_name, LastName := b.last_name }
        (.ok { r.scan loanID with Borrower := some borrower }, db)

def GetLoanByID (driverErr : Option Error) (db : DB) (loanID : UUID) :
    Except Error Loan × DB :=
  queryRow driverErr (selectLoanStmt loanID) db

/-- The statement `INSERT INTO approvals (...) RETURNING created_at, updated_at`. -/
def insertApprovalStmt (now : Time) (approval : Approval) (db : DB) :
    Except Error Approval × DB :=
  let approval := { approval with CreatedAt := now, UpdatedAt := now }
  (.ok approval, { db with approvals := db.approvals ++ [approval] })

def CreateApproval (driverErr : Option Error) (now : Time) (db : DB)
    (approval : Approval) : Except Error Approval × DB :=
  queryRow driverErr (insertApprovalStmt now approval) db

/-- The statement `UPDATE loans SET state = $1, updated_at = CURRENT_TIMESTAMP
WHERE id = $2 AND deleted_at IS NULL RETURNING ...`. -/
def updateStateStmt (now : Time) (loanID : UUID) (newState : LoanState) (db : DB) :
    Except Error Loan × DB :=
  match db.loans loanID with
  | none => (.error .errNoRows, db)
  | some r =>
    if r.deleted_at.isSome then (.error .errNoRows, db)
    else
      let r1 := { r with state := newState, updated_at := now }
      (.ok (r1.scan loanID), db.setLoan loanID r1)

def UpdateLoanState (driverErr : Option Error) (now : Time) (db : DB) (loanID : UUID)
    (newState : LoanState) : Except Error Loan × DB :=
  queryRow driverErr (updateStateStmt now loanID newState) db

/-- The statement `INSERT INTO loan_state_histories (...) RETURNING created_at, updated_at`. -/
def insertHistoryStmt (now : Time) (history : LoanStateHistory) (db : DB) :
    Except Error LoanStateHistory × DB :=
  let history := { history with CreatedAt := now, UpdatedAt := now }
  (.ok history, { db with loan_state_histories := db.loan_state_histories ++ [history] })

def RecordLoanStateHistory (driverErr : Option Error) (newID : UUID) (goNow now : Time)
    (db : DB) (prevState : LoanState) (loan : Loan) (employeeID : UUID)
    (changeReason : String) : Except Error LoanStateHistory × DB :=
  let history : LoanStateHistory :=
    { ID := newID
      CreatedAt := 0
      UpdatedAt := 0
      LoanID := loan.ID
      PreviousState := prevState
      NewState := loan.State
      ChangedBy := employeeID
      ChangeReason := changeReason
      ChangeDate := goNow }
  queryRow driverErr (insertHistoryStmt now history) db

/-- The statement `INSERT INTO investments (...) RETURNING created_at, updated_at`. -/
def insertInvestmentStmt (now : Time) (investment : Investment) (db : DB) :
    Except Error Investment × DB :=
  let investment := { investment with CreatedAt := now, UpdatedAt := now }
  (.ok investment, { db with investments := db.investments ++ [investment] })

def CreateInvestment (driverErr : Option Error) (now : Time) (db : DB)
    (investment : Investment) : Except Error Investment × DB :=
  queryRow driverErr (insertInvestmentStmt now investment) db

/-- The statement
`UPDATE loans SET total_invested = total_invested + $1, updated_at = CURRENT_TIMESTAMP
WHERE id = $2 AND deleted_at IS NULL AND state = 'approved'
AND (total_invested + $1) <= principal_amount RETURNING ...`. -/
def accumulateStmt (now : Time) (loanID : UUID) (delta : ℚ) (db : DB) :
    Except Error Loan × DB :=
  match db.loans loanID with
  | none => (.error .errNoRows, db)
  | some r =>
    if r.deleted_at.isNone ∧ r.state = "approved"
        ∧ r.total_invested + delta ≤ r.principal_amount then
      let r1 := { r with total_invested := r.total_invested + delta, updated_at := now }
      (.ok (r1.scan loanID), db.setLoan loanID r1)
    else (.error .errNoRows, db)

def UpdateLoanTotalInvested (driverErr : Option Error) (now : Time) (db : DB)
    (loanID : UUID) (newTotal : ℚ) : Except Error Loan × DB :=
  match queryRow driverErr (accumulateStmt now loanID newTotal) db with
  | (.error err, db1) =>
    if err = Error.errNoRows then (.error .notApplied, db1)
    else (.error err, db1)
  | (.ok loan, db1) => (.ok loan, db1)

/-- The statement `INSERT INTO disbursements (...) RETURNING created_at, updated_at`. -/
def insertDisbursementStmt (now : Time) (disbursement : Disbursement) (db : DB) :
    Except Error Disbursement × DB :=
  let disbursement := { disbursement with CreatedAt := now, UpdatedAt := now }
  (.ok disbursement, { db with disbursements := db.disbursements ++ [disbursement] })

def CreateDisbursement (driverErr : Option Error) (now : Time) (db : DB)
    (disbursement : Disbursement) : Except Error Disbursement × DB :=
  queryRow driverErr (insertDisbursementStmt now disbursement) db

/-- The statement `UPDATE loans SET agreement_letter_url = $1, updated_at = CURRENT_TIMESTAMP
WHERE id = $2 AND deleted_at IS NULL`, run with `Exec`: touching no row is not an error. -/
def updateAgreementURLStmt (now : Time) (loanID : UUID) (agreementURL : String) (db : DB) :
    Except Error Unit × DB :=
  match db.loans loanID with
  | none => (.ok (), db)
  | some r =>
    if r.deleted_at.isSome then (.ok (), db)
    else (.ok (), db.setLoan loanID { r with agreement_letter_url := agreementURL, updated_at := now })

def UpdateLoanAgreementLetterURL (driverErr : Option Error) (now : Time) (db : DB)
    (loanID : UUID) (agreementURL : String) : Except Error Unit × DB :=
  queryRow driverErr (updateAgreementURLStmt now loanID agreementURL) db

end LoanRepository

/-! ## internal/services/loan_service.go -/

/-- A call made by the service to one of its collaborators (the repository interface,
the transaction handle, the payment adapter), with its arguments. -/
inductive Call where
  | Begin
  | Commit
  | Rollback
  | CreateLoan (loan : Loan)
  | GetLoanByID (loanID : UUID)
  | CreateApproval (approval : Approval)
  | UpdateLoanState (loanID : UUID) (newState : LoanState)
  | RecordLoanStateHistory (prevState : LoanState) (loan : Loan) (employeeID : UUID)
      (changeReason : String)
  | CreateInvestment (investment : Investment)
  | UpdateLoanTotalInvested (loanID : UUID) (newTotal : ℚ)
  | UpdateLoanAgreementLetterURL (loanID : UUID) (agreementURL : String)
  | CreateDisbursement (disbursement : Disbursement)
  | ProcessPayment (amount : ℚ) (token : String)
  deriving DecidableEq, Repr

/-- A storage write, as opposed to a read, a transaction-control call or a payment. -/
def Call.isWrite : Call → Bool
  | .CreateLoan _ => true
  | .CreateApproval _ => true
  | .UpdateLoanState _ _ => true
  | .RecordLoanStateHistory _ _ _ _ => true
  | .CreateInvestment _ => true
  | .UpdateLoanTotalInvested _ _ => true
  | .UpdateLoanAgreementLetterURL _ _ => true
  | .CreateDisbursement _ => true
  | _ => false

def Call.isPayment : Call → Bool
  | .ProcessPayment _ _ => true
  | _ => false

/-- The state a service operation runs in: the datastore as seen by the running
statement, and the calls made so far, oldest first. -/
structure World where
  db : DB
  calls : List Call

/-- A Go function returning `(T, error)` that may call collaborators. -/
def Tx (α : Type) : Type := World → Except Error α × World

/-- Sequencing with the idiom `if err != nil { return nil, err }`. -/
def Tx.bind {α β : Type} (m : Tx α) (f : α → Tx β) : Tx β := fun w =>
  match m w with
  | (.ok a, w1) => f a w1
  | (.error err, w1) => (.error err, w1)

instance : Monad Tx where
  pure a := fun w => (.ok a, w)
  bind := Tx.bind

/-- The statement `return nil, err`. -/
def Tx.fail {α : Type} (err : Error) : Tx α := fun w => (.error err, w)

/-- The idiom `if err != nil { return nil, fmt.Errorf("<context>: %w", err) }`. -/
def Tx.wrapErr {α : Type} (context : String) (m : Tx α) : Tx α := fun w =>
  match m w with
  | (.ok a, w1) => (.ok a, w1)
  | (.error err, w1) => (.error (.wrap context err), w1)

/-- A call through `LoanRepositoryInterface`: it is recorded and run on the datastore. -/
def repoCall {α : Type} (c : Call) (q : DB → Except Error α × DB) : Tx α := fun w =>
  ((q w.db).1, { db := (q w.db).2, calls := w.calls ++ [c] })

namespace loanRepo

def CreateLoan (env : Env) (loan : Loan) : Tx Loan :=
  repoCall (.CreateLoan loan)
    (fun db => LoanRepository.CreateLoan env.createLoanErr env.newID env.dbNow db loan)

def GetLoanByID (env : Env) (loanID : UUID) : Tx Loan :=
  repoCall (.GetLoanByID loanID)
    (fun db => LoanRepository.GetLoanByID env.getLoanErr db loanID)

def CreateApproval (env : Env) (approval : Approval) : Tx Approval :=
  repoCall (.CreateApproval approval)
    (fun db => LoanRepository.CreateApproval env.createApprovalErr env.dbNow db approval)

def UpdateLoanState (env : Env) (loanID : UUID) (newState : LoanState) : Tx Loan :=
  repoCall (.UpdateLoanState loanID newState)
    (fun db => LoanRepository.UpdateLoanState env.updateLoanStateErr env.dbNow db loanID newState)

def RecordLoanStateHistory (env : Env) (prevState : LoanState) (loan : Loan)
    (employeeID : UUID) (changeReason : String) : Tx LoanStateHistory :=
  repoCall (.RecordLoanStateHistory prevState loan employeeID changeReason)
    (fun db => LoanRepository.RecordLoanStateHistory env.recordHistoryErr env.historyID
      env.goNow env.dbNow db prevState loan employeeID changeReason)

def CreateInvestment (env : Env) (investment : Investment) : Tx Investment :=
  repoCall (.CreateInvestment investment)
    (fun db => LoanRepository.CreateInvestment env.createInvestmentErr env.dbNow db investment)

def UpdateLoanTotalInvested (env : Env) (loanID : UUID) (newTotal : ℚ) : Tx Loan :=
  repoCall (.UpdateLoanTotalInvested loanID newTotal)
    (fun db => LoanRepository.UpdateLoanTotalInvested env.updateTotalInvestedErr env.dbNow db
      loanID newTotal)

def UpdateLoanAgreementLetterURL (env : Env) (loanID : UUID) (agreementURL : String) :
    Tx Unit :=
  repoCall (.UpdateLoanAgreementLetterURL loanID agreementURL)
    (fun db => LoanRepository.UpdateLoanAgreementLetterURL env.updateAgreementURLErr env.dbNow
      db loanID agreementURL)

def CreateDisbursement (env : Env) (disbursement : Disbursement) : Tx Disbursement :=
  repoCall (.CreateDisbursement disbursement)
    (fun db => LoanRepository.CreateDisbursement env.createDisbursementErr env.dbNow db
      disbursement)

end loanRepo

namespace paymentAdapter

/-- A call through `PaymentAdapterInterface`; the provider's answer comes from `env`. -/
def ProcessPayment (env : Env) (amount : ℚ) (token : String) : Tx PaymentResult := fun w =>
  (env.payment, { w with calls := w.calls ++ [.ProcessPayment amount token] })

end paymentAdapter

namespace LoanService

/-- The method `withTransaction`.  `fn` is the closure passed in; besides its error it
yields the value `captured` that it assigned to the variable of the enclosing function
(`init` if it was never run).  A transaction that is rolled back, or whose commit
fails, leaves the datastore as it was at `Begin`. -/
def withTransaction {σ : Type} (env : Env) (init : σ)
    (fn : World → (σ × Option Error) × World) (w : World) : (σ × Option Error) × World :=
  let w0 : World := { w with calls := w.calls ++ [.Begin] }
  match env.beginErr with
  | some err => ((init, some (.wrap "failed to begin transaction" err)), w0)
  | none =>
    match fn w0 with
    | ((captured, some err), w1) =>
      let w2 : World := { db := w.db, calls := w1.calls ++ [.Rollback] }
      match env.rollbackErr with
      | some rollbackErr => ((captured, some (.rollbackFailed rollbackErr err)), w2)
      | none => ((captured, some err), w2)
    | ((captured, none), w1) =>
      match env.commitErr with
      | some err =>
        ((captured, some (.wrap "failed to commit transaction" err)),
          { db := w.db, calls := w1.calls ++ [.Commit] })
      | none => ((captured, none), { db := w1.db, calls := w1.calls ++ [.Commit] })

/-- The closure `func(tx) error { result, err = body(tx); return err }`. -/
def capture {α : Type} (body : Tx α) (w : World) : (Option α × Option Error) × World :=
  match body w with
  | (.ok result, w1) => ((some result, none), w1)
  | (.error err, w1) => ((none, some err), w1)

def ProcessCreateLoan (env : Env) (req : CreateLoanRequest) : Tx LoanSummaryResponse := do
  let loan : Loan :=
    { ID := uuidNil
      CreatedAt := env.goNow
      UpdatedAt := env.goNow
      DeletedAt := none
      BorrowerID := req.BorrowerID
      PrincipalAmount := req.PrincipalAmount
      InterestRate := req.InterestRate
      ROI := req.ROI
      State := LoanStateProposed
      AgreementLetterURL := ""
      TotalInvested := 0
      Borrower := none
      Investments := [] }
  let loan ← loanRepo.CreateLoan env loan
  let loanWithBorrower ← loanRepo.GetLoanByID env loan.ID
  pure
    { ID := loanWithBorrower.ID
      BorrowerName := (loanWithBorrower.Borrower.map Borrower.FullName).getD ""
      PrincipalAmount := loanWithBorrower.PrincipalAmount
      InterestRate := loanWithBorrower.InterestRate
      ROI := loanWithBorrower.ROI
      State := loanWithBorrower.State
      TotalInvested := loanWithBorrower.TotalInvested
      RemainingInvestment := loanWithBorrower.RemainingInvestmentAmount
      InvestorCount := loanWithBorrower.Investments.length
      CreatedAt := loanWithBorrower.CreatedAt
      UpdatedAt := loanWithBorrower.UpdatedAt }

def processApproveLoanTx (env : Env) (id : UUID) (req : CreateApprovalRequest) :
    Tx LoanApprovalResponse := do
  let approval : Approval :=
    { ID := env.newID
      CreatedAt := env.goNow
      UpdatedAt := env.goNow
      LoanID := id
      ValidatorID := req.ValidatorID
      ApprovalDate := req.ApprovalDate
      VisitProofImageURL := req.VisitProofImageURL
      VisitProofImageType := req.VisitProofImageType
      Notes := req.Notes }
  let loan ← loanRepo.GetLoanByID env id
  match loan.ValidateStateTransition LoanStateApproved with
  | some err => Tx.fail (.wrap "loan approval validation failed" err)
  | none => do
    let approval ← loanRepo.CreateApproval env approval
    let state ← loanRepo.UpdateLoanState env approval.LoanID LoanStateApproved
    let _record ← loanRepo.RecordLoanStateHistory env LoanStateProposed state
      approval.ValidatorID "Loan approved"
    pure
      { ID := approval.ID
        LoanID := approval.LoanID
        ValidatorID := approval.ValidatorID
        ApprovalDate := approval.ApprovalDate
        VisitProofImageURL := approval.VisitProofImageURL
        VisitProofImageType := approval.VisitProofImageType
        Notes := approval.Notes
        CreatedAt := approval.CreatedAt
        UpdatedAt := approval.UpdatedAt }

def ProcessApproveLoan (env : Env) (id : UUID) (req : CreateApprovalRequest) (w : World) :
    (Option LoanApprovalResponse × Option Error) × World :=
  withTransaction env none (capture (processApproveLoanTx env id req)) w

/-- The method `mockAgreementLetterURL`; its error result is always nil. -/
def mockAgreementLetterURL (loan : Loan) : String × Option Error :=
  let filename := "agreement_loan_" ++ loan.ID.take 8 ++ ".pdf"
  let agreementURL := "https://storage.example.com/agreements?loan_id=" ++ loan.ID
    ++ "&filename=" ++ filename ++ "&token=" ++ "mock-token-123"
  (agreementURL, none)

/-- The block of `processInvestmentTx` guarded by
`updatedLoan.IsFullyInvested() && updatedLoan.State == LoanStateApproved`. -/
def autoAdvance (env : Env) (loanID : UUID) (updatedLoan : Loan) : Tx Unit :=
  match updatedLoan.ValidateStateTransition LoanStateInvested with
  | some err => Tx.fail (.wrap "cannot transition to invested state" err)
  | none => do
    let newState ← loanRepo.UpdateLoanState env loanID LoanStateInvested
    match mockAgreementLetterURL newState with
    | (_, some err) => Tx.fail err
    | (agreementURL, none) => do
      loanRepo.UpdateLoanAgreementLetterURL env loanID agreementURL
      let _ ← loanRepo.RecordLoanStateHistory env LoanStateApproved newState
        env.SystemEmployeeID "Investment target achieved"
      pure ()

/-- The method `processInvestmentTx`.  The pre-check and the expected return
`req.Amount * (1 + loan.ROI)` are computed in exact arithmetic, not rounded to
binary64. -/
def processInvestmentTx (env : Env) (loanID : UUID) (req : CreateInvestmentRequest) :
    Tx InvestmentResponse := do
  let loan ← loanRepo.GetLoanByID env loanID
  match loan.ValidateInvestmentAmount req.Amount with
  | some err => Tx.fail (.wrap "investment validation failed" err)
  | none => do
    let investment : Investment :=
      { ID := env.newID
        CreatedAt := env.goNow
        UpdatedAt := env.goNow
        LoanID := loanID
        InvestorID := req.InvestorID
        Amount := req.Amount
        ExpectedReturn := req.Amount * (1 + loan.ROI)
        InvestmentDate := req.InvestmentDate
        AgreementSent := false
        AgreementSentAt := none }
    let investment ← loanRepo.CreateInvestment env investment
    let updatedLoan ← Tx.wrapErr "investment processing failed"
      (loanRepo.UpdateLoanTotalInvested env loanID req.Amount)
    let _ ← (if updatedLoan.IsFullyInvested && updatedLoan.State == LoanStateApproved then
      autoAdvance env loanID updatedLoan else pure ())
    pure
      { ID := investment.ID
        LoanID := investment.LoanID
        InvestorID := investment.InvestorID
        Amount := investment.Amount
        ExpectedReturn := investment.ExpectedReturn
        InvestmentDate := investment.InvestmentDate
        CreatedAt := investment.CreatedAt
        UpdatedAt := investment.UpdatedAt }

def ProcessInvestment (env : Env) (loanID : UUID) (req : CreateInvestmentRequest)
    (w : World) : (Option InvestmentResponse × Option Error) × World :=
  withTransaction env none (capture (processInvestmentTx env loanID req)) w

def processDisbursementTx (env : Env) (loanID : UUID) (req : CreateDisbursementRequest) :
    Tx DisbursementResponse := do
  let loan ← loanRepo.GetLoanByID env loanID
  match loan.ValidateStateTransition LoanStateDisbursed with
  | some err => Tx.fail (.wrap "disbursement validation failed" err)
  | none =>
    if req.DisbursedAmount ≠ loan.PrincipalAmount then
      Tx.fail (.amountMismatch req.DisbursedAmount loan.PrincipalAmount)
    else do
      let disbursement : Disbursement :=
        { ID := env.newID
          CreatedAt := env.goNow
          UpdatedAt := env.goNow
          LoanID := loanID
          FieldOfficerID := req.FieldOfficerID
          DisbursementDate := req.DisbursementDate
          SignedAgreementURL := req.SignedAgreementURL
          SignedAgreementFileType := req.SignedAgreementFileType
          DisbursedAmount := req.DisbursedAmount
          Notes := req.Notes }
      let disbursement ← loanRepo.CreateDisbursement env disbursement
      let newState ← loanRepo.UpdateLoanState env loanID LoanStateDisbursed
      let _ ← loanRepo.RecordLoanStateHistory env LoanStateInvested newState
        req.FieldOfficerID "Loan disbursed"
      let _paymentResult ← Tx.wrapErr "payment processing failed"
        (paymentAdapter.ProcessPayment env req.DisbursedAmount
          ("disbursement_token_" ++ loanID))
      pure
        { ID := disbursement.ID
          LoanID := disbursement.LoanID
          FieldOfficerID := disbursement.FieldOfficerID
          DisbursementDate := disbursement.DisbursementDate
          SignedAgreementURL := disbursement.SignedAgreementURL
          SignedAgreementFileType := disbursement.SignedAgreementFileType
          DisbursedAmount := disbursement.DisbursedAmount
          Notes := disbursement.Notes
          CreatedAt := disbursement.CreatedAt
          UpdatedAt := disbursement.UpdatedAt }

def ProcessDisbursement (env : Env) (loanID : UUID) (req : CreateDisbursementRequest)
    (w : World) : (Option DisbursementResponse × Option Error) × World :=
  withTransaction env none (capture (processDisbursementTx env loanID req)) w

end LoanService


/-! ## Runs of the workflow -/

/-- A workflow operation with its arguments. -/
inductive Op where
  | createLoan (req : CreateLoanRequest)
  | approve (id : UUID) (req : CreateApprovalRequest)
  | invest (loanID : UUID) (req : CreateInvestmentRequest)
  | disburse (loanID : UUID) (req : CreateDisbursementRequest)
  deriving DecidableEq, Repr

/-- The world an operation leaves behind, whether it succeeded or failed. -/
def Op.run (env : Env) : Op → World → World
  | .createLoan req, w => (LoanService.ProcessCreateLoan env req w).2
  | .approve id req, w => (LoanService.ProcessApproveLoan env id req w).2
  | .invest loanID req, w => (LoanService.ProcessInvestment env loanID req w).2
  | .disburse loanID req, w => (LoanService.ProcessDisbursement env loanID req w).2

/-- The worlds seen when operations run one after another, each against its own
environment: the starting world first, then the world after each operation. -/
def runOps (w : World) : List (Env × Op) → List World
  | [] => [w]
  | (env, op) :: rest => w :: runOps (op.run env w) rest

/-- The `state` column of the loan `k`, if the row exists. -/
def stateOf (k : UUID) (w : World) : Option LoanState :=
  (w.db.loans k).map (fun r => r.state)

/-- Drop every element that repeats its predecessor. -/
def dropRepeats : List LoanState → List LoanState
  | [] => []
  | [a] => [a]
  | a :: b :: rest => if a = b then dropRepeats (b :: rest) else a :: dropRepeats (b :: rest)

/-- The sequence of states the loan `k` visits along a list of worlds. -/
def statesVisited (k : UUID) (ws : List World) : List LoanState :=
  dropRepeats (ws.filterMap (stateOf k))

/-- The lifecycle, in order. -/
def lifecycle : List LoanState :=
  [LoanStateProposed, LoanStateApproved, LoanStateInvested, LoanStateDisbursed]

/-- The part of the lifecycle that starts at `s`; a string that is not on the lifecycle,
like the terminal state, is followed by nothing. -/
def lifecycleFrom (s : LoanState) : List LoanState :=
  if s = LoanStateProposed then
    [LoanStateProposed, LoanStateApproved, LoanStateInvested, LoanStateDisbursed]
  else if s = LoanStateApproved then [LoanStateApproved, LoanStateInvested, LoanStateDisbursed]
  else if s = LoanStateInvested then [LoanStateInvested, LoanStateDisbursed]
  else [s]

/-- What one operation may do to a loan row: the principal is kept, the total does not
decrease and, where it changes, stays within the principal, and the state is kept or
moves along a legal transition. -/
def RowStep (r r1 : LoanRow) : Prop :=
  r1.principal_amount = r.principal_amount
  ∧ r.total_invested ≤ r1.total_invested
  ∧ (r1.total_invested = r.total_invested ∨ r1.total_invested ≤ r1.principal_amount)
  ∧ (r1.state = r.state ∨ LoanState.CanTransitionTo r.state r1.state = true)

/-- What one operation may do to the table of loans: every row makes a `RowStep`, and a
row that appears is a proposed loan with nothing invested. -/
def TableStep (t t1 : UUID → Option LoanRow) : Prop :=
  ∀ k, (∀ r, t k = some r → ∃ r1, t1 k = some r1 ∧ RowStep r r1)
    ∧ (t k = none → ∀ r1, t1 k = some r1 →
        r1.total_invested = 0 ∧ r1.state = LoanStateProposed)

/-! ## A concrete world -/

/-- An environment in which nothing outside the program fails. -/
def exampleEnv : Env :=
  { newID := "6ba7b810-9dad-11d1-80b4-00c04fd430c8"
    historyID := "6ba7b811-9dad-11d1-80b4-00c04fd430c8"
    goNow := 5
    dbNow := 7
    SystemEmployeeID := "00000000-0000-0000-0000-000000000001"
    beginErr := none
    commitErr := none
    rollbackErr := none
    createLoanErr := none
    getLoanErr := none
    createApprovalErr := none
    updateLoanStateErr := none
    recordHistoryErr := none
    createInvestmentErr := none
    updateTotalInvestedErr := none
    updateAgreementURLErr := none
    createDisbursementErr := none
    payment := .ok { TransactionID := "mock_txn_123456", Status := "success",
                     Message := "Payment processed successfully (mock)" } }

/-- An approved loan of 10000 with 6000 invested. -/
def exampleRow : LoanRow :=
  { borrower_id := "B1"
    principal_amount := 10000
    interest_rate := 1 / 10
    roi := 1 / 20
    state := LoanStateApproved
    agreement_letter_url := ""
    total_invested := 6000
    created_at := 1
    updated_at := 2
    deleted_at := none }

/-- A datastore holding the loan `L1` (the row `exampleRow`) and its borrower `B1`. -/
def exampleDB : DB :=
  { loans := fun k => if k = "L1" then some exampleRow else none
    borrowers := fun k => if k = "B1" then some { first_name := "John", last_name := "Doe" }
      else none
    approvals := []
    investments := []
    disbursements := []
    loan_state_histories := [] }

def exampleWorld : World :=
  { db := exampleDB, calls := [] }

/-- A datastore with the borrower `B1` and no loan. -/
def emptyWorld : World :=
  { db := { exampleDB with loans := fun _ => none }, calls := [] }

/-- The scenario create (principal 10000, rate 0.10, ROI 0.05), approve, invest 6000,
invest 4000, disburse 10000; the loan gets the identifier `exampleEnv.newID`. -/
def exampleRun : List (Env × Op) :=
  [ (exampleEnv, .createLoan ⟨"B1", 10000, 1 / 10, 1 / 20⟩),
    (exampleEnv, .approve exampleEnv.newID ⟨exampleEnv.newID, "V1", 3, "proof.jpg", "jpeg", ""⟩),
    (exampleEnv, .invest exampleEnv.newID ⟨exampleEnv.newID, "I1", 6000, 4⟩),
    (exampleEnv, .invest exampleEnv.newID ⟨exampleEnv.newID, "I2", 4000, 5⟩),
    (exampleEnv, .disburse exampleEnv.newID
      ⟨exampleEnv.newID, "F1", 6, "signed.pdf", "pdf", 10000, ""⟩) ]

/-! ## Names for the values built by `processInvestmentTx` -/

/-- The `models.Investment` literal of `processInvestmentTx`, for a loan with ROI `roi`;
the product `Amount * (1 + roi)` is exact, not rounded to binary64. -/
def LoanService.newInvestment (env : Env) (loanID : UUID) (req : CreateInvestmentRequest)
    (roi : ℚ) : Investment :=
  { ID := env.newID
    CreatedAt := env.goNow
    UpdatedAt := env.goNow
    LoanID := loanID
    InvestorID := req.InvestorID
    Amount := req.Amount
    ExpectedReturn := req.Amount * (1 + roi)
    InvestmentDate := req.InvestmentDate
    AgreementSent := false
    AgreementSentAt := none }

/-- The investment as `CreateInvestment` stores and returns it. -/
def LoanService.storedInvestment (env : Env) (loanID : UUID) (req : CreateInvestmentRequest)
    (roi : ℚ) : Investment :=
  { LoanService.newInvestment env loanID req roi with
    CreatedAt := env.dbNow, UpdatedAt := env.dbNow }

/-- The `models.InvestmentResponse` literal of `processInvestmentTx`. -/
def LoanService.investmentResponse (investment : Investment) : InvestmentResponse :=
  { ID := investment.ID
    LoanID := investment.LoanID
    InvestorID := investment.InvestorID
    Amount := investment.Amount
    ExpectedReturn := investment.ExpectedReturn
    InvestmentDate := investment.InvestmentDate
    CreatedAt := investment.CreatedAt
    UpdatedAt := investment.UpdatedAt }

/-- The loan row after the accumulate statement has added `delta`. -/
def LoanRow.accumulated (now : Time) (r : LoanRow) (delta : ℚ) : LoanRow :=
  { r with total_invested := r.total_invested + delta, updated_at := now }

/-- The loan row after `UpdateLoanState(invested)`. -/
def LoanRow.advanced (now : Time) (r : LoanRow) : LoanRow :=
  { r with state := LoanStateInvested, updated_at := now }

/-- The loan row at the end of the auto-advance: invested, with the generated agreement
letter attached. -/
def LoanRow.funded (now : Time) (id : UUID) (r : LoanRow) : LoanRow :=
  { r with
    state := LoanStateInvested
    agreement_letter_url := (LoanService.mockAgreementLetterURL ((r.advanced now).scan id)).1
    updated_at := now }

/-- The history row written by the auto-advance. -/
def LoanService.targetAchievedHistory (env : Env) (id : UUID) : LoanStateHistory :=
  { ID := env.historyID
    CreatedAt := env.dbNow
    UpdatedAt := env.dbNow
    LoanID := id
    PreviousState := LoanStateApproved
    NewState := LoanStateInvested
    ChangedBy := env.SystemEmployeeID
    ChangeReason := "Investment target achieved"
    ChangeDate := env.goNow }

/-- The datastore with one more row in `investments`. -/
def DB.addInvestment (db : DB) (investment : Investment) : DB :=
  { db with investments := db.investments ++ [investment] }

/-- Every call into the SQL driver succeeds: begin, commit and each statement. -/
def Env.StorageOK (env : Env) : Prop :=
  env.beginErr = none ∧ env.commitErr = none ∧ env.createLoanErr = none
  ∧ env.getLoanErr = none ∧ env.createApprovalErr = none ∧ env.updateLoanStateErr = none
  ∧ env.recordHistoryErr = none ∧ env.createInvestmentErr = none
  ∧ env.updateTotalInvestedErr = none ∧ env.updateAgreementURLErr = none
  ∧ env.createDisbursementErr = none

/-- An invested loan of 10000, fully funded, with its agreement letter attached. -/
def fundedRow : LoanRow :=
  { borrower_id := "B1"
    principal_amount := 10000
    interest_rate := 1 / 10
    roi := 1 / 20
    state := LoanStateInvested
    agreement_letter_url := "https://storage.example.com/agreements?loan_id=L2&filename=agreement_loan_L2.pdf&token=mock-token-123"
    total_invested := 10000
    created_at := 1
    updated_at := 4
    deleted_at := none }

/-- A datastore holding the loan `L2` (the row `fundedRow`) and its borrower `B1`. -/
def fundedWorld : World :=
  { db := { exampleDB with loans := fun k => if k = "L2" then some fundedRow else none },
    calls := [] }

/-- A request to disburse 10000 of the loan `L2`. -/
def exampleDisbursementRequest : CreateDisbursementRequest :=
  { LoanID := "L2"
    FieldOfficerID := "F1"
    DisbursementDate := 6
    SignedAgreementURL := "signed.pdf"
    SignedAgreementFileType := "pdf"
    DisbursedAmount := 10000
    Notes := "" }

/-- The environment `exampleEnv` with a payment provider that fails. -/
def failingPaymentEnv : Env :=
  { exampleEnv with payment := .error (.external "payment provider unavailable") }

/-- The `models.Disbursement` literal of `processDisbursementTx`. -/
def LoanService.newDisbursement (env : Env) (loanID : UUID)
    (req : CreateDisbursementRequest) : Disbursement :=
  { ID := env.newID
    CreatedAt := env.goNow
    UpdatedAt := env.goNow
    LoanID := loanID
    FieldOfficerID := req.FieldOfficerID
    DisbursementDate := req.DisbursementDate
    SignedAgreementURL := req.SignedAgreementURL
    SignedAgreementFileType := req.SignedAgreementFileType
    DisbursedAmount := req.DisbursedAmount
    Notes := req.Notes }

/-- The disbursement as `CreateDisbursement` stores and returns it. -/
def LoanService.storedDisbursement (env : Env) (loanID : UUID)
    (req : CreateDisbursementRequest) : Disbursement :=
  { LoanService.newDisbursement env loanID req with
    CreatedAt := env.dbNow, UpdatedAt := env.dbNow }

/-- The `models.DisbursementResponse` literal of `processDisbursementTx`. -/
def LoanService.disbursementResponse (disbursement : Disbursement) : DisbursementResponse :=
  { ID := disbursement.ID
    LoanID := disbursement.LoanID
    FieldOfficerID := disbursement.FieldOfficerID
    DisbursementDate := disbursement.DisbursementDate
    SignedAgreementURL := disbursement.SignedAgreementURL
    SignedAgreementFileType := disbursement.SignedAgreementFileType
    DisbursedAmount := disbursement.DisbursedAmount
    Notes := disbursement.Notes
    CreatedAt := disbursement.CreatedAt
    UpdatedAt := disbursement.UpdatedAt }

/-- The loan row after `UpdateLoanState(disbursed)`. -/
def LoanRow.disbursed (now : Time) (r : LoanRow) : LoanRow :=
  { r with state := LoanStateDisbursed, updated_at := now }

/-- The history row written by a disbursement. -/
def LoanService.disbursedHistory (env : Env) (id : UUID) (officer : UUID) : LoanStateHistory :=
  { ID := env.historyID
    CreatedAt := env.dbNow
    UpdatedAt := env.dbNow
    LoanID := id
    PreviousState := LoanStateInvested
    NewState := LoanStateDisbursed
    ChangedBy := officer
    ChangeReason := "Loan disbursed"
    ChangeDate := env.goNow }

/-- The storage part of a disbursement, as the datastore sees it inside the transaction:
the disbursement row, the disbursed state and the history row. -/
def DB.disbursedBy (db : DB) (env : Env) (id : UUID) (req : CreateDisbursementRequest)
    (r : LoanRow) : DB :=
  { db with
    loans := fun k => if k = id then some (r.disbursed env.dbNow) else db.loans k
    disbursements := db.disbursements ++ [LoanService.storedDisbursement env id req]
    loan_state_histories := db.loan_state_histories
      ++ [LoanService.disbursedHistory env id req.FieldOfficerID] }

/-! ## Panics inside a transaction -/

/-- What running a Go closure gives: it returns its result, or it panics with the
value `p`. -/
inductive Outcome (α : Type) where
  | returned (a : α)
  | panicked (p : String)
  deriving DecidableEq, Repr

namespace LoanService

/-- The method `withTransaction` with its deferred `recover` written out: the closure
may panic, and then the deferred function rolls the transaction back and panics again
with the same value.  On closures that return it is `withTransaction`. -/
def withTransactionRecover {σ : Type} (env : Env) (init : σ)
    (fn : World → Outcome (σ × Option Error) × World) (w : World) :
    Outcome (σ × Option Error) × World :=
  let w0 : World := { w with calls := w.calls ++ [.Begin] }
  match env.beginErr with
  | some err => (.returned (init, some (.wrap "failed to begin transaction" err)), w0)
  | none =>
    match fn w0 with
    | (.panicked p, w1) => (.panicked p, { db := w.db, calls := w1.calls ++ [.Rollback] })
    | (.returned (captured, some err), w1) =>
      let w2 : World := { db := w.db, calls := w1.calls ++ [.Rollback] }
      match env.rollbackErr with
      | some rollbackErr => (.returned (captured, some (.rollbackFailed rollbackErr err)), w2)
      | none => (.returned (captured, some err), w2)
    | (.returned (captured, none), w1) =>
      match env.commitErr with
      | some err =>
        (.returned (captured, some (.wrap "failed to commit transaction" err)),
          { db := w.db, calls := w1.calls ++ [.Commit] })
      | none => (.returned (captured, none), { db := w1.db, calls := w1.calls ++ [.Commit] })

/-- A closure that never panics, seen as one that may. -/
def returning {σ : Type} (fn : World → (σ × Option Error) × World) (w : World) :
    Outcome (σ × Option Error) × World :=
  (.returned (fn w).1, (fn w).2)

end LoanService

/-- A closure that marks the loan `L2` as disbursed and then panics. -/
def panickingWrite (w : World) : Outcome (Option Unit × Option Error) × World :=
  (.panicked "runtime error: invalid memory address or nil pointer dereference",
    { db := w.db.setLoan "L2" (fundedRow.disbursed 7),
      calls := w.calls ++ [.UpdateLoanState "L2" LoanStateDisbursed] })

/-! ## pkg/response/response.go -/

namespace response

/-- The struct `Response`; `Data` is the loan summary when there is one. -/
structure Response where
  Status : String
  Message : String
  Code : String
  Data : Option LoanSummaryResponse
  Errors : List String
  deriving DecidableEq, Repr

/-- What `c.JSON(status, body)` writes. -/
structure Written where
  status : Nat
  body : Response
  deriving DecidableEq, Repr

def CodeCreated : String := "CREATED"
def CodeBadRequest : String := "BAD_REQUEST"
def CodeValidationError : String := "VALIDATION_ERROR"

def StatusCreated : Nat := 201
def StatusBadRequest : Nat := 400

def Created (message : String) (data : LoanSummaryResponse) : Written :=
  { status := StatusCreated
    body := { Status := "success", Message := message, Code := CodeCreated, Data := some data,
              Errors := [] } }

def BadRequest (message : String) : Written :=
  { status := StatusBadRequest
    body := { Status := "failed", Message := message, Code := CodeBadRequest, Data := none,
              Errors := [] } }

def ValidationError (message : String) (errors : List String) : Written :=
  { status := StatusBadRequest
    body := { Status := "failed", Message := message, Code := CodeValidationError,
              Data := none, Errors := errors } }

/-- One entry of `validator.ValidationErrors`: the results of `Field()`, `Tag()` and
`Param()`. -/
structure FieldError where
  Field : String
  Tag : String
  Param : String
  deriving DecidableEq, Repr

/-- The message `ParseValidationErrors` builds for one entry. -/
def fieldMessage (fieldError : FieldError) : String :=
  let fieldName :=
    if fieldError.Field.contains '.' then
      (fieldError.Field.splitOn ".").getLastD fieldError.Field
    else fieldError.Field
  let fieldName := fieldName.toLower
  if fieldError.Tag = "required" then fieldName ++ " is required"
  else if fieldError.Tag = "gt" then fieldName ++ " must be greater than " ++ fieldError.Param
  else if fieldError.Tag = "gte" then
    fieldName ++ " must be greater than or equal to " ++ fieldError.Param
  else if fieldError.Tag = "lt" then fieldName ++ " must be less than " ++ fieldError.Param
  else if fieldError.Tag = "lte" then
    fieldName ++ " must be less than or equal to " ++ fieldError.Param
  else if fieldError.Tag = "email" then fieldName ++ " must be a valid email address"
  else if fieldError.Tag = "uuid" then fieldName ++ " must be a valid UUID"
  else fieldName ++ " failed validation: " ++ fieldError.Tag

/-- The function `ParseValidationErrors`, on an error that is a
`validator.ValidationErrors`. -/
def ParseValidationErrors (validationErrors : List FieldError) : List String :=
  validationErrors.map fieldMessage

def ValidationErrorFromValidator (message : String) (err : List FieldError) : Written :=
  ValidationError message (ParseValidationErrors err)

end response

/-! ## internal/handlers/loan_handlers.go -/

namespace validate

/-- The tags of one numeric field, checked left to right; the first tag that fails is
the one reported.  Each tag comes with its parameter and whether the value passes. -/
def field (name : String) (tags : List (String × String × Bool)) : List response.FieldError :=
  match tags.find? (fun t => !t.2.2) with
  | some t => [{ Field := name, Tag := t.1, Param := t.2.1 }]
  | none => []

/-- The call `validator.New().Struct(req)` on a `CreateLoanRequest`, by the `validate`
tags of its fields (in the order of the fields): `required` fails on the zero value,
`gt`, `gte` and `lte` compare with their parameter.  The empty list is a nil error. -/
def Struct (req : CreateLoanRequest) : List response.FieldError :=
  field "BorrowerID" [("required", "", decide (req.BorrowerID ≠ uuidNil))]
  ++ field "PrincipalAmount"
      [("required", "", decide (req.PrincipalAmount ≠ 0)),
       ("gt", "0", decide (req.PrincipalAmount > 0))]
  ++ field "InterestRate"
      [("required", "", decide (req.InterestRate ≠ 0)),
       ("gte", "0", decide (req.InterestRate ≥ 0)),
       ("lte", "1", decide (req.InterestRate ≤ 1))]
  ++ field "ROI"
      [("required", "", decide (req.ROI ≠ 0)),
       ("gte", "0", decide (req.ROI ≥ 0)),
       ("lte", "1", decide (req.ROI ≤ 1))]

end validate

namespace LoanHandler

/-- The handler `CreateLoan`, from the point where `ShouldBindJSON` has filled `req`
(a body that does not bind is answered with `BadRequest` before anything else). -/
def CreateLoan (env : Env) (req : CreateLoanRequest) (w : World) : response.Written × World :=
  match validate.Struct req with
  | e :: es => (response.ValidationErrorFromValidator "Validation failed" (e :: es), w)
  | [] =>
    if req.ROI > req.InterestRate then
      (response.BadRequest "ROI cannot be higher than interest rate", w)
    else
      match LoanService.ProcessCreateLoan env req w with
      | (.error _, w1) => (response.BadRequest "Failed to create loan", w1)
      | (.ok loan, w1) => (response.Created "Loan created successfully" loan, w1)

end LoanHandler

/-- The row that `ProcessCreateLoan` inserts for `req`. -/
def LoanRow.proposedFrom (now : Time) (req : CreateLoanRequest) : LoanRow :=
  { borrower_id := req.BorrowerID
    principal_amount := req.PrincipalAmount
    interest_rate := req.InterestRate
    roi := req.ROI
    state := LoanStateProposed
    agreement_letter_url := ""
    total_invested := 0
    created_at := now
    updated_at := now
    deleted_at := none }

/-- A request with principal -100. -/
def negativePrincipalRequest : CreateLoanRequest :=
  { BorrowerID := "B1", PrincipalAmount := -100, InterestRate := 1 / 10, ROI := 1 / 20 }

/-- The history row written by an approval. -/
def LoanService.approvedHistory (env : Env) (id : UUID) (validator : UUID) :
    LoanStateHistory :=
  { ID := env.historyID
    CreatedAt := env.dbNow
    UpdatedAt := env.dbNow
    LoanID := id
    PreviousState := LoanStateProposed
    NewState := LoanStateApproved
    ChangedBy := validator
    ChangeReason := "Loan approved"
    ChangeDate := env.goNow }

/-! ## The notification scheduler: internal/models, repository and adapter parts -/

/-- The struct `Investor` (with its embedded `BaseModel`), without the relationship
field. -/
structure Investor where
  ID : UUID
  CreatedAt : Time
  UpdatedAt : Time
  InvestorCode : String
  Name : String
  Email : String
  PhoneNumber : String
  IsActive : Bool
  deriving DecidableEq, Repr

/-- The struct `EmailNotification`, with the fields `processSendingEmail` fills in. -/
structure EmailNotification where
  ID : UUID
  CreatedAt : Time
  UpdatedAt : Time
  InvestorID : UUID
  LoanID : UUID
  EmailType : String
  EmailSubject : String
  EmailBody : String
  SentAt : Time
  Status : String
  deriving DecidableEq, Repr

/-- A row of the table `investors` without its primary key. -/
structure InvestorRow where
  investor_code : String
  name : String
  email : String
  phone_number : String
  is_active : Bool
  created_at : Time
  updated_at : Time
  deleted_at : Option Time
  deriving DecidableEq, Repr

/-- The calls the scheduler makes on its collaborators (repository and e-mail adapter). -/
inductive CronCall where
  | GetInvestmentsNeedingAgreementEmail
  | GetLoanByID (loanID : UUID)
  | GetBorrowerByID (borrowerID : UUID)
  | GetInvestorByID (investorID : UUID)
  | SendEmail (toAddr subject body : String)
  | UpdateInvestmentAgreementSent (investmentID : UUID) (agreementSent : Bool)
      (agreementSentAt : Option Time)
  | CreateEmailNotification (notification : EmailNotification)
  deriving DecidableEq, Repr

/-- The state a scheduler pass runs in: the datastore `db`, the tables and the column
that only the scheduler looks at (`investors`, `email_notifications`, and
`deleted_at` of `borrowers`, keyed by the borrower's id), and the calls made so far,
oldest first.  The scheduler uses no transaction: every statement acts on the
datastore directly. -/
structure CronWorld where
  db : DB
  borrowers_deleted_at : UUID → Option Time
  investors : UUID → Option InvestorRow
  email_notifications : List EmailNotification
  calls : List CronCall

/-- Everything one scheduler pass obtains from outside the program.  `fault n c` is the
error, if any, that the SQL driver or the e-mail provider returns for the call `c`
made when `n` calls have been made before it; `now n` is the reading of `time.Now()`
and `newID n` the result of `uuid.New()` at that point, `dbNow n` is
`CURRENT_TIMESTAMP` in that call.  `mapRank` fixes the order in which this pass
ranges over the map of groups (Go leaves it open): keys are visited by increasing
rank.  `GenerateAgreementEmailBody` is the method of `EmailAdapterInterface`. -/
structure CronEnv where
  fault : Nat → CronCall → Option Error
  now : Nat → Time
  dbNow : Nat → Time
  newID : Nat → UUID
  mapRank : UUID → Nat
  GenerateAgreementEmailBody : Investment → Loan → Investor → Borrower → String

namespace LoanRepository

/-- The rows selected by `SELECT ... FROM investments i INNER JOIN loans l ON i.loan_id =
l.id AND l.deleted_at IS NULL WHERE i.agreement_sent = false AND l.state = 'invested'
ORDER BY i.created_at ASC`; rows with equal `created_at` stay in table order. -/
def pendingAgreementStmt (db : DB) : List Investment :=
  (db.investments.filter (fun i =>
      !i.AgreementSent &&
        (match db.loans i.LoanID with
         | some l => l.deleted_at.isNone && l.state == "invested"
         | none => false))).insertionSort (fun a b => a.CreatedAt ≤ b.CreatedAt)

def GetInvestmentsNeedingAgreementEmail (driverErr : Option Error) (db : DB) :
    Except Error (List Investment) :=
  match driverErr with
  | some err => .error err
  | none => .ok (pendingAgreementStmt db)

/-- The statement `UPDATE investments SET agreement_sent = $1, agreement_sent_at = $2,
updated_at = CURRENT_TIMESTAMP WHERE id = $3`, run with `Exec`: matching no row is not
an error. -/
def markAgreementStmt (now : Time) (investmentID : UUID) (agreementSent : Bool)
    (agreementSentAt : Option Time) (db : DB) : DB :=
  { db with
    investments := db.investments.map (fun i =>
      if i.ID = investmentID then
        { i with AgreementSent := agreementSent, AgreementSentAt := agreementSentAt,
                 UpdatedAt := now }
      else i) }

def UpdateInvestmentAgreementSent (driverErr : Option Error) (now : Time) (db : DB)
    (investmentID : UUID) (agreementSent : Bool) (agreementSentAt : Option Time) :
    Option Error × DB :=
  match driverErr with
  | some err => (some err, db)
  | none => (none, markAgreementStmt now investmentID agreementSent agreementSentAt db)

/-- The method `GetInvestorByID`: `SELECT ... FROM investors WHERE id = $1 AND deleted_at
IS NULL`, scanned with `QueryRow(...).Scan(...)`. -/
def GetInvestorByID (driverErr : Option Error) (investors : UUID → Option InvestorRow)
    (investorID : UUID) : Except Error Investor :=
  match driverErr with
  | some err => .error err
  | none =>
    match investors investorID with
    | none => .error .errNoRows
    | some r =>
      if r.deleted_at.isSome then .error .errNoRows
      else .ok { ID := investorID, CreatedAt := r.created_at, UpdatedAt := r.updated_at,
                 InvestorCode := r.investor_code, Name := r.name, Email := r.email,
                 PhoneNumber := r.phone_number, IsActive := r.is_active }

/-- The method `GetBorrowerByID`: `SELECT ... FROM borrowers WHERE id = $1 AND deleted_at
IS NULL`. -/
def GetBorrowerByID (driverErr : Option Error) (db : DB)
    (borrowers_deleted_at : UUID → Option Time) (borrowerID : UUID) :
    Except Error Borrower :=
  match driverErr with
  | some err => .error err
  | none =>
    match db.borrowers borrowerID with
    | none => .error .errNoRows
    | some b =>
      if (borrowers_deleted_at borrowerID).isSome then .error .errNoRows
      else .ok { ID := borrowerID, FirstName := b.first_name, LastName := b.last_name }

/-- The method `CreateEmailNotification`: `INSERT INTO email_notifications (...) VALUES
(..., CURRENT_TIMESTAMP, CURRENT_TIMESTAMP) RETURNING created_at, updated_at`. -/
def CreateEmailNotification (driverErr : Option Error) (now : Time)
    (email_notifications : List EmailNotification) (notification : EmailNotification) :
    Option Error × List EmailNotification :=
  match driverErr with
  | some err => (some err, email_notifications)
  | none =>
    (none, email_notifications ++ [{ notification with CreatedAt := now, UpdatedAt := now }])

end LoanRepository

namespace cronRepo

def GetInvestmentsNeedingAgreementEmail (env : CronEnv) (w : CronWorld) :
    Except Error (List Investment) × CronWorld :=
  (LoanRepository.GetInvestmentsNeedingAgreementEmail
      (env.fault w.calls.length .GetInvestmentsNeedingAgreementEmail) w.db,
    { w with calls := w.calls ++ [.GetInvestmentsNeedingAgreementEmail] })

def GetLoanByID (env : CronEnv) (loanID : UUID) (w : CronWorld) :
    Except Error Loan × CronWorld :=
  ((LoanRepository.GetLoanByID (env.fault w.calls.length (.GetLoanByID loanID)) w.db
      loanID).1,
    { w with calls := w.calls ++ [.GetLoanByID loanID] })

def GetBorrowerByID (env : CronEnv) (borrowerID : UUID) (w : CronWorld) :
    Except Error Borrower × CronWorld :=
  (LoanRepository.GetBorrowerByID (env.fault w.calls.length (.GetBorrowerByID borrowerID))
      w.db w.borrowers_deleted_at borrowerID,
    { w with calls := w.calls ++ [.GetBorrowerByID borrowerID] })

def GetInvestorByID (env : CronEnv) (investorID : UUID) (w : CronWorld) :
    Except Error Investor × CronWorld :=
  (LoanRepository.GetInvestorByID (env.fault w.calls.length (.GetInvestorByID investorID))
      w.investors investorID,
    { w with calls := w.calls ++ [.GetInvestorByID investorID] })

def UpdateInvestmentAgreementSent (env : CronEnv) (investmentID : UUID)
    (agreementSent : Bool) (agreementSentAt : Option Time) (w : CronWorld) :
    Option Error × CronWorld :=
  let c := CronCall.UpdateInvestmentAgreementSent investmentID agreementSent agreementSentAt
  let out := LoanRepository.UpdateInvestmentAgreementSent (env.fault w.calls.length c)
    (env.dbNow w.calls.length) w.db investmentID agreementSent agreementSentAt
  (out.1, { w with db := out.2, calls := w.calls ++ [c] })

def CreateEmailNotification (env : CronEnv) (notification : EmailNotification)
    (w : CronWorld) : Option Error × CronWorld :=
  let c := CronCall.CreateEmailNotification notification
  let out := LoanRepository.CreateEmailNotification (env.fault w.calls.length c)
    (env.dbNow w.calls.length) w.email_notifications notification
  (out.1, { w with email_notifications := out.2, calls := w.calls ++ [c] })

end cronRepo

namespace emailAdapter

/-- A call of `SendEmail` through `EmailAdapterInterface`; the provider's answer comes
from `env`. -/
def SendEmail (env : CronEnv) (toAddr subject body : String) (w : CronWorld) :
    Option Error × CronWorld :=
  (env.fault w.calls.length (.SendEmail toAddr subject body),
    { w with calls := w.calls ++ [.SendEmail toAddr subject body] })

end emailAdapter

/-! ## internal/services/cron_service.go -/

namespace CronService

/-- The subject line `fmt.Sprintf("Investment Agreement - Loan #%s", loan.ID.String()[:8])`. -/
def subject (loan : Loan) : String :=
  "Investment Agreement - Loan #" ++ loan.ID.take 8

/-- The `models.EmailNotification` literal of `processSendingEmail`. -/
def newNotification (id : UUID) (now : Time) (investment : Investment) (subject body : String) :
    EmailNotification :=
  { ID := id
    CreatedAt := now
    UpdatedAt := now
    InvestorID := investment.InvestorID
    LoanID := investment.LoanID
    EmailType := "agreement_notification"
    EmailSubject := subject
    EmailBody := body
    SentAt := now
    Status := "sent" }

/-- The method `processSendingEmail`; the result is its `error`. -/
def processSendingEmail (env : CronEnv) (investment : Investment) (loan : Loan)
    (borrower : Borrower) (w : CronWorld) : Option Error × CronWorld :=
  match cronRepo.GetInvestorByID env investment.InvestorID w with
  | (.error err, w1) => (some (.wrap "failed to get investor" err), w1)
  | (.ok investor, w1) =>
    let subject := subject loan
    let body := env.GenerateAgreementEmailBody investment loan investor borrower
    match emailAdapter.SendEmail env investor.Email subject body w1 with
    | (some err, w2) => (some (.wrap "failed to send email" err), w2)
    | (none, w2) =>
      let now := env.now w2.calls.length
      match cronRepo.UpdateInvestmentAgreementSent env investment.ID true (some now) w2 with
      | (some err, w3) => (some (.wrap "failed to update investment" err), w3)
      | (none, w3) =>
        let notification :=
          newNotification (env.newID w3.calls.length) now investment subject body
        match cronRepo.CreateEmailNotification env notification w3 with
        | (_, w4) => (none, w4)

/-- The loop `for _, investment := range investments` of `processInvestmentsForLoan`: an
error of `processSendingEmail` is logged and the loop continues. -/
def sendAll (env : CronEnv) (loan : Loan) (borrower : Borrower) :
    List Investment → CronWorld → CronWorld
  | [], w => w
  | investment :: rest, w =>
    sendAll env loan borrower rest (processSendingEmail env investment loan borrower w).2

/-- The method `processInvestmentsForLoan`; the result is its `error`. -/
def processInvestmentsForLoan (env : CronEnv) (loanID : UUID) (investments : List Investment)
    (w : CronWorld) : Option Error × CronWorld :=
  match cronRepo.GetLoanByID env loanID w with
  | (.error err, w1) => (some (.wrap "failed to get loan" err), w1)
  | (.ok loan, w1) =>
    match cronRepo.GetBorrowerByID env loan.BorrowerID w1 with
    | (.error err, w2) => (some (.wrap "failed to get borrower" err), w2)
    | (.ok borrower, w2) => (none, sendAll env loan borrower investments w2)

/-- The statement `investmentsByLoan[k] = append(investmentsByLoan[k], investment)` on a
map kept as the list of its entries. -/
def appendAt : List (UUID × List Investment) → UUID → Investment →
    List (UUID × List Investment)
  | [], k, investment => [(k, [investment])]
  | (k1, group) :: rest, k, investment =>
    if k1 = k then (k1, group ++ [investment]) :: rest
    else (k1, group) :: appendAt rest k investment

/-- The grouping loop of `processInvestmentAgreements`: the map `investmentsByLoan`. -/
def groupByLoan (investments : List Investment) : List (UUID × List Investment) :=
  investments.foldl (fun m investment => appendAt m investment.LoanID investment) []

/-- The entries of the map in the order `for loanID, loanInvestments := range
investmentsByLoan` visits them in this pass. -/
def rangeOrder (env : CronEnv) (m : List (UUID × List Investment)) :
    List (UUID × List Investment) :=
  m.insertionSort (fun a b => env.mapRank a.1 ≤ env.mapRank b.1)

/-- The loop over the groups of `processInvestmentAgreements`: an error of
`processInvestmentsForLoan` is logged and the loop continues. -/
def processGroups (env : CronEnv) : List (UUID × List Investment) → CronWorld → CronWorld
  | [], w => w
  | (loanID, loanInvestments) :: rest, w =>
    processGroups env rest (processInvestmentsForLoan env loanID loanInvestments w).2

/-- The method `processInvestmentAgreements`: one pass of the scheduler. -/
def processInvestmentAgreements (env : CronEnv) (w : CronWorld) : CronWorld :=
  match cronRepo.GetInvestmentsNeedingAgreementEmail env w with
  | (.error _, w1) => w1
  | (.ok investments, w1) =>
    if investments.length = 0 then w1
    else processGroups env (rangeOrder env (groupByLoan investments)) w1

end CronService

/-- The loans fetched, the borrowers fetched, the investors fetched, the recipients of
the e-mails sent and the investments marked as sent (flag true, with a timestamp),
as read off a call. -/
def CronCall.loanFetched : CronCall → Option UUID
  | .GetLoanByID loanID => some loanID
  | _ => none

def CronCall.borrowerFetched : CronCall → Option UUID
  | .GetBorrowerByID borrowerID => some borrowerID
  | _ => none

def CronCall.investorFetched : CronCall → Option UUID
  | .GetInvestorByID investorID => some investorID
  | _ => none

def CronCall.sentTo : CronCall → Option String
  | .SendEmail toAddr _ _ => some toAddr
  | _ => none

def CronCall.marked : CronCall → Option UUID
  | .UpdateInvestmentAgreementSent investmentID true (some _) => some investmentID
  | _ => none

def CronCall.isMark : CronCall → Bool
  | .UpdateInvestmentAgreementSent _ _ _ => true
  | _ => false

def CronCall.isNotification : CronCall → Bool
  | .CreateEmailNotification _ => true
  | _ => false

/-- An environment in which no call fails. -/
def quietCronEnv : CronEnv :=
  { fault := fun _ _ => none
    now := fun n => 100 + n
    dbNow := fun n => 200 + n
    newID := fun n => if n ≤ 6 then "e0000000-0000-0000-0000-000000000001"
      else "e0000000-0000-0000-0000-000000000002"
    mapRank := fun _ => 0
    GenerateAgreementEmailBody := fun _ _ investor _ => "Dear " ++ investor.Name }

/-- Two investments of 6000 and 4000 in the loan `L2`, by the investors `I1` and `I2`,
neither marked as sent. -/
def pendingInvestments : List Investment :=
  [ { ID := "N1", CreatedAt := 3, UpdatedAt := 3, LoanID := "L2", InvestorID := "I1",
      Amount := 6000, InvestmentDate := 3, ExpectedReturn := 6300, AgreementSent := false,
      AgreementSentAt := none },
    { ID := "N2", CreatedAt := 4, UpdatedAt := 4, LoanID := "L2", InvestorID := "I2",
      Amount := 4000, InvestmentDate := 4, ExpectedReturn := 4200, AgreementSent := false,
      AgreementSentAt := none } ]

/-- The invested loan `L2` with its two unsent investments, and the investors `I1` and
`I2`. -/
def pendingWorld : CronWorld :=
  { db := { fundedWorld.db with investments := pendingInvestments }
    borrowers_deleted_at := fun _ => none
    investors := fun k =>
      if k = "I1" then
        some { investor_code := "INV-1", name := "Ann", email := "ann@example.com",
               phone_number := "", is_active := true, created_at := 1, updated_at := 1,
               deleted_at := none }
      else if k = "I2" then
        some { investor_code := "INV-2", name := "Bob", email := "bob@example.com",
               phone_number := "", is_active := true, created_at := 1, updated_at := 1,
               deleted_at := none }
      else none
    email_notifications := []
    calls := [] }

/-! ## Names for the calls made by `processSendingEmail`

`n` is the number of calls made before `processSendingEmail` is entered. -/

/-- The investor lookup. -/
def CronService.lookupCall (investment : Investment) : CronCall :=
  .GetInvestorByID investment.InvestorID

/-- The `SendEmail` call, for the investor found. -/
def CronService.sendCall (env : CronEnv) (investment : Investment) (loan : Loan)
    (investor : Investor) (borrower : Borrower) : CronCall :=
  .SendEmail investor.Email (CronService.subject loan)
    (env.GenerateAgreementEmailBody investment loan investor borrower)

/-- The `UpdateInvestmentAgreementSent` call. -/
def CronService.markCall (env : CronEnv) (n : Nat) (investment : Investment) : CronCall :=
  .UpdateInvestmentAgreementSent investment.ID true (some (env.now (n + 2)))

/-- The `CreateEmailNotification` call. -/
def CronService.notifyCall (env : CronEnv) (n : Nat) (investment : Investment) (loan : Loan)
    (investor : Investor) (borrower : Borrower) : CronCall :=
  .CreateEmailNotification
    (CronService.newNotification (env.newID (n + 3)) (env.now (n + 2)) investment
      (CronService.subject loan)
      (env.GenerateAgreementEmailBody investment loan investor borrower))

/-- The datastore after the investment has been marked as sent. -/
def CronService.markedDB (env : CronEnv) (n : Nat) (investment : Investment) (db : DB) : DB :=
  LoanRepository.markAgreementStmt (env.dbNow (n + 2)) investment.ID true
    (some (env.now (n + 2))) db

/-- The table `email_notifications` after the `CreateEmailNotification` call: with the
new row, or unchanged if the call failed. -/
def CronService.notified (env : CronEnv) (n : Nat) (investment : Investment) (loan : Loan)
    (investor : Investor) (borrower : Borrower) (table : List EmailNotification) :
    List EmailNotification :=
  (LoanRepository.CreateEmailNotification
    (env.fault (n + 3) (CronService.notifyCall env n investment loan investor borrower))
    (env.dbNow (n + 3)) table
    (CronService.newNotification (env.newID (n + 3)) (env.now (n + 2)) investment
      (CronService.subject loan)
      (env.GenerateAgreementEmailBody investment loan investor borrower))).2

/-- An environment in which recording the audit notification fails and nothing else
does. -/
def failingNotificationEnv : CronEnv :=
  { quietCronEnv with
    fault := fun _ c =>
      if c.isNotification then some (.external "pq: relation email_notifications is locked")
      else none }

/-- An environment in which the e-mail provider fails and nothing else does. -/
def failingEmailEnv : CronEnv :=
  { quietCronEnv with
    fault := fun _ c =>
      match c with
      | .SendEmail _ _ _ => some (.external "smtp: connection refused")
      | _ => none }

/-- The first pending investment, `N1`. -/
def firstPending : Investment :=
  { ID := "N1", CreatedAt := 3, UpdatedAt := 3, LoanID := "L2", InvestorID := "I1",
    Amount := 6000, InvestmentDate := 3, ExpectedReturn := 6300, AgreementSent := false,
    AgreementSentAt := none }

/-- The borrower `B1` as `GetBorrowerByID` returns it. -/
def exampleBorrower : Borrower :=
  { ID := "B1", FirstName := "John", LastName := "Doe" }

/-- The loan `loanID` can be loaded with its borrower: the row exists and is not deleted,
and its borrower's row exists and is not deleted. -/
def CronWorld.GroupReady (w : CronWorld) (loanID : UUID) : Prop :=
  ∃ r b, w.db.loans loanID = some r ∧ r.deleted_at = none
    ∧ w.db.borrowers r.borrower_id = some b ∧ w.borrowers_deleted_at r.borrower_id = none

/-- The investor `investorID` can be loaded: the row exists and is not deleted. -/
def CronWorld.InvestorReady (w : CronWorld) (investorID : UUID) : Prop :=
  ∃ r, w.investors investorID = some r ∧ r.deleted_at = none

/-- The e-mail address stored for an investor (empty if there is no such row). -/
def CronWorld.emailOf (w : CronWorld) (investorID : UUID) : String :=
  match w.investors investorID with
  | some r => r.email
  | none => ""

/-- In this pass the SQL driver fails on no loan lookup and on no borrower lookup. -/
def CronEnv.NoLookupFault (env : CronEnv) : Prop :=
  ∀ n id, env.fault n (.GetLoanByID id) = none ∧ env.fault n (.GetBorrowerByID id) = none

/-- In this pass neither the SQL driver nor the e-mail provider fails on any call. -/
def CronEnv.AllQuiet (env : CronEnv) : Prop :=
  ∀ n c, env.fault n c = none

/-- The map `m` groups the investments `seen` by loan: its keys are distinct, each key
holds the investments of `seen` for that loan, in the order of `seen`, and at least
one; every loan of `seen` is a key; and the groups together hold each investment of
`seen` once. -/
def CronService.Grouped (m : List (UUID × List Investment)) (seen : List Investment) : Prop :=
  (m.map (fun g => g.1)).Nodup
  ∧ (∀ k g, (k, g) ∈ m → g = seen.filter (fun i => i.LoanID = k) ∧ g ≠ [])
  ∧ (∀ i ∈ seen, i.LoanID ∈ m.map (fun g => g.1))
  ∧ (m.flatMap (fun g => g.2)).Perm seen

/-- An environment in which the e-mail provider refuses the address `ann@example.com`
and nothing else fails. -/
def failingFirstEmailEnv : CronEnv :=
  { quietCronEnv with
    fault := fun _ c =>
      match c with
      | .SendEmail toAddr _ _ =>
        if toAddr = "ann@example.com" then some (.external "smtp: mailbox unavailable")
        else none
      | _ => none }

/-- An environment in which every loan lookup fails and nothing else does. -/
def failingLoanLookupEnv : CronEnv :=
  { quietCronEnv with
    fault := fun _ c =>
      match c with
      | .GetLoanByID _ => some (.external "pq: connection reset by peer")
      | _ => none }

/-! ## Properties of the state model -/

theorem states_distinct :
    LoanStateProposed ≠ LoanStateApproved ∧ LoanStateProposed ≠ LoanStateInvested
    ∧ LoanStateProposed ≠ LoanStateDisbursed ∧ LoanStateApproved ≠ LoanStateInvested
    ∧ LoanStateApproved ≠ LoanStateDisbursed ∧ LoanStateInvested ≠ LoanStateDisbursed := by
  decide

theorem canTransitionTo_eq (current target : LoanState) :
    LoanState.CanTransitionTo current target =
      if current = LoanStateProposed then decide (target = LoanStateApproved)
      else if current = LoanStateApproved then decide (target = LoanStateInvested)
      else if current = LoanStateInvested then decide (target = LoanStateDisbursed)
      else false := by
  unfold LoanState.CanTransitionTo validTransitions
  split_ifs <;> simp [LoanState.rangeAllowed, eq_comm]

/-- C1: `CanTransitionTo` holds exactly for the three pairs proposed to approved,
approved to invested and invested to disbursed, for arbitrary strings; nothing
follows disbursed and no state follows itself. -/
theorem C1_canTransitionTo_iff (current target : LoanState) :
    (LoanState.CanTransitionTo current target = true ↔
      (current = LoanStateProposed ∧ target = LoanStateApproved)
      ∨ (current = LoanStateApproved ∧ target = LoanStateInvested)
      ∨ (current = LoanStateInvested ∧ target = LoanStateDisbursed))
    ∧ LoanState.CanTransitionTo LoanStateDisbursed target = false
    ∧ LoanState.CanTransitionTo current current = false := by
  obtain ⟨h1, h2, h3, h4, h5, h6⟩ := states_distinct
  refine ⟨?_, ?_, ?_⟩
  · rw [canTransitionTo_eq]
    by_cases c1 : current = LoanStateProposed
    · subst c1; simp [h1, h2]
    · by_cases c2 : current = LoanStateApproved
      · subst c2; simp [h1.symm, h4]
      · by_cases c3 : current = LoanStateInvested
        · subst c3; simp [h2.symm, h4.symm]
        · simp [c1, c2, c3]
  · rw [canTransitionTo_eq]
    simp [h3.symm, h5.symm, h6.symm]
  · rw [canTransitionTo_eq]
    by_cases c1 : current = LoanStateProposed
    · subst c1; simp [h1]
    · by_cases c2 : current = LoanStateApproved
      · subst c2; simp [h1.symm, h4]
      · by_cases c3 : current = LoanStateInvested
        · subst c3; simp [h2.symm, h4.symm, h6]
        · simp [c1, c2, c3]

theorem isValid_iff (t : LoanState) :
    LoanState.IsValid t = true ↔
      t = LoanStateProposed ∨ t = LoanStateApproved ∨ t = LoanStateInvested
        ∨ t = LoanStateDisbursed := by
  unfold LoanState.IsValid validStates
  split_ifs <;> simp_all

theorem validateStateTransition_disbursed (l : Loan) :
    l.ValidateStateTransition LoanStateDisbursed =
      if l.State = LoanStateInvested then l.validateDisbursementTransition
      else some (.cannotTransition l.State LoanStateDisbursed) := by
  obtain ⟨h1, h2, h3, h4, h5, h6⟩ := states_distinct
  have hv : LoanState.IsValid LoanStateDisbursed = true := by decide
  unfold Loan.ValidateStateTransition
  rw [canTransitionTo_eq]
  by_cases c1 : l.State = LoanStateProposed
  · simp [hv, c1, h2, h3, h3.symm, h5.symm, h6.symm]
  · by_cases c2 : l.State = LoanStateApproved
    · simp [hv, c2, h1.symm, h4, h3.symm, h5.symm, h6.symm]
    · by_cases c3 : l.State = LoanStateInvested
      · simp [hv, c3, h2.symm, h4.symm, h3.symm, h5.symm, h6.symm]
      · simp [hv, c1, c2, c3]

theorem validateStateTransition_approved (l : Loan) :
    l.ValidateStateTransition LoanStateApproved =
      if l.State = LoanStateProposed then none
      else some (.cannotTransition l.State LoanStateApproved) := by
  obtain ⟨h1, h2, h3, h4, h5, h6⟩ := states_distinct
  have hv : LoanState.IsValid LoanStateApproved = true := by decide
  unfold Loan.ValidateStateTransition Loan.validateApprovalTransition
  rw [canTransitionTo_eq]
  by_cases c1 : l.State = LoanStateProposed
  · simp [hv, c1]
  · by_cases c2 : l.State = LoanStateApproved
    · simp [hv, c2, h1.symm, h4, h5]
    · by_cases c3 : l.State = LoanStateInvested
      · simp [hv, c3, h2.symm, h4.symm, h5]
      · simp [hv, c1, c2, c3]

theorem validateStateTransition_invested (l : Loan) :
    l.ValidateStateTransition LoanStateInvested =
      if l.State = LoanStateApproved then none
      else some (.cannotTransition l.State LoanStateInvested) := by
  obtain ⟨h1, h2, h3, h4, h5, h6⟩ := states_distinct
  have hv : LoanState.IsValid LoanStateInvested = true := by decide
  unfold Loan.ValidateStateTransition Loan.validateInvestmentTransition
  rw [canTransitionTo_eq]
  by_cases c1 : l.State = LoanStateProposed
  · simp [hv, c1, h1, h2, h2.symm, h4.symm, h6]
  · by_cases c2 : l.State = LoanStateApproved
    · simp [hv, c2, h1.symm, h4.symm]
    · by_cases c3 : l.State = LoanStateInvested
      · simp [hv, c3, h2.symm, h4.symm, h6]
      · simp [hv, c1, c2, c3]

/-- C2: the transition to disbursed is accepted exactly for an invested, fully funded
loan that carries an agreement letter. -/
theorem C2_validate_disbursed_iff (l : Loan) :
    l.ValidateStateTransition LoanStateDisbursed = none ↔
      l.State = LoanStateInvested ∧ l.TotalInvested ≥ l.PrincipalAmount
        ∧ l.AgreementLetterURL ≠ "" := by
  rw [validateStateTransition_disbursed]
  unfold Loan.validateDisbursementTransition Loan.IsFullyInvested
  by_cases c : l.State = LoanStateInvested
  · by_cases f : l.TotalInvested ≥ l.PrincipalAmount
    · by_cases u : l.AgreementLetterURL = "" <;> simp [c, f, u]
    · simp [c, f]
  · simp [c]

/-- C3: approval is accepted exactly from proposed, the transition to invested exactly
from approved, and the explicit state guards never fail once `CanTransitionTo` has
accepted the transition. -/
theorem C3_validate_approved_invested (l : Loan) :
    (l.ValidateStateTransition LoanStateApproved = none ↔ l.State = LoanStateProposed)
    ∧ (l.ValidateStateTransition LoanStateInvested = none ↔ l.State = LoanStateApproved)
    ∧ (LoanState.CanTransitionTo l.State LoanStateApproved = true →
        l.validateApprovalTransition = none)
    ∧ (LoanState.CanTransitionTo l.State LoanStateInvested = true →
        l.validateInvestmentTransition = none) := by
  obtain ⟨h1, h2, h3, h4, h5, h6⟩ := states_distinct
  refine ⟨?_, ?_, ?_, ?_⟩
  · rw [validateStateTransition_approved]; by_cases c : l.State = LoanStateProposed <;> simp [c]
  · rw [validateStateTransition_invested]; by_cases c : l.State = LoanStateApproved <;> simp [c]
  · intro h
    rw [canTransitionTo_eq] at h
    by_cases c1 : l.State = LoanStateProposed
    · simp [Loan.validateApprovalTransition, c1]
    · by_cases c2 : l.State = LoanStateApproved
      · simp [c2, h1.symm, h4] at h
      · by_cases c3 : l.State = LoanStateInvested
        · simp [c3, h2.symm, h4.symm, h5] at h
        · simp [c1, c2, c3] at h
  · intro h
    rw [canTransitionTo_eq] at h
    by_cases c1 : l.State = LoanStateProposed
    · simp [c1, h4.symm] at h
    · by_cases c2 : l.State = LoanStateApproved
      · simp [Loan.validateInvestmentTransition, c2]
      · by_cases c3 : l.State = LoanStateInvested
        · simp [c3, h2.symm, h4.symm, h6] at h
        · simp [c1, c2, c3] at h
/-- C4: `ValidateStateTransition` never accepts a bad request: an invalid target gives
the invalid-target error whatever the loan, a valid target that is not the successor
of the current state gives the cannot-transition error, and acceptance implies that
the target is the successor and that the guard of the target holds. -/
theorem C4_validate_never_silent (l : Loan) (target : LoanState) :
    (LoanState.IsValid target = false →
      l.ValidateStateTransition target = some (.invalidTargetState target)
      ∧ (Error.invalidTargetState target).message = "invalid target state: " ++ target)
    ∧ (LoanState.IsValid target = true → LoanState.CanTransitionTo l.State target = false →
      l.ValidateStateTransition target = some (.cannotTransition l.State target)
      ∧ (Error.cannotTransition l.State target).message
          = "cannot transition from " ++ l.State ++ " to " ++ target)
    ∧ (l.ValidateStateTransition target = none →
      LoanState.IsValid target = true ∧ LoanState.CanTransitionTo l.State target = true
      ∧ (target = LoanStateApproved → l.validateApprovalTransition = none)
      ∧ (target = LoanStateInvested → l.validateInvestmentTransition = none)
      ∧ (target = LoanStateDisbursed → l.validateDisbursementTransition = none)) := by
  obtain ⟨h1, h2, h3, h4, h5, h6⟩ := states_distinct
  refine ⟨?_, ?_, ?_⟩
  · intro hv
    exact ⟨by simp [Loan.ValidateStateTransition, hv], rfl⟩
  · intro hv hc
    exact ⟨by simp [Loan.ValidateStateTransition, hv, hc], rfl⟩
  · intro h
    unfold Loan.ValidateStateTransition at h
    by_cases hv : LoanState.IsValid target = true
    · by_cases hc : LoanState.CanTransitionTo l.State target = true
      · refine ⟨hv, hc, ?_, ?_, ?_⟩
        · intro e; subst e; simpa [hv, hc] using h
        · intro e; subst e; simpa [hv, hc, h4.symm] using h
        · intro e; subst e; simpa [hv, hc, h5.symm, h6.symm] using h
      · simp [hv, hc] at h
    · simp [hv] at h

/-! ## Properties of the ledger repository -/

theorem accumulateStmt_eq (now : Time) (db : DB) (loanID : UUID) (delta : ℚ) :
    LoanRepository.UpdateLoanTotalInvested none now db loanID delta =
      match db.loans loanID with
      | none => (.error .notApplied, db)
      | some r =>
        if r.deleted_at = none ∧ r.state = LoanStateApproved
            ∧ r.total_invested + delta ≤ r.principal_amount then
          (.ok (LoanRow.scan loanID
              { r with total_invested := r.total_invested + delta, updated_at := now }),
            db.setLoan loanID
              { r with total_invested := r.total_invested + delta, updated_at := now })
        else (.error .notApplied, db) := by
  unfold LoanRepository.UpdateLoanTotalInvested queryRow LoanRepository.accumulateStmt
  cases h : db.loans loanID with
  | none => simp
  | some r =>
    have e : (r.deleted_at.isNone = true ∧ r.state = "approved"
          ∧ r.total_invested + delta ≤ r.principal_amount)
        ↔ (r.deleted_at = none ∧ r.state = LoanStateApproved
          ∧ r.total_invested + delta ≤ r.principal_amount) := by
      simp [LoanStateApproved]
    by_cases c : r.deleted_at = none ∧ r.state = LoanStateApproved
        ∧ r.total_invested + delta ≤ r.principal_amount
    · simp only [if_pos c, if_pos (e.2 c)]
    · simp only [if_neg c, if_neg (fun hc => c (e.1 hc)), if_true]

/-- C6: with the statement executed by the driver, the accumulate step is applied exactly
when the row exists, is not soft-deleted, is approved and the new total stays within
the principal; when applied the returned and stored total is the old total plus
delta and no other column but `updated_at` changes, nor any other row or table; when
not applied the datastore is unchanged and the error is the not-applied error.  (If
the driver itself fails nothing is changed either, and its error is passed on.) -/
theorem C6_updateLoanTotalInvested (now : Time) (db : DB) (loanID : UUID) (delta : ℚ) :
    ((∃ loan, (LoanRepository.UpdateLoanTotalInvested none now db loanID delta).1 = .ok loan) ↔
      ∃ r, db.loans loanID = some r ∧ r.deleted_at = none ∧ r.state = LoanStateApproved
        ∧ r.total_invested + delta ≤ r.principal_amount)
    ∧ (∀ loan, (LoanRepository.UpdateLoanTotalInvested none now db loanID delta).1 = .ok loan →
        ∃ r r1, db.loans loanID = some r
          ∧ (LoanRepository.UpdateLoanTotalInvested none now db loanID delta).2.loans loanID
              = some r1
          ∧ loan = r1.scan loanID
          ∧ loan.TotalInvested = r.total_invested + delta
          ∧ r1.total_invested = r.total_invested + delta
          ∧ r1.principal_amount = r.principal_amount
          ∧ r1.interest_rate = r.interest_rate
          ∧ r1.roi = r.roi
          ∧ r1.state = r.state
          ∧ r1.agreement_letter_url = r.agreement_letter_url
          ∧ r1.borrower_id = r.borrower_id
          ∧ r1.created_at = r.created_at
          ∧ r1.deleted_at = r.deleted_at
          ∧ (∀ k, k ≠ loanID →
              (LoanRepository.UpdateLoanTotalInvested none now db loanID delta).2.loans k
                = db.loans k)
          ∧ (LoanRepository.UpdateLoanTotalInvested none now db loanID delta).2.borrowers
              = db.borrowers
          ∧ (LoanRepository.UpdateLoanTotalInvested none now db loanID delta).2.approvals
              = db.approvals
          ∧ (LoanRepository.UpdateLoanTotalInvested none now db loanID delta).2.investments
              = db.investments
          ∧ (LoanRepository.UpdateLoanTotalInvested none now db loanID delta).2.disbursements
              = db.disbursements
          ∧ (LoanRepository.UpdateLoanTotalInvested none now db loanID delta).2.loan_state_histories
              = db.loan_state_histories)
    ∧ (∀ err, (LoanRepository.UpdateLoanTotalInvested none now db loanID delta).1 = .error err →
        err = .notApplied
        ∧ (LoanRepository.UpdateLoanTotalInvested none now db loanID delta).2 = db)
    ∧ Error.notApplied.message
        = "loan not found, already fully invested, or not in approved state"
    ∧ (∀ driverErr : Error,
        LoanRepository.UpdateLoanTotalInvested (some driverErr) now db loanID delta
          = (.error (if driverErr = Error.errNoRows then .notApplied else driverErr), db)) := by
  refine ⟨?_, ?_, ?_, rfl, ?_⟩
  case refine_4 =>
    intro driverErr
    unfold LoanRepository.UpdateLoanTotalInvested queryRow
    by_cases c : driverErr = Error.errNoRows <;> simp [c]
  all_goals rw [accumulateStmt_eq]
  · cases h : db.loans loanID with
    | none => simp
    | some r =>
      by_cases c : r.deleted_at = none ∧ r.state = LoanStateApproved
          ∧ r.total_invested + delta ≤ r.principal_amount
      · simp only [if_pos c]
        simp [c]
      · simp only [if_neg c]
        simpa using fun h1 h2 => not_le.1 (fun h3 => c ⟨h1, h2, h3⟩)
  · cases h : db.loans loanID with
    | none => simp
    | some r =>
      by_cases c : r.deleted_at = none ∧ r.state = LoanStateApproved
          ∧ r.total_invested + delta ≤ r.principal_amount
      · simp only [if_pos c]
        intro loan hl
        have hl2 : loan = LoanRow.scan loanID
            { r with total_invested := r.total_invested + delta, updated_at := now } := by
          simpa using hl.symm
        subst hl2
        refine ⟨r, { r with total_invested := r.total_invested + delta, updated_at := now },
          rfl, ?_, rfl, rfl, rfl, rfl, rfl, rfl, rfl, rfl, rfl, rfl, rfl, ?_, rfl, rfl, rfl,
          rfl, rfl⟩
        · simp [DB.setLoan]
        · intro k hk; simp [DB.setLoan, hk]
      · simp only [if_neg c]
        intro loan hl; simp at hl
  · cases h : db.loans loanID with
    | none =>
      intro err he
      exact ⟨by simpa using he.symm, rfl⟩
    | some r =>
      by_cases c : r.deleted_at = none ∧ r.state = LoanStateApproved
          ∧ r.total_invested + delta ≤ r.principal_amount
      · simp only [if_pos c]
        intro err he; simp at he
      · simp only [if_neg c]
        intro err he
        exact ⟨by simpa using he.symm, trivial⟩

/-! ## Reasoning about `Tx` programs -/

theorem Tx.bind_apply {α β : Type} (m : Tx α) (f : α → Tx β) (w : World) :
    (m >>= f) w =
      match m w with
      | (.ok a, w1) => f a w1
      | (.error err, w1) => (.error err, w1) := rfl

theorem Tx.pure_apply {α : Type} (a : α) (w : World) :
    (pure a : Tx α) w = (.ok a, w) := rfl

theorem Tx.bind_ok {α β : Type} {m : Tx α} {f : α → Tx β} {w w2 : World} {b : β}
    (h : (m >>= f) w = (.ok b, w2)) :
    ∃ a w1, m w = (.ok a, w1) ∧ f a w1 = (.ok b, w2) := by
  rw [Tx.bind_apply] at h
  rcases hm : m w with ⟨_ | a, w1⟩
  · rw [hm] at h; simp at h
  · rw [hm] at h; exact ⟨a, w1, rfl, h⟩

theorem Tx.wrapErr_ok {α : Type} {context : String} {m : Tx α} {w w1 : World} {a : α}
    (h : Tx.wrapErr context m w = (.ok a, w1)) : m w = (.ok a, w1) := by
  unfold Tx.wrapErr at h
  rcases hm : m w with ⟨_ | a, w1⟩
  · rw [hm] at h; simp at h
  · rw [hm] at h; simpa using h


/-! ## The repository calls, one by one -/

theorem getLoan_inv {env : Env} {id : UUID} {w w1 : World} {loan : Loan}
    (h : loanRepo.GetLoanByID env id w = (.ok loan, w1)) :
    w1.db = w.db ∧ w1.calls = w.calls ++ [.GetLoanByID id]
    ∧ ∃ r, w.db.loans id = some r ∧ r.deleted_at = none
      ∧ loan.ID = id ∧ loan.State = r.state ∧ loan.TotalInvested = r.total_invested
      ∧ loan.PrincipalAmount = r.principal_amount
      ∧ loan.AgreementLetterURL = r.agreement_letter_url ∧ loan.ROI = r.roi := by
  unfold loanRepo.GetLoanByID repoCall LoanRepository.GetLoanByID queryRow
    LoanRepository.selectLoanStmt at h
  cases he : env.getLoanErr with
  | some err => simp [he] at h
  | none =>
    cases hr : w.db.loans id with
    | none => simp [he, hr] at h
    | some r =>
      cases hd : r.deleted_at with
      | some t => simp [he, hr, hd] at h
      | none =>
        cases hb : w.db.borrowers r.borrower_id with
        | none => simp [he, hr, hd, hb] at h
        | some b =>
          simp only [he, hr, hd, hb] at h
          simp at h
          obtain ⟨h1, h2⟩ := h
          subst h1 h2
          exact ⟨rfl, rfl, r, rfl, hd, rfl, rfl, rfl, rfl, rfl, rfl⟩

theorem selectLoanStmt_snd (id : UUID) (db : DB) :
    (LoanRepository.selectLoanStmt id db).2 = db := by
  unfold LoanRepository.selectLoanStmt
  split
  · rfl
  · split
    · rfl
    · split <;> rfl

theorem getLoanByID_snd (driverErr : Option Error) (db : DB) (id : UUID) :
    (LoanRepository.GetLoanByID driverErr db id).2 = db := by
  unfold LoanRepository.GetLoanByID queryRow
  cases driverErr with
  | some err => rfl
  | none => exact selectLoanStmt_snd id db

theorem getLoan_world (env : Env) (id : UUID) (w : World) :
    loanRepo.GetLoanByID env id w =
      ((LoanRepository.GetLoanByID env.getLoanErr w.db id).1,
        { db := w.db, calls := w.calls ++ [.GetLoanByID id] }) := by
  unfold loanRepo.GetLoanByID repoCall
  rw [getLoanByID_snd]

theorem createApproval_inv {env : Env} {a a1 : Approval} {w w1 : World}
    (h : loanRepo.CreateApproval env a w = (.ok a1, w1)) :
    a1 = { a with CreatedAt := env.dbNow, UpdatedAt := env.dbNow }
    ∧ w1.db = { w.db with approvals := w.db.approvals ++ [a1] }
    ∧ w1.calls = w.calls ++ [.CreateApproval a] := by
  unfold loanRepo.CreateApproval repoCall LoanRepository.CreateApproval queryRow
    LoanRepository.insertApprovalStmt at h
  cases he : env.createApprovalErr with
  | some err => simp [he] at h
  | none =>
    simp only [he] at h
    simp at h
    obtain ⟨h1, h2⟩ := h
    subst h1 h2
    exact ⟨rfl, rfl, rfl⟩

theorem createInvestment_inv {env : Env} {i i1 : Investment} {w w1 : World}
    (h : loanRepo.CreateInvestment env i w = (.ok i1, w1)) :
    i1 = { i with CreatedAt := env.dbNow, UpdatedAt := env.dbNow }
    ∧ w1.db = { w.db with investments := w.db.investments ++ [i1] }
    ∧ w1.calls = w.calls ++ [.CreateInvestment i] := by
  unfold loanRepo.CreateInvestment repoCall LoanRepository.CreateInvestment queryRow
    LoanRepository.insertInvestmentStmt at h
  cases he : env.createInvestmentErr with
  | some err => simp [he] at h
  | none =>
    simp only [he] at h
    simp at h
    obtain ⟨h1, h2⟩ := h
    subst h1 h2
    exact ⟨rfl, rfl, rfl⟩

theorem createDisbursement_inv {env : Env} {d d1 : Disbursement} {w w1 : World}
    (h : loanRepo.CreateDisbursement env d w = (.ok d1, w1)) :
    d1 = { d with CreatedAt := env.dbNow, UpdatedAt := env.dbNow }
    ∧ w1.db = { w.db with disbursements := w.db.disbursements ++ [d1] }
    ∧ w1.calls = w.calls ++ [.CreateDisbursement d] := by
  unfold loanRepo.CreateDisbursement repoCall LoanRepository.CreateDisbursement queryRow
    LoanRepository.insertDisbursementStmt at h
  cases he : env.createDisbursementErr with
  | some err => simp [he] at h
  | none =>
    simp only [he] at h
    simp at h
    obtain ⟨h1, h2⟩ := h
    subst h1 h2
    exact ⟨rfl, rfl, rfl⟩

theorem recordHistory_inv {env : Env} {prev : LoanState} {loan : Loan} {emp : UUID}
    {reason : String} {hist : LoanStateHistory} {w w1 : World}
    (h : loanRepo.RecordLoanStateHistory env prev loan emp reason w = (.ok hist, w1)) :
    hist = { ID := env.historyID, CreatedAt := env.dbNow, UpdatedAt := env.dbNow,
             LoanID := loan.ID, PreviousState := prev, NewState := loan.State,
             ChangedBy := emp, ChangeReason := reason, ChangeDate := env.goNow }
    ∧ w1.db = { w.db with loan_state_histories := w.db.loan_state_histories ++ [hist] }
    ∧ w1.calls = w.calls ++ [.RecordLoanStateHistory prev loan emp reason] := by
  unfold loanRepo.RecordLoanStateHistory repoCall LoanRepository.RecordLoanStateHistory queryRow
    LoanRepository.insertHistoryStmt at h
  cases he : env.recordHistoryErr with
  | some err => simp [he] at h
  | none =>
    simp only [he] at h
    simp at h
    obtain ⟨h1, h2⟩ := h
    subst h1 h2
    exact ⟨rfl, rfl, rfl⟩

theorem updateLoanState_inv {env : Env} {id : UUID} {s : LoanState} {loan : Loan}
    {w w1 : World} (h : loanRepo.UpdateLoanState env id s w = (.ok loan, w1)) :
    ∃ r, w.db.loans id = some r ∧ r.deleted_at = none
      ∧ loan = LoanRow.scan id { r with state := s, updated_at := env.dbNow }
      ∧ w1.db = w.db.setLoan id { r with state := s, updated_at := env.dbNow }
      ∧ w1.calls = w.calls ++ [.UpdateLoanState id s] := by
  unfold loanRepo.UpdateLoanState repoCall LoanRepository.UpdateLoanState queryRow
    LoanRepository.updateStateStmt at h
  cases he : env.updateLoanStateErr with
  | some err => simp [he] at h
  | none =>
    cases hr : w.db.loans id with
    | none => simp [he, hr] at h
    | some r =>
      by_cases hd : r.deleted_at.isSome = true
      · simp [he, hr, hd] at h
      · simp only [he, hr, hd] at h
        simp at h
        obtain ⟨h1, h2⟩ := h
        subst h1 h2
        exact ⟨r, rfl, by simpa using hd, rfl, rfl, rfl⟩

theorem updateTotalInvested_inv {env : Env} {id : UUID} {delta : ℚ} {loan : Loan}
    {w w1 : World} (h : loanRepo.UpdateLoanTotalInvested env id delta w = (.ok loan, w1)) :
    ∃ r, w.db.loans id = some r ∧ r.deleted_at = none ∧ r.state = LoanStateApproved
      ∧ r.total_invested + delta ≤ r.principal_amount
      ∧ loan = LoanRow.scan id
          { r with total_invested := r.total_invested + delta, updated_at := env.dbNow }
      ∧ w1.db = w.db.setLoan id
          { r with total_invested := r.total_invested + delta, updated_at := env.dbNow }
      ∧ w1.calls = w.calls ++ [.UpdateLoanTotalInvested id delta] := by
  unfold loanRepo.UpdateLoanTotalInvested repoCall at h
  cases he : env.updateTotalInvestedErr with
  | some err =>
    rw [he] at h
    beta_reduce at h
    unfold LoanRepository.UpdateLoanTotalInvested queryRow at h
    by_cases c : err = Error.errNoRows <;> simp [c] at h
  | none =>
    rw [he] at h
    beta_reduce at h
    rw [accumulateStmt_eq] at h
    cases hr : w.db.loans id with
    | none => simp [hr] at h
    | some r =>
      by_cases c : r.deleted_at = none ∧ r.state = LoanStateApproved
          ∧ r.total_invested + delta ≤ r.principal_amount
      · simp only [hr, if_pos c] at h
        simp at h
        obtain ⟨h1, h2⟩ := h
        subst h1 h2
        exact ⟨r, rfl, c.1, c.2.1, c.2.2, rfl, rfl, rfl⟩
      · simp only [hr, if_neg c] at h
        simp at h

theorem updateAgreementURL_inv {env : Env} {id : UUID} {url : String} {w w1 : World}
    (h : loanRepo.UpdateLoanAgreementLetterURL env id url w = (.ok (), w1)) :
    w1.calls = w.calls ++ [.UpdateLoanAgreementLetterURL id url]
    ∧ ∀ r, w.db.loans id = some r → r.deleted_at = none →
        w1.db = w.db.setLoan id { r with agreement_letter_url := url, updated_at := env.dbNow } := by
  unfold loanRepo.UpdateLoanAgreementLetterURL repoCall LoanRepository.UpdateLoanAgreementLetterURL
    queryRow LoanRepository.updateAgreementURLStmt at h
  cases he : env.updateAgreementURLErr with
  | some err => simp [he] at h
  | none =>
    simp only [he] at h
    simp at h
    obtain ⟨-, h2⟩ := h
    subst h2
    refine ⟨rfl, ?_⟩
    intro r hr hd
    simp [hr, hd]

theorem setLoan_loans_same (db : DB) (id : UUID) (r : LoanRow) :
    (db.setLoan id r).loans id = some r := by
  simp [DB.setLoan]

theorem setLoan_setLoan (db : DB) (id : UUID) (r r1 : LoanRow) :
    (db.setLoan id r).setLoan id r1 = db.setLoan id r1 := by
  unfold DB.setLoan
  congr 1
  funext k
  by_cases hk : k = id <;> simp [hk]

/-! ## The successful path of each transactional operation -/

theorem Tx.pure_ok {α : Type} {a b : α} {w w1 : World}
    (h : (pure a : Tx α) w = (.ok b, w1)) : b = a ∧ w1 = w := by
  rw [Tx.pure_apply] at h
  simp at h
  exact ⟨h.1.symm, h.2.symm⟩

theorem processApproveLoanTx_ok {env : Env} {id : UUID} {req : CreateApprovalRequest}
    {w w1 : World} {resp : LoanApprovalResponse}
    (h : LoanService.processApproveLoanTx env id req w = (.ok resp, w1)) :
    ∃ r, w.db.loans id = some r ∧ r.deleted_at = none ∧ r.state = LoanStateProposed
      ∧ w1.db.loans
          = (w.db.setLoan id { r with state := LoanStateApproved, updated_at := env.dbNow }).loans := by
  unfold LoanService.processApproveLoanTx at h
  obtain ⟨loan, wa, h1, h⟩ := Tx.bind_ok h
  obtain ⟨hdb, -, r, hr, hd, -, hst, -⟩ := getLoan_inv h1
  cases hv : loan.ValidateStateTransition LoanStateApproved with
  | some err => rw [hv] at h; simp [Tx.fail] at h
  | none =>
    rw [hv] at h
    have hs : loan.State = LoanStateProposed := by
      rw [validateStateTransition_approved] at hv
      by_contra c
      simp [c] at hv
    obtain ⟨a1, wb, h2, h⟩ := Tx.bind_ok h
    obtain ⟨ha1, hdbb, -⟩ := createApproval_inv h2
    obtain ⟨st, wc, h3, h⟩ := Tx.bind_ok h
    obtain ⟨r2, hr2, -, -, hdbc, -⟩ := updateLoanState_inv h3
    obtain ⟨hist, wd, h4, h⟩ := Tx.bind_ok h
    obtain ⟨-, hdbd, -⟩ := recordHistory_inv h4
    obtain ⟨-, hw1⟩ := Tx.pure_ok h
    subst hw1
    have hid : a1.LoanID = id := by rw [ha1]
    rw [hid] at hr2 hdbc
    have hr2' : r2 = r := by
      rw [hdbb, hdb] at hr2
      simp only [] at hr2
      rw [hr] at hr2
      exact (Option.some.inj hr2).symm
    subst hr2'
    refine ⟨r2, hr, hd, hst ▸ hs, ?_⟩
    rw [hdbd, hdbc, hdbb, hdb]
    rfl
theorem validateDisbursed_none {l : Loan}
    (h : l.ValidateStateTransition LoanStateDisbursed = none) :
    l.State = LoanStateInvested ∧ l.TotalInvested ≥ l.PrincipalAmount
      ∧ l.AgreementLetterURL ≠ "" := by
  rw [validateStateTransition_disbursed] at h
  unfold Loan.validateDisbursementTransition Loan.IsFullyInvested at h
  by_cases c : l.State = LoanStateInvested
  · by_cases f : l.TotalInvested ≥ l.PrincipalAmount
    · by_cases u : l.AgreementLetterURL = ""
      · simp [c, f, u] at h
      · exact ⟨c, f, u⟩
    · simp [c, f] at h
  · simp [c] at h

theorem Tx.fail_ne_ok {α : Type} {err : Error} {w w1 : World} {a : α}
    (h : (Tx.fail err : Tx α) w = (.ok a, w1)) : False := by
  simp [Tx.fail] at h

theorem processDisbursementTx_ok {env : Env} {id : UUID} {req : CreateDisbursementRequest}
    {w w1 : World} {resp : DisbursementResponse}
    (h : LoanService.processDisbursementTx env id req w = (.ok resp, w1)) :
    ∃ r, w.db.loans id = some r ∧ r.deleted_at = none ∧ r.state = LoanStateInvested
      ∧ r.total_invested ≥ r.principal_amount ∧ r.agreement_letter_url ≠ ""
      ∧ req.DisbursedAmount = r.principal_amount
      ∧ w1.db.loans
          = (w.db.setLoan id { r with state := LoanStateDisbursed, updated_at := env.dbNow }).loans := by
  unfold LoanService.processDisbursementTx at h
  obtain ⟨loan, wa, h1, h⟩ := Tx.bind_ok h
  obtain ⟨hdb, -, r, hr, hd, -, hst, htot, hpr, hurl, -⟩ := getLoan_inv h1
  cases hv : loan.ValidateStateTransition LoanStateDisbursed with
  | some err => rw [hv] at h; exact (Tx.fail_ne_ok h).elim
  | none =>
    rw [hv] at h
    obtain ⟨hs, hfull, hu⟩ := validateDisbursed_none hv
    by_cases hamt : req.DisbursedAmount ≠ loan.PrincipalAmount
    · rw [if_pos hamt] at h
      exact (Tx.fail_ne_ok h).elim
    · rw [if_neg hamt] at h
      obtain ⟨d1, wb, h2, h⟩ := Tx.bind_ok h
      obtain ⟨-, hdbb, -⟩ := createDisbursement_inv h2
      obtain ⟨st, wc, h3, h⟩ := Tx.bind_ok h
      obtain ⟨r2, hr2, -, -, hdbc, -⟩ := updateLoanState_inv h3
      obtain ⟨hist, wd, h4, h⟩ := Tx.bind_ok h
      obtain ⟨-, hdbd, -⟩ := recordHistory_inv h4
      obtain ⟨pr, we, h5, h⟩ := Tx.bind_ok h
      have h5' := Tx.wrapErr_ok h5
      have hdbe : we.db = wd.db := by
        unfold paymentAdapter.ProcessPayment at h5'
        simp at h5'
        rw [← h5'.2]
      obtain ⟨-, hw1⟩ := Tx.pure_ok h
      subst hw1
      have hr2' : r2 = r := by
        rw [hdbb, hdb] at hr2
        simp only [] at hr2
        rw [hr] at hr2
        exact (Option.some.inj hr2).symm
      subst hr2'
      refine ⟨r2, hr, hd, hst ▸ hs, ?_, ?_, ?_, ?_⟩
      · rw [← htot, ← hpr]; exact hfull
      · rw [← hurl]; exact hu
      · rw [← hpr]; exact not_not.1 hamt
      · rw [hdbe, hdbd, hdbc, hdbb, hdb]
        rfl
theorem autoAdvance_ok {env : Env} {id : UUID} {upd : Loan} {w w1 : World} {r1 : LoanRow}
    {u : Unit} (h : LoanService.autoAdvance env id upd w = (.ok u, w1))
    (hr : w.db.loans id = some r1) :
    w1.db.loans
      = (w.db.setLoan id
          { r1 with
            state := LoanStateInvested
            agreement_letter_url :=
              (LoanService.mockAgreementLetterURL
                (LoanRow.scan id { r1 with state := LoanStateInvested, updated_at := env.dbNow })).1
            updated_at := env.dbNow }).loans := by
  unfold LoanService.autoAdvance at h
  cases hv : upd.ValidateStateTransition LoanStateInvested with
  | some err => rw [hv] at h; exact (Tx.fail_ne_ok h).elim
  | none =>
    rw [hv] at h
    obtain ⟨newState, wb, h1, h⟩ := Tx.bind_ok h
    obtain ⟨r2, hr2, hd2, hns, hdbb, -⟩ := updateLoanState_inv h1
    have e : r2 = r1 := by rw [hr] at hr2; exact (Option.some.inj hr2).symm
    subst e
    simp only [LoanService.mockAgreementLetterURL] at h
    obtain ⟨u2, wc, h2, h⟩ := Tx.bind_ok h
    obtain ⟨-, hurl⟩ := updateAgreementURL_inv h2
    have hdbc := hurl { r2 with state := LoanStateInvested, updated_at := env.dbNow }
      (by rw [hdbb]; exact setLoan_loans_same _ _ _) hd2
    obtain ⟨hist, wd, h3, h⟩ := Tx.bind_ok h
    obtain ⟨-, hdbd, -⟩ := recordHistory_inv h3
    obtain ⟨-, hw1⟩ := Tx.pure_ok h
    subst hw1
    rw [hdbd, hdbc, hdbb, setLoan_setLoan, hns]
    rfl

theorem validateInvestmentAmount_none {l : Loan} {amount : ℚ}
    (h : l.ValidateInvestmentAmount amount = none) :
    0 < amount ∧ l.State = LoanStateApproved
      ∧ amount ≤ l.PrincipalAmount - l.TotalInvested := by
  unfold Loan.ValidateInvestmentAmount Loan.RemainingInvestmentAmount at h
  by_cases a : amount ≤ 0
  · simp [a] at h
  · by_cases s : l.State = LoanStateApproved
    · by_cases r : amount > l.PrincipalAmount - l.TotalInvested
      · simp [a, s, r] at h
      · exact ⟨not_le.1 a, s, not_lt.1 r⟩
    · simp [a, s] at h

theorem processInvestmentTx_ok {env : Env} {id : UUID} {req : CreateInvestmentRequest}
    {w w1 : World} {resp : InvestmentResponse}
    (h : LoanService.processInvestmentTx env id req w = (.ok resp, w1)) :
    ∃ r, w.db.loans id = some r ∧ r.deleted_at = none ∧ r.state = LoanStateApproved
      ∧ 0 < req.Amount ∧ r.total_invested + req.Amount ≤ r.principal_amount
      ∧ w1.db.loans
          = (w.db.setLoan id
              (if r.total_invested + req.Amount ≥ r.principal_amount then
                { r with
                  total_invested := r.total_invested + req.Amount
                  state := LoanStateInvested
                  agreement_letter_url :=
                    (LoanService.mockAgreementLetterURL
                      (LoanRow.scan id
                        { r with
                          total_invested := r.total_invested + req.Amount
                          state := LoanStateInvested
                          updated_at := env.dbNow })).1
                  updated_at := env.dbNow }
              else
                { r with
                  total_invested := r.total_invested + req.Amount
                  updated_at := env.dbNow })).loans := by
  unfold LoanService.processInvestmentTx at h
  obtain ⟨loan, wa, h1, h⟩ := Tx.bind_ok h
  obtain ⟨hdb, -, r, hr, hd, -, hst, htot, hpr, -⟩ := getLoan_inv h1
  cases hv : loan.ValidateInvestmentAmount req.Amount with
  | some err => rw [hv] at h; exact (Tx.fail_ne_ok h).elim
  | none =>
    rw [hv] at h
    obtain ⟨hpos, hs, -⟩ := validateInvestmentAmount_none hv
    obtain ⟨i1, wb, h2, h⟩ := Tx.bind_ok h
    obtain ⟨-, hdbb, -⟩ := createInvestment_inv h2
    obtain ⟨upd, wc, h3, h⟩ := Tx.bind_ok h
    obtain ⟨r2, hr2, -, hst2, hle, hupd, hdbc, -⟩ := updateTotalInvested_inv (Tx.wrapErr_ok h3)
    have e : r2 = r := by
      rw [hdbb, hdb] at hr2
      simp only [] at hr2
      rw [hr] at hr2
      exact (Option.some.inj hr2).symm
    subst e
    obtain ⟨u, wd, h4, h⟩ := Tx.bind_ok h
    obtain ⟨-, hw1⟩ := Tx.pure_ok h
    subst hw1
    refine ⟨r2, hr, hd, hst2, hpos, hle, ?_⟩
    have hupdState : upd.State = LoanStateApproved := by rw [hupd]; exact hst2
    have hfullEq : upd.IsFullyInvested = decide (r2.total_invested + req.Amount ≥ r2.principal_amount) := by
      rw [hupd]; rfl
    by_cases hfull : r2.total_invested + req.Amount ≥ r2.principal_amount
    · have hc : (upd.IsFullyInvested && upd.State == LoanStateApproved) = true := by
        simp [hfullEq, hupdState, hfull]
      rw [if_pos hc] at h4
      have := autoAdvance_ok h4 (by rw [hdbc]; exact setLoan_loans_same _ _ _)
      rw [this, if_pos hfull, hdbc, setLoan_setLoan, hdbb, hdb]
      rfl
    · have hc : ¬ (upd.IsFullyInvested && upd.State == LoanStateApproved) = true := by
        simp [hfullEq, hupdState, hfull]
      rw [if_neg hc] at h4
      obtain ⟨-, hw⟩ := Tx.pure_ok h4
      rw [hw, if_neg hfull, hdbc, hdbb, hdb]
      rfl

/-! ## The effect of one operation on the table of loans -/

theorem rowStep_refl (r : LoanRow) : RowStep r r :=
  ⟨rfl, le_refl _, Or.inl rfl, Or.inl rfl⟩

theorem tableStep_refl (t : UUID → Option LoanRow) : TableStep t t := by
  intro k
  exact ⟨fun r hr => ⟨r, hr, rowStep_refl r⟩, fun hn r1 hr1 => by rw [hn] at hr1; cases hr1⟩

theorem tableStep_of_eq {t t1 : UUID → Option LoanRow} (h : t1 = t) : TableStep t t1 := by
  subst h; exact tableStep_refl _

theorem tableStep_setLoan {db : DB} {id : UUID} {r r1 : LoanRow}
    (hr : db.loans id = some r) (hs : RowStep r r1) :
    TableStep db.loans (db.setLoan id r1).loans := by
  intro k
  by_cases hk : k = id
  · subst hk
    refine ⟨fun r0 hr0 => ?_, fun hn => ?_⟩
    · rw [hr] at hr0
      cases hr0
      exact ⟨r1, setLoan_loans_same _ _ _, hs⟩
    · rw [hr] at hn; cases hn
  · have e : (db.setLoan id r1).loans k = db.loans k := by simp [DB.setLoan, hk]
    rw [e]
    exact tableStep_refl db.loans k

theorem tableStep_insert {db : DB} {id : UUID} {r1 : LoanRow}
    (hr : db.loans id = none) (h0 : r1.total_invested = 0) (hs : r1.state = LoanStateProposed) :
    TableStep db.loans (db.setLoan id r1).loans := by
  intro k
  by_cases hk : k = id
  · subst hk
    refine ⟨fun r0 hr0 => ?_, fun _ r2 hr2 => ?_⟩
    · rw [hr] at hr0; cases hr0
    · rw [setLoan_loans_same] at hr2
      cases hr2
      exact ⟨h0, hs⟩
  · have e : (db.setLoan id r1).loans k = db.loans k := by simp [DB.setLoan, hk]
    rw [e]
    exact tableStep_refl db.loans k

theorem withTransaction_db {σ : Type} (env : Env) (init : σ)
    (fn : World → (σ × Option Error) × World) (w : World) :
    (LoanService.withTransaction env init fn w).2.db = w.db
    ∨ ∃ s w1, fn { w with calls := w.calls ++ [.Begin] } = ((s, none), w1)
        ∧ (LoanService.withTransaction env init fn w).2.db = w1.db := by
  unfold LoanService.withTransaction
  cases env.beginErr with
  | some err => exact Or.inl rfl
  | none =>
    simp only []
    rcases hf : fn { w with calls := w.calls ++ [.Begin] } with ⟨⟨s, _ | err⟩, w1⟩
    · cases env.commitErr with
      | some err => exact Or.inl rfl
      | none => exact Or.inr ⟨s, w1, rfl, rfl⟩
    · cases env.rollbackErr with
      | some err => exact Or.inl rfl
      | none => exact Or.inl rfl

theorem capture_ok {α : Type} {body : Tx α} {w w1 : World} {s : Option α}
    (h : LoanService.capture body w = ((s, none), w1)) :
    ∃ a, body w = (.ok a, w1) := by
  unfold LoanService.capture at h
  rcases hb : body w with ⟨err | a, w2⟩
  · rw [hb] at h; simp at h
  · rw [hb] at h
    simp at h
    exact ⟨a, by rw [h.2]⟩

theorem processCreateLoan_loans (env : Env) (req : CreateLoanRequest) (w : World) :
    (LoanService.ProcessCreateLoan env req w).2.db.loans = w.db.loans
    ∨ (w.db.loans env.newID = none
      ∧ (LoanService.ProcessCreateLoan env req w).2.db.loans
        = (w.db.setLoan env.newID
            { borrower_id := req.BorrowerID
              principal_amount := req.PrincipalAmount
              interest_rate := req.InterestRate
              roi := req.ROI
              state := LoanStateProposed
              agreement_letter_url := ""
              total_invested := 0
              created_at := env.dbNow
              updated_at := env.dbNow
              deleted_at := none }).loans) := by
  unfold LoanService.ProcessCreateLoan
  rw [Tx.bind_apply]
  unfold loanRepo.CreateLoan repoCall LoanRepository.CreateLoan queryRow
    LoanRepository.insertLoanStmt
  cases env.createLoanErr with
  | some err => exact Or.inl rfl
  | none =>
    simp only []
    cases hr : w.db.loans env.newID with
    | some r => exact Or.inl rfl
    | none =>
      refine Or.inr ⟨rfl, ?_⟩
      simp only []
      rw [Tx.bind_apply, getLoan_world]
      cases (LoanRepository.GetLoanByID env.getLoanErr _ _).1 <;> rfl

theorem opRun_tableStep (env : Env) (op : Op) (w : World) :
    TableStep w.db.loans (op.run env w).db.loans := by
  have hCan1 : LoanState.CanTransitionTo LoanStateProposed LoanStateApproved = true := by decide
  have hCan2 : LoanState.CanTransitionTo LoanStateApproved LoanStateInvested = true := by decide
  have hCan3 : LoanState.CanTransitionTo LoanStateInvested LoanStateDisbursed = true := by decide
  cases op with
  | createLoan req =>
    rcases processCreateLoan_loans env req w with h | ⟨hn, h⟩
    · exact tableStep_of_eq h
    · show TableStep w.db.loans (LoanService.ProcessCreateLoan env req w).2.db.loans
      rw [h]
      exact tableStep_insert hn rfl rfl
  | approve id req =>
    show TableStep w.db.loans (LoanService.ProcessApproveLoan env id req w).2.db.loans
    unfold LoanService.ProcessApproveLoan
    rcases withTransaction_db env none
      (LoanService.capture (LoanService.processApproveLoanTx env id req)) w with h | ⟨s, w1, hf, h⟩
    · rw [h]; exact tableStep_refl _
    · rw [h]
      obtain ⟨a, ha⟩ := capture_ok hf
      obtain ⟨r, hr, -, hs, hl⟩ := processApproveLoanTx_ok ha
      rw [hl]
      exact tableStep_setLoan hr ⟨rfl, le_refl _, Or.inl rfl, Or.inr (by rw [hs]; exact hCan1)⟩
  | invest id req =>
    show TableStep w.db.loans (LoanService.ProcessInvestment env id req w).2.db.loans
    unfold LoanService.ProcessInvestment
    rcases withTransaction_db env none
      (LoanService.capture (LoanService.processInvestmentTx env id req)) w with h | ⟨s, w1, hf, h⟩
    · rw [h]; exact tableStep_refl _
    · rw [h]
      obtain ⟨a, ha⟩ := capture_ok hf
      obtain ⟨r, hr, -, hs, hpos, hle, hl⟩ := processInvestmentTx_ok ha
      rw [hl]
      apply tableStep_setLoan hr
      by_cases hfull : r.total_invested + req.Amount ≥ r.principal_amount
      · rw [if_pos hfull]
        exact ⟨rfl, by simp only []; linarith, Or.inr hle, Or.inr (by rw [hs]; exact hCan2)⟩
      · rw [if_neg hfull]
        exact ⟨rfl, by simp only []; linarith, Or.inr hle, Or.inl rfl⟩
  | disburse id req =>
    show TableStep w.db.loans (LoanService.ProcessDisbursement env id req w).2.db.loans
    unfold LoanService.ProcessDisbursement
    rcases withTransaction_db env none
      (LoanService.capture (LoanService.processDisbursementTx env id req)) w with h | ⟨s, w1, hf, h⟩
    · rw [h]; exact tableStep_refl _
    · rw [h]
      obtain ⟨a, ha⟩ := capture_ok hf
      obtain ⟨r, hr, -, hs, -, -, -, hl⟩ := processDisbursementTx_ok ha
      rw [hl]
      exact tableStep_setLoan hr ⟨rfl, le_refl _, Or.inl rfl, Or.inr (by rw [hs]; exact hCan3)⟩

/-! ## Invariants of the workflow -/

/-- C7: whatever workflow operation runs, and whether it succeeds or fails, a loan row
that appears has nothing invested, and a row whose total was between zero and the
principal keeps its principal, does not lose any of its total and stays within the
principal. -/
theorem C7_total_invested_bounded (env : Env) (op : Op) (w : World) (k : UUID) :
    (w.db.loans k = none → ∀ r1, (op.run env w).db.loans k = some r1 →
        r1.total_invested = 0)
    ∧ (∀ r, w.db.loans k = some r → 0 ≤ r.total_invested →
        r.total_invested ≤ r.principal_amount →
        ∃ r1, (op.run env w).db.loans k = some r1
          ∧ r1.principal_amount = r.principal_amount
          ∧ r.total_invested ≤ r1.total_invested
          ∧ r1.total_invested ≤ r1.principal_amount) := by
  obtain ⟨hsome, hnone⟩ := opRun_tableStep env op w k
  refine ⟨fun hn r1 hr1 => (hnone hn r1 hr1).1, fun r hr _ hP => ?_⟩
  obtain ⟨r1, hr1, hp, hmono, hbound, -⟩ := hsome r hr
  refine ⟨r1, hr1, hp, hmono, ?_⟩
  rcases hbound with e | b
  · rw [e, hp]; exact hP
  · exact b

/-- C7, at a concrete input: a loan of 10000 with 6000 invested receives 4000. -/
theorem C7_total_invested_bounded_witness :
    ∃ r1, ((Op.invest "L1" ⟨"L1", "I1", 4000, 3⟩).run exampleEnv exampleWorld).db.loans "L1"
        = some r1
      ∧ r1.principal_amount = 10000 ∧ (6000 : ℚ) ≤ r1.total_invested
      ∧ r1.total_invested ≤ r1.principal_amount :=
  (C7_total_invested_bounded exampleEnv (.invest "L1" ⟨"L1", "I1", 4000, 3⟩) exampleWorld "L1").2
    exampleRow rfl (by norm_num [exampleRow]) (by norm_num [exampleRow])

theorem lifecycleFrom_head (s : LoanState) : ∃ t, lifecycleFrom s = s :: t := by
  unfold lifecycleFrom
  split_ifs with h1 h2 h3
  · exact ⟨_, by rw [h1]⟩
  · exact ⟨_, by rw [h2]⟩
  · exact ⟨_, by rw [h3]⟩
  · exact ⟨_, rfl⟩

theorem lifecycleFrom_step {s s1 : LoanState}
    (h : LoanState.CanTransitionTo s s1 = true) :
    lifecycleFrom s = s :: lifecycleFrom s1 ∧ s ≠ s1 := by
  obtain ⟨h1, h2, h3, h4, h5, h6⟩ := states_distinct
  rw [canTransitionTo_eq] at h
  by_cases c1 : s = LoanStateProposed
  · simp [c1] at h
    subst c1 h
    exact ⟨by decide, h1⟩
  · by_cases c2 : s = LoanStateApproved
    · simp [c2, h1.symm] at h
      subst c2 h
      exact ⟨by decide, h4⟩
    · by_cases c3 : s = LoanStateInvested
      · simp [c3, h2.symm, h4.symm] at h
        subst c3 h
        exact ⟨by decide, h6⟩
      · simp [c1, c2, c3] at h

theorem stateOf_step (env : Env) (op : Op) (w : World) (k : UUID) :
    (stateOf k w = none →
      stateOf k (op.run env w) = none ∨ stateOf k (op.run env w) = some LoanStateProposed)
    ∧ (∀ s, stateOf k w = some s →
      ∃ s1, stateOf k (op.run env w) = some s1
        ∧ (s1 = s ∨ LoanState.CanTransitionTo s s1 = true)) := by
  obtain ⟨hsome, hnone⟩ := opRun_tableStep env op w k
  unfold stateOf
  refine ⟨fun hn => ?_, fun s hs => ?_⟩
  · cases hr : w.db.loans k with
    | some r => rw [hr] at hn; simp at hn
    | none =>
      cases hr1 : (op.run env w).db.loans k with
      | none => exact Or.inl rfl
      | some r1 => exact Or.inr (by simp [(hnone hr r1 hr1).2])
  · cases hr : w.db.loans k with
    | none => rw [hr] at hs; simp at hs
    | some r =>
      rw [hr] at hs
      simp at hs
      obtain ⟨r1, hr1, -, -, -, hst⟩ := hsome r hr
      refine ⟨r1.state, by simp [hr1], ?_⟩
      rw [← hs]
      exact hst

theorem runOps_head (w : World) (ops : List (Env × Op)) :
    ∃ rest, runOps w ops = w :: rest := by
  cases ops with
  | nil => exact ⟨[], rfl⟩
  | cons p rest => exact ⟨_, rfl⟩

theorem dropRepeats_cons_cons (a b : LoanState) (rest : List LoanState) :
    dropRepeats (a :: b :: rest)
      = if a = b then dropRepeats (b :: rest) else a :: dropRepeats (b :: rest) := by
  rw [dropRepeats]

theorem statesVisited_from (k : UUID) (ops : List (Env × Op)) :
    ∀ (w : World) (s : LoanState), stateOf k w = some s →
      statesVisited k (runOps w ops) <+: lifecycleFrom s
      ∧ ∃ t, statesVisited k (runOps w ops) = s :: t := by
  induction ops with
  | nil =>
    intro w s hs
    obtain ⟨t, ht⟩ := lifecycleFrom_head s
    have e : statesVisited k (runOps w []) = [s] := by
      simp [statesVisited, runOps, List.filterMap, hs, dropRepeats]
    rw [e, ht]
    exact ⟨by simp, ⟨[], rfl⟩⟩
  | cons p rest ih =>
    intro w s hs
    obtain ⟨env, op⟩ := p
    obtain ⟨s1, hs1, hstep⟩ := (stateOf_step env op w k).2 s hs
    obtain ⟨hpre, t1, ht1⟩ := ih (op.run env w) s1 hs1
    obtain ⟨tail, htail⟩ := runOps_head (op.run env w) rest
    have hfm : List.filterMap (stateOf k) (runOps (op.run env w) rest)
        = s1 :: List.filterMap (stateOf k) tail := by
      rw [htail]; simp [List.filterMap, hs1]
    have e : statesVisited k (runOps w ((env, op) :: rest))
        = if s = s1 then statesVisited k (runOps (op.run env w) rest)
          else s :: statesVisited k (runOps (op.run env w) rest) := by
      unfold statesVisited
      rw [runOps, List.filterMap_cons_some hs, hfm, dropRepeats_cons_cons]
    rw [e]
    rcases hstep with heq | hcan
    · subst heq
      simp only [if_true]
      exact ⟨hpre, t1, ht1⟩
    · obtain ⟨hl, hne⟩ := lifecycleFrom_step hcan
      rw [if_neg hne, hl]
      exact ⟨by simpa using hpre, _, rfl⟩

theorem statesVisited_new (k : UUID) (ops : List (Env × Op)) :
    ∀ w : World, stateOf k w = none → statesVisited k (runOps w ops) <+: lifecycle := by
  induction ops with
  | nil =>
    intro w hn
    simp [statesVisited, runOps, List.filterMap, hn, dropRepeats]
  | cons p rest ih =>
    intro w hn
    obtain ⟨env, op⟩ := p
    have e : statesVisited k (runOps w ((env, op) :: rest))
        = statesVisited k (runOps (op.run env w) rest) := by
      unfold statesVisited
      rw [runOps, List.filterMap_cons_none hn]
    rw [e]
    rcases (stateOf_step env op w k).1 hn with h | h
    · exact ih _ h
    · exact (statesVisited_from k rest _ _ h).1

/-- C8: a loan row that appears is in state proposed; every operation, whatever its
outcome, leaves the state of a loan as it was or moves it along a transition accepted
by `CanTransitionTo`; hence along any run of operations the states a new loan visits
form a prefix of proposed, approved, invested, disbursed, and a disbursed loan never
changes state again. -/
theorem C8_states_follow_lifecycle (k : UUID) :
    (∀ (env : Env) (op : Op) (w : World),
      (w.db.loans k = none → ∀ r1, (op.run env w).db.loans k = some r1 →
        r1.state = LoanStateProposed)
      ∧ (∀ r, w.db.loans k = some r →
        ∃ r1, (op.run env w).db.loans k = some r1
          ∧ (r1.state = r.state ∨ LoanState.CanTransitionTo r.state r1.state = true)))
    ∧ (∀ (w : World) (ops : List (Env × Op)), w.db.loans k = none →
        statesVisited k (runOps w ops) <+: lifecycle)
    ∧ (∀ (w : World) (ops : List (Env × Op)), stateOf k w = some LoanStateDisbursed →
        statesVisited k (runOps w ops) = [LoanStateDisbursed]) := by
  refine ⟨fun env op w => ?_, fun w ops hn => ?_, fun w ops hd => ?_⟩
  · obtain ⟨hsome, hnone⟩ := opRun_tableStep env op w k
    refine ⟨fun hn r1 hr1 => (hnone hn r1 hr1).2, fun r hr => ?_⟩
    obtain ⟨r1, hr1, -, -, -, hst⟩ := hsome r hr
    exact ⟨r1, hr1, hst⟩
  · exact statesVisited_new k ops w (by simp [stateOf, hn])
  · obtain ⟨hpre, t, ht⟩ := statesVisited_from k ops w _ hd
    have hl : lifecycleFrom LoanStateDisbursed = [LoanStateDisbursed] := by decide
    rw [hl, ht] at hpre
    rw [ht]
    have := List.IsPrefix.length_le hpre
    simp at this
    rw [this]

/-- A complete run: create, approve, invest 6000, invest 4000, disburse visits exactly the
four states of the lifecycle, in order. -/
theorem lifecycle_run_example :
    statesVisited exampleEnv.newID (runOps emptyWorld exampleRun) = lifecycle := by
  decide!

/-- C8, at a concrete input: the states visited by the loan of the example scenario. -/
theorem C8_states_follow_lifecycle_witness :
    statesVisited exampleEnv.newID (runOps emptyWorld exampleRun) <+: lifecycle :=
  (C8_states_follow_lifecycle exampleEnv.newID).2.1 emptyWorld exampleRun rfl

/-! ## Rejected transitions -/

theorem processApproveLoanTx_rejected {env : Env} {id : UUID} (req : CreateApprovalRequest)
    (w : World) {loan : Loan} {err : Error}
    (hload : (LoanRepository.GetLoanByID env.getLoanErr w.db id).1 = .ok loan)
    (hv : loan.ValidateStateTransition LoanStateApproved = some err) :
    LoanService.processApproveLoanTx env id req w
      = (.error (.wrap "loan approval validation failed" err),
          { db := w.db, calls := w.calls ++ [.GetLoanByID id] }) := by
  unfold LoanService.processApproveLoanTx
  rw [Tx.bind_apply, getLoan_world, hload]
  simp only [hv]
  rfl

theorem processDisbursementTx_rejected {env : Env} {id : UUID}
    (req : CreateDisbursementRequest) (w : World) {loan : Loan} {err : Error}
    (hload : (LoanRepository.GetLoanByID env.getLoanErr w.db id).1 = .ok loan)
    (hv : loan.ValidateStateTransition LoanStateDisbursed = some err) :
    LoanService.processDisbursementTx env id req w
      = (.error (.wrap "disbursement validation failed" err),
          { db := w.db, calls := w.calls ++ [.GetLoanByID id] }) := by
  unfold LoanService.processDisbursementTx
  rw [Tx.bind_apply, getLoan_world, hload]
  simp only [hv]
  rfl

theorem withTransaction_rejected {α : Type} {env : Env} {body : Tx α} {w : World}
    {err : Error} {calls : List Call} (hbegin : env.beginErr = none)
    (hbody : body { w with calls := w.calls ++ [.Begin] }
      = (.error err, { db := w.db, calls := calls })) :
    LoanService.withTransaction env none (LoanService.capture body) w
      = ((none,
          some (match env.rollbackErr with
                | none => err
                | some rollbackErr => .rollbackFailed rollbackErr err)),
         { db := w.db, calls := calls ++ [.Rollback] }) := by
  unfold LoanService.withTransaction LoanService.capture
  rw [hbegin]
  simp only [hbody]
  cases env.rollbackErr <;> rfl

theorem wrap_cannotTransition_message (context current target : String) :
    (Error.wrap context (.cannotTransition current target)).message
      = context ++ (": cannot transition from " ++ (current ++ (" to " ++ target))) := by
  have e : ": " ++ "cannot transition from " = ": cannot transition from " := by decide
  simp only [Error.message, String.append_assoc]
  rw [← e, String.append_assoc]

/-- C9: when the loaded loan is not in the required predecessor state, approving
(respectively disbursing) returns a nil result and the cannot-transition error wrapped
by the operation (inside the rollback error if the rollback itself fails); the only
calls made are `Begin`, `GetLoanByID` and `Rollback`, so there is no storage write and
no payment call, and the datastore is unchanged. -/
theorem C9_illegal_transition_rejected (env : Env) (w : World) (id : UUID) (loan : Loan)
    (hbegin : env.beginErr = none)
    (hload : (LoanRepository.GetLoanByID env.getLoanErr w.db id).1 = .ok loan) :
    (loan.State ≠ LoanStateProposed → ∀ req : CreateApprovalRequest,
      (LoanService.ProcessApproveLoan env id req w).1.1 = none
      ∧ (LoanService.ProcessApproveLoan env id req w).1.2
          = some (match env.rollbackErr with
              | none => .wrap "loan approval validation failed"
                  (.cannotTransition loan.State LoanStateApproved)
              | some rollbackErr => .rollbackFailed rollbackErr
                  (.wrap "loan approval validation failed"
                    (.cannotTransition loan.State LoanStateApproved)))
      ∧ (Error.wrap "loan approval validation failed"
            (.cannotTransition loan.State LoanStateApproved)).message
          = "loan approval validation failed"
              ++ (": cannot transition from " ++ (loan.State ++ (" to " ++ "approved")))
      ∧ (LoanService.ProcessApproveLoan env id req w).2.calls
          = w.calls ++ [.Begin, .GetLoanByID id, .Rollback]
      ∧ (∀ c ∈ [Call.Begin, Call.GetLoanByID id, Call.Rollback],
          c.isWrite = false ∧ c.isPayment = false)
      ∧ (LoanService.ProcessApproveLoan env id req w).2.db = w.db)
    ∧ (loan.State ≠ LoanStateInvested → ∀ req : CreateDisbursementRequest,
      (LoanService.ProcessDisbursement env id req w).1.1 = none
      ∧ (LoanService.ProcessDisbursement env id req w).1.2
          = some (match env.rollbackErr with
              | none => .wrap "disbursement validation failed"
                  (.cannotTransition loan.State LoanStateDisbursed)
              | some rollbackErr => .rollbackFailed rollbackErr
                  (.wrap "disbursement validation failed"
                    (.cannotTransition loan.State LoanStateDisbursed)))
      ∧ (Error.wrap "disbursement validation failed"
            (.cannotTransition loan.State LoanStateDisbursed)).message
          = "disbursement validation failed"
              ++ (": cannot transition from " ++ (loan.State ++ (" to " ++ "disbursed")))
      ∧ (LoanService.ProcessDisbursement env id req w).2.calls
          = w.calls ++ [.Begin, .GetLoanByID id, .Rollback]
      ∧ (∀ c ∈ [Call.Begin, Call.GetLoanByID id, Call.Rollback],
          c.isWrite = false ∧ c.isPayment = false)
      ∧ (LoanService.ProcessDisbursement env id req w).2.db = w.db) := by
  refine ⟨fun hs req => ?_, fun hs req => ?_⟩
  · have hv : loan.ValidateStateTransition LoanStateApproved
        = some (.cannotTransition loan.State LoanStateApproved) := by
      rw [validateStateTransition_approved, if_neg hs]
    have hrun := withTransaction_rejected (w := w) hbegin
      (processApproveLoanTx_rejected req
        { w with calls := w.calls ++ [.Begin] } hload hv)
    unfold LoanService.ProcessApproveLoan
    rw [hrun]
    refine ⟨rfl, rfl, wrap_cannotTransition_message _ _ _, by simp,
      by simp [Call.isWrite, Call.isPayment], rfl⟩
  · have hv : loan.ValidateStateTransition LoanStateDisbursed
        = some (.cannotTransition loan.State LoanStateDisbursed) := by
      rw [validateStateTransition_disbursed, if_neg hs]
    have hrun := withTransaction_rejected (w := w) hbegin
      (processDisbursementTx_rejected req
        { w with calls := w.calls ++ [.Begin] } hload hv)
    unfold LoanService.ProcessDisbursement
    rw [hrun]
    refine ⟨rfl, rfl, wrap_cannotTransition_message _ _ _, by simp,
      by simp [Call.isWrite, Call.isPayment], rfl⟩

/-- C9, at a concrete input: the approved loan `L1` is neither proposed nor invested. -/
theorem C9_illegal_transition_rejected_witness :
    (exampleRow.state ≠ LoanStateProposed ∧ exampleRow.state ≠ LoanStateInvested)
    ∧ (LoanService.ProcessApproveLoan exampleEnv "L1"
          ⟨"L1", "V1", 3, "proof.jpg", "jpeg", ""⟩ exampleWorld).1
        = (none, some (.wrap "loan approval validation failed"
            (.cannotTransition "approved" "approved")))
    ∧ (LoanService.ProcessDisbursement exampleEnv "L1"
          ⟨"L1", "F1", 6, "signed.pdf", "pdf", 10000, ""⟩ exampleWorld).1
        = (none, some (.wrap "disbursement validation failed"
            (.cannotTransition "approved" "disbursed"))) := by
  have h := C9_illegal_transition_rejected exampleEnv exampleWorld "L1"
    ({ exampleRow.scan "L1" with Borrower := some ⟨"B1", "John", "Doe"⟩ }) rfl rfl
  refine ⟨by decide, ?_, ?_⟩
  · obtain ⟨h1, h2, -⟩ := h.1 (by decide) ⟨"L1", "V1", 3, "proof.jpg", "jpeg", ""⟩
    exact Prod.ext h1 h2
  · obtain ⟨h1, h2, -⟩ := h.2 (by decide) ⟨"L1", "F1", 6, "signed.pdf", "pdf", 10000, ""⟩
    exact Prod.ext h1 h2

/-- C10, as stated, fails: disbursing the approved loan `L1` is rejected, but the message
of the error is the cannot-transition message and does not contain the words
"must be in invested state". -/
theorem C10_counterexample :
    stateOf "L1" exampleWorld = some LoanStateApproved
    ∧ ∃ err,
      (LoanService.ProcessDisbursement exampleEnv "L1"
        ⟨"L1", "F1", 6, "signed.pdf", "pdf", 10000, ""⟩ exampleWorld).1 = (none, some err)
      ∧ err.message
          = "disbursement validation failed: cannot transition from approved to disbursed"
      ∧ ¬ ("must be in invested state".data <:+: err.message.data) := by
  refine ⟨by decide, .wrap "disbursement validation failed"
    (.cannotTransition "approved" "disbursed"), by decide!, by decide!, by decide!⟩

/-- C10, amended: disbursing a loan that is still approved is rejected with a nil result
and the error "disbursement validation failed: cannot transition from approved to
disbursed" (inside the rollback error if the rollback itself fails). -/
theorem C10_disburse_approved_rejected (env : Env) (w : World) (id : UUID) (loan : Loan)
    (req : CreateDisbursementRequest)
    (hbegin : env.beginErr = none)
    (hload : (LoanRepository.GetLoanByID env.getLoanErr w.db id).1 = .ok loan)
    (hstate : loan.State = LoanStateApproved) :
    (LoanService.ProcessDisbursement env id req w).1
      = (none,
          some (match env.rollbackErr with
            | none => .wrap "disbursement validation failed"
                (.cannotTransition LoanStateApproved LoanStateDisbursed)
            | some rollbackErr => .rollbackFailed rollbackErr
                (.wrap "disbursement validation failed"
                  (.cannotTransition LoanStateApproved LoanStateDisbursed))))
    ∧ (Error.wrap "disbursement validation failed"
          (.cannotTransition LoanStateApproved LoanStateDisbursed)).message
        = "disbursement validation failed: cannot transition from approved to disbursed"
    ∧ (LoanService.ProcessDisbursement env id req w).2.db = w.db := by
  have hs : loan.State ≠ LoanStateInvested := by rw [hstate]; decide
  have hv : loan.ValidateStateTransition LoanStateDisbursed
      = some (.cannotTransition LoanStateApproved LoanStateDisbursed) := by
    rw [validateStateTransition_disbursed, if_neg hs, hstate]
  have hrun := withTransaction_rejected (w := w) hbegin
    (processDisbursementTx_rejected req
      { w with calls := w.calls ++ [.Begin] } hload hv)
  unfold LoanService.ProcessDisbursement
  rw [hrun]
  exact ⟨rfl, by decide, rfl⟩

/-- C10, amended, at a concrete input: the approved loan `L1`. -/
theorem C10_disburse_approved_rejected_witness :
    (LoanService.ProcessDisbursement exampleEnv "L1"
        ⟨"L1", "F1", 6, "signed.pdf", "pdf", 10000, ""⟩ exampleWorld).1
      = (none, some (.wrap "disbursement validation failed"
          (.cannotTransition "approved" "disbursed"))) :=
  (C10_disburse_approved_rejected exampleEnv exampleWorld "L1"
    ({ exampleRow.scan "L1" with Borrower := some ⟨"B1", "John", "Doe"⟩ })
    ⟨"L1", "F1", 6, "signed.pdf", "pdf", 10000, ""⟩ rfl rfl rfl).1

/-! ## Rejected investments -/

theorem processInvestmentTx_rejected {env : Env} {id : UUID} (req : CreateInvestmentRequest)
    (w : World) {loan : Loan} {err : Error}
    (hload : (LoanRepository.GetLoanByID env.getLoanErr w.db id).1 = .ok loan)
    (hv : loan.ValidateInvestmentAmount req.Amount = some err) :
    LoanService.processInvestmentTx env id req w
      = (.error (.wrap "investment validation failed" err),
          { db := w.db, calls := w.calls ++ [.GetLoanByID id] }) := by
  unfold LoanService.processInvestmentTx
  rw [Tx.bind_apply, getLoan_world, hload]
  simp only [hv]
  rfl

/-! ## The repository calls, forwards -/

theorem createInvestment_run {env : Env} (h : env.createInvestmentErr = none)
    (i : Investment) (w : World) :
    loanRepo.CreateInvestment env i w
      = (.ok { i with CreatedAt := env.dbNow, UpdatedAt := env.dbNow },
          { db := { w.db with investments := w.db.investments
              ++ [{ i with CreatedAt := env.dbNow, UpdatedAt := env.dbNow }] },
            calls := w.calls ++ [.CreateInvestment i] }) := by
  unfold loanRepo.CreateInvestment repoCall LoanRepository.CreateInvestment queryRow
    LoanRepository.insertInvestmentStmt
  rw [h]

theorem createApproval_run {env : Env} (h : env.createApprovalErr = none)
    (a : Approval) (w : World) :
    loanRepo.CreateApproval env a w
      = (.ok { a with CreatedAt := env.dbNow, UpdatedAt := env.dbNow },
          { db := { w.db with approvals := w.db.approvals
              ++ [{ a with CreatedAt := env.dbNow, UpdatedAt := env.dbNow }] },
            calls := w.calls ++ [.CreateApproval a] }) := by
  unfold loanRepo.CreateApproval repoCall LoanRepository.CreateApproval queryRow
    LoanRepository.insertApprovalStmt
  rw [h]

theorem createDisbursement_run {env : Env} (h : env.createDisbursementErr = none)
    (d : Disbursement) (w : World) :
    loanRepo.CreateDisbursement env d w
      = (.ok { d with CreatedAt := env.dbNow, UpdatedAt := env.dbNow },
          { db := { w.db with disbursements := w.db.disbursements
              ++ [{ d with CreatedAt := env.dbNow, UpdatedAt := env.dbNow }] },
            calls := w.calls ++ [.CreateDisbursement d] }) := by
  unfold loanRepo.CreateDisbursement repoCall LoanRepository.CreateDisbursement queryRow
    LoanRepository.insertDisbursementStmt
  rw [h]

theorem recordHistory_run {env : Env} (h : env.recordHistoryErr = none)
    (prev : LoanState) (loan : Loan) (emp : UUID) (reason : String) (w : World) :
    loanRepo.RecordLoanStateHistory env prev loan emp reason w
      = (.ok { ID := env.historyID, CreatedAt := env.dbNow, UpdatedAt := env.dbNow,
               LoanID := loan.ID, PreviousState := prev, NewState := loan.State,
               ChangedBy := emp, ChangeReason := reason, ChangeDate := env.goNow },
          { db := { w.db with loan_state_histories := w.db.loan_state_histories
              ++ [{ ID := env.historyID, CreatedAt := env.dbNow, UpdatedAt := env.dbNow,
                    LoanID := loan.ID, PreviousState := prev, NewState := loan.State,
                    ChangedBy := emp, ChangeReason := reason, ChangeDate := env.goNow }] },
            calls := w.calls ++ [.RecordLoanStateHistory prev loan emp reason] }) := by
  unfold loanRepo.RecordLoanStateHistory repoCall LoanRepository.RecordLoanStateHistory queryRow
    LoanRepository.insertHistoryStmt
  rw [h]

theorem updateLoanState_run {env : Env} (h : env.updateLoanStateErr = none)
    {id : UUID} {r : LoanRow} (s : LoanState) {w : World}
    (hr : w.db.loans id = some r) (hd : r.deleted_at = none) :
    loanRepo.UpdateLoanState env id s w
      = (.ok (LoanRow.scan id { r with state := s, updated_at := env.dbNow }),
          { db := w.db.setLoan id { r with state := s, updated_at := env.dbNow },
            calls := w.calls ++ [.UpdateLoanState id s] }) := by
  unfold loanRepo.UpdateLoanState repoCall LoanRepository.UpdateLoanState queryRow
    LoanRepository.updateStateStmt
  rw [h]
  simp only [hr, hd]
  rfl

theorem updateTotalInvested_run {env : Env} (h : env.updateTotalInvestedErr = none)
    {id : UUID} {r : LoanRow} {delta : ℚ} {w : World}
    (hr : w.db.loans id = some r) (hd : r.deleted_at = none)
    (hs : r.state = LoanStateApproved)
    (hle : r.total_invested + delta ≤ r.principal_amount) :
    loanRepo.UpdateLoanTotalInvested env id delta w
      = (.ok (LoanRow.scan id
            { r with total_invested := r.total_invested + delta, updated_at := env.dbNow }),
          { db := w.db.setLoan id
              { r with total_invested := r.total_invested + delta, updated_at := env.dbNow },
            calls := w.calls ++ [.UpdateLoanTotalInvested id delta] }) := by
  unfold loanRepo.UpdateLoanTotalInvested repoCall
  rw [h]
  beta_reduce
  rw [accumulateStmt_eq]
  simp only [hr, if_pos (And.intro hd (And.intro hs hle))]

theorem updateAgreementURL_run {env : Env} (h : env.updateAgreementURLErr = none)
    {id : UUID} {r : LoanRow} (url : String) {w : World}
    (hr : w.db.loans id = some r) (hd : r.deleted_at = none) :
    loanRepo.UpdateLoanAgreementLetterURL env id url w
      = (.ok (),
          { db := w.db.setLoan id
              { r with agreement_letter_url := url, updated_at := env.dbNow },
            calls := w.calls ++ [.UpdateLoanAgreementLetterURL id url] }) := by
  unfold loanRepo.UpdateLoanAgreementLetterURL repoCall
    LoanRepository.UpdateLoanAgreementLetterURL queryRow LoanRepository.updateAgreementURLStmt
  rw [h]
  simp only [hr, hd]
  rfl

theorem getLoanByID_ok {driverErr : Option Error} {db : DB} {id : UUID} {loan : Loan}
    (h : (LoanRepository.GetLoanByID driverErr db id).1 = .ok loan) :
    ∃ r b, db.loans id = some r ∧ r.deleted_at = none ∧ db.borrowers r.borrower_id = some b
      ∧ loan = { LoanRow.scan id r with
          Borrower := some { ID := r.borrower_id, FirstName := b.first_name,
                             LastName := b.last_name } } := by
  unfold LoanRepository.GetLoanByID queryRow LoanRepository.selectLoanStmt at h
  cases driverErr with
  | some err => simp at h
  | none =>
    cases hr : db.loans id with
    | none => simp [hr] at h
    | some r =>
      cases hd : r.deleted_at with
      | some t => simp [hr, hd] at h
      | none =>
        cases hb : db.borrowers r.borrower_id with
        | none => simp [hr, hd, hb] at h
        | some b =>
          simp only [hr, hd, hb] at h
          simp at h
          exact ⟨r, b, rfl, hd, hb, h.symm⟩

/-! ## The accumulate step inside `ProcessInvestment` -/

theorem updateLoanTotalInvested_fst_congr (driverErr : Option Error) (now : Time)
    {db1 db2 : DB} (id : UUID) (delta : ℚ) (h : db1.loans id = db2.loans id) :
    (LoanRepository.UpdateLoanTotalInvested driverErr now db1 id delta).1
      = (LoanRepository.UpdateLoanTotalInvested driverErr now db2 id delta).1 := by
  cases driverErr with
  | some err =>
    unfold LoanRepository.UpdateLoanTotalInvested queryRow
    by_cases c : err = Error.errNoRows <;> simp [c]
  | none =>
    rw [accumulateStmt_eq, accumulateStmt_eq, h]
    cases db2.loans id with
    | none => rfl
    | some r =>
      by_cases c : r.deleted_at = none ∧ r.state = LoanStateApproved
          ∧ r.total_invested + delta ≤ r.principal_amount
      · simp only [if_pos c]
      · simp only [if_neg c]

theorem updateLoanTotalInvested_error_db {driverErr : Option Error} {now : Time} {db : DB}
    {id : UUID} {delta : ℚ} {err : Error}
    (h : (LoanRepository.UpdateLoanTotalInvested driverErr now db id delta).1 = .error err) :
    (LoanRepository.UpdateLoanTotalInvested driverErr now db id delta).2 = db := by
  cases driverErr with
  | some e =>
    unfold LoanRepository.UpdateLoanTotalInvested queryRow
    by_cases c : e = Error.errNoRows <;> simp [c]
  | none =>
    rw [accumulateStmt_eq] at h ⊢
    cases hr : db.loans id with
    | none => rfl
    | some r =>
      rw [hr] at h
      by_cases c : r.deleted_at = none ∧ r.state = LoanStateApproved
          ∧ r.total_invested + delta ≤ r.principal_amount
      · simp only [if_pos c] at h
        simp at h
      · simp only [if_neg c]

theorem withTransaction_rollback {α : Type} {env : Env} {body : Tx α} {w w1 : World}
    {err : Error} (hbegin : env.beginErr = none)
    (hbody : body { w with calls := w.calls ++ [.Begin] } = (.error err, w1)) :
    LoanService.withTransaction env none (LoanService.capture body) w
      = ((none,
          some (match env.rollbackErr with
                | none => err
                | some rollbackErr => .rollbackFailed rollbackErr err)),
         { db := w.db, calls := w1.calls ++ [.Rollback] }) := by
  unfold LoanService.withTransaction LoanService.capture
  rw [hbegin]
  simp only [hbody]
  cases env.rollbackErr <;> rfl

/-- C12: when the accumulate step answers "not applied" in the course of
`ProcessInvestment` (the loan was loaded, the amount passed the pre-check and the
investment row was inserted), the operation returns a nil result and the not-applied
error wrapped by the operation; after the accumulate call only `Rollback` is called
(no state update, agreement-URL update or history write), and the datastore is
exactly what it was before the call, so the inserted investment row is gone and the
loan is unchanged. -/
theorem C12_accumulate_rejected_rolls_back (env : Env) (w : World) (id : UUID) (loan : Loan)
    (req : CreateInvestmentRequest)
    (hbegin : env.beginErr = none)
    (hload : (LoanRepository.GetLoanByID env.getLoanErr w.db id).1 = .ok loan)
    (hvalid : loan.ValidateInvestmentAmount req.Amount = none)
    (hinsert : env.createInvestmentErr = none)
    (hrejected : (LoanRepository.UpdateLoanTotalInvested env.updateTotalInvestedErr env.dbNow
        w.db id req.Amount).1 = .error .notApplied) :
    (LoanService.ProcessInvestment env id req w).1
      = (none,
          some (match env.rollbackErr with
            | none => .wrap "investment processing failed" .notApplied
            | some rollbackErr => .rollbackFailed rollbackErr
                (.wrap "investment processing failed" .notApplied)))
    ∧ (∃ investment : Investment,
        (LoanService.ProcessInvestment env id req w).2.calls
          = w.calls ++ [.Begin, .GetLoanByID id, .CreateInvestment investment,
              .UpdateLoanTotalInvested id req.Amount, .Rollback])
    ∧ (LoanService.ProcessInvestment env id req w).2.db = w.db
    ∧ (LoanService.ProcessInvestment env id req w).2.db.investments = w.db.investments
    ∧ (LoanService.ProcessInvestment env id req w).2.db.loans id = w.db.loans id := by
  have hbody : LoanService.processInvestmentTx env id req { w with calls := w.calls ++ [.Begin] }
      = (.error (.wrap "investment processing failed" .notApplied),
          { db := { w.db with investments := w.db.investments ++
                [{ ID := env.newID, CreatedAt := env.dbNow, UpdatedAt := env.dbNow,
                   LoanID := id, InvestorID := req.InvestorID, Amount := req.Amount,
                   ExpectedReturn := req.Amount * (1 + loan.ROI),
                   InvestmentDate := req.InvestmentDate, AgreementSent := false,
                   AgreementSentAt := none }] },
            calls := w.calls ++ [.Begin] ++ [.GetLoanByID id]
              ++ [.CreateInvestment
                  { ID := env.newID, CreatedAt := env.goNow, UpdatedAt := env.goNow,
                    LoanID := id, InvestorID := req.InvestorID, Amount := req.Amount,
                    ExpectedReturn := req.Amount * (1 + loan.ROI),
                    InvestmentDate := req.InvestmentDate, AgreementSent := false,
                    AgreementSentAt := none }]
              ++ [.UpdateLoanTotalInvested id req.Amount] }) := by
    unfold LoanService.processInvestmentTx
    rw [Tx.bind_apply, getLoan_world, hload]
    simp only [hvalid]
    rw [Tx.bind_apply, createInvestment_run hinsert]
    simp only []
    rw [Tx.bind_apply]
    unfold Tx.wrapErr loanRepo.UpdateLoanTotalInvested repoCall
    simp only []
    have h1 := updateLoanTotalInvested_fst_congr env.updateTotalInvestedErr env.dbNow id
      req.Amount
      (show ({ w.db with investments := w.db.investments ++
                [{ ID := env.newID, CreatedAt := env.dbNow, UpdatedAt := env.dbNow,
                   LoanID := id, InvestorID := req.InvestorID, Amount := req.Amount,
                   ExpectedReturn := req.Amount * (1 + loan.ROI),
                   InvestmentDate := req.InvestmentDate, AgreementSent := false,
                   AgreementSentAt := none }] } : DB).loans id = w.db.loans id from rfl)
    rw [hrejected] at h1
    rw [updateLoanTotalInvested_error_db h1, h1]
  have hrun := withTransaction_rollback (w := w) hbegin hbody
  unfold LoanService.ProcessInvestment
  rw [hrun]
  refine ⟨rfl, ?_, rfl, rfl, rfl⟩
  refine Exists.intro
    { ID := env.newID, CreatedAt := env.goNow, UpdatedAt := env.goNow,
      LoanID := id, InvestorID := req.InvestorID, Amount := req.Amount,
      ExpectedReturn := req.Amount * (1 + loan.ROI),
      InvestmentDate := req.InvestmentDate, AgreementSent := false,
      AgreementSentAt := none } ?_
  simp

/-- C12, at a concrete input: 4000 into the loan `L1` while the driver answers that the
accumulate statement touched no row. -/
theorem C12_accumulate_rejected_rolls_back_witness :
    (LoanService.ProcessInvestment
        { exampleEnv with updateTotalInvestedErr := some .errNoRows } "L1"
        ⟨"L1", "I1", 4000, 4⟩ exampleWorld).1
      = (none, some (.wrap "investment processing failed" .notApplied))
    ∧ (LoanService.ProcessInvestment
        { exampleEnv with updateTotalInvestedErr := some .errNoRows } "L1"
        ⟨"L1", "I1", 4000, 4⟩ exampleWorld).2.db = exampleWorld.db := by
  have h := C12_accumulate_rejected_rolls_back
    { exampleEnv with updateTotalInvestedErr := some .errNoRows } exampleWorld "L1"
    ({ exampleRow.scan "L1" with Borrower := some ⟨"B1", "John", "Doe"⟩ })
    ⟨"L1", "I1", 4000, 4⟩ rfl rfl (by decide!) rfl rfl
  exact ⟨h.1, h.2.2.1⟩

/-! ## The successful path of `processInvestmentTx`, forwards -/

theorem autoAdvance_run {env : Env} {id : UUID} {upd : Loan} {w : World} (r1 : LoanRow)
    (hupd : upd.State = LoanStateApproved)
    (hr : w.db.loans id = some r1) (hd : r1.deleted_at = none)
    (hstate : env.updateLoanStateErr = none) (hurl : env.updateAgreementURLErr = none)
    (hhist : env.recordHistoryErr = none) :
    LoanService.autoAdvance env id upd w
      = (.ok (),
          { db := { w.db.setLoan id (r1.funded env.dbNow id) with
                    loan_state_histories := w.db.loan_state_histories
                      ++ [LoanService.targetAchievedHistory env id] },
            calls := w.calls ++ [.UpdateLoanState id LoanStateInvested,
              .UpdateLoanAgreementLetterURL id
                (LoanService.mockAgreementLetterURL ((r1.advanced env.dbNow).scan id)).1,
              .RecordLoanStateHistory LoanStateApproved ((r1.advanced env.dbNow).scan id)
                env.SystemEmployeeID "Investment target achieved"] }) := by
  have hv : upd.ValidateStateTransition LoanStateInvested = none := by
    rw [validateStateTransition_invested, if_pos hupd]
  unfold LoanService.autoAdvance
  simp only [hv]
  rw [Tx.bind_apply, updateLoanState_run hstate LoanStateInvested hr hd]
  simp only [LoanService.mockAgreementLetterURL]
  rw [Tx.bind_apply,
    updateAgreementURL_run hurl _ (setLoan_loans_same _ _ _) (show
      ({ r1 with state := LoanStateInvested, updated_at := env.dbNow } : LoanRow).deleted_at
        = none from hd)]
  simp only []
  rw [Tx.bind_apply, recordHistory_run hhist]
  simp only [setLoan_setLoan, Tx.pure_apply, List.append_assoc, List.singleton_append]
  rfl
theorem getLoanByID_run {db : DB} {id : UUID} {r : LoanRow} {b : BorrowerRow}
    (hr : db.loans id = some r) (hd : r.deleted_at = none)
    (hb : db.borrowers r.borrower_id = some b) :
    (LoanRepository.GetLoanByID none db id).1
      = .ok { LoanRow.scan id r with
          Borrower := some { ID := r.borrower_id, FirstName := b.first_name,
                             LastName := b.last_name } } := by
  unfold LoanRepository.GetLoanByID queryRow LoanRepository.selectLoanStmt
  simp only [hr, hd, hb]
  rfl

/-- The world in the middle of `processInvestmentTx`, after the investment has been
inserted and the accumulate step applied. -/
theorem processInvestmentTx_run {env : Env} {id : UUID} (req : CreateInvestmentRequest)
    {w : World} {loan : Loan} {r : LoanRow}
    (hload : (LoanRepository.GetLoanByID env.getLoanErr w.db id).1 = .ok loan)
    (hvalid : loan.ValidateInvestmentAmount req.Amount = none)
    (hr : w.db.loans id = some r)
    (hins : env.createInvestmentErr = none) (hacc : env.updateTotalInvestedErr = none) :
    LoanService.processInvestmentTx env id req w
      = ((if r.total_invested + req.Amount ≥ r.principal_amount then
            LoanService.autoAdvance env id ((r.accumulated env.dbNow req.Amount).scan id)
          else pure ()) >>= fun _ =>
          (pure (LoanService.investmentResponse (LoanService.storedInvestment env id req r.roi))
            : Tx InvestmentResponse))
          { db := (w.db.addInvestment (LoanService.storedInvestment env id req r.roi)).setLoan id
                    (r.accumulated env.dbNow req.Amount),
            calls := w.calls ++ [.GetLoanByID id,
              .CreateInvestment (LoanService.newInvestment env id req r.roi),
              .UpdateLoanTotalInvested id req.Amount] } := by
  obtain ⟨r0, b, hr0, hd, -, hloan⟩ := getLoanByID_ok hload
  have e : r0 = r := by rw [hr] at hr0; exact (Option.some.inj hr0).symm
  subst e
  obtain ⟨hpos, hs, hrem⟩ := validateInvestmentAmount_none hvalid
  have hroi : loan.ROI = r0.roi := by rw [hloan]; rfl
  have hs0 : r0.state = LoanStateApproved := by rw [hloan] at hs; exact hs
  have hle : r0.total_invested + req.Amount ≤ r0.principal_amount := by
    rw [hloan] at hrem
    have : req.Amount ≤ r0.principal_amount - r0.total_invested := hrem
    linarith
  unfold LoanService.processInvestmentTx
  rw [Tx.bind_apply, getLoan_world, hload]
  simp only [hvalid]
  rw [Tx.bind_apply, createInvestment_run hins]
  simp only []
  rw [Tx.bind_apply]
  unfold Tx.wrapErr
  have hstep : ∀ w2 : World, w2.db.loans id = some r0 →
      loanRepo.UpdateLoanTotalInvested env id req.Amount w2
        = (.ok ((r0.accumulated env.dbNow req.Amount).scan id),
            { db := w2.db.setLoan id (r0.accumulated env.dbNow req.Amount),
              calls := w2.calls ++ [.UpdateLoanTotalInvested id req.Amount] }) :=
    fun w2 h2 => updateTotalInvested_run hacc h2 hd hs0 hle
  rw [hstep _ (by exact hr)]
  simp only []
  have hfullEq : ((r0.accumulated env.dbNow req.Amount).scan id).IsFullyInvested
      = decide (r0.total_invested + req.Amount ≥ r0.principal_amount) := rfl
  have hst : ((r0.accumulated env.dbNow req.Amount).scan id).State = LoanStateApproved := hs0
  by_cases hfull : r0.total_invested + req.Amount ≥ r0.principal_amount
  · have hc : (((r0.accumulated env.dbNow req.Amount).scan id).IsFullyInvested
        && ((r0.accumulated env.dbNow req.Amount).scan id).State == LoanStateApproved) = true := by
      simp [hfullEq, hst, hfull]
    rw [if_pos hc, if_pos hfull, hroi]
    simp only [List.append_assoc, List.singleton_append]
    rfl
  · have hc : ¬ (((r0.accumulated env.dbNow req.Amount).scan id).IsFullyInvested
        && ((r0.accumulated env.dbNow req.Amount).scan id).State == LoanStateApproved) = true := by
      simp [hfullEq, hst, hfull]
    rw [if_neg hc, if_neg hfull, hroi]
    simp only [List.append_assoc, List.singleton_append]
    rfl

theorem mockAgreementLetterURL_ne_empty (loan : Loan) :
    (LoanService.mockAgreementLetterURL loan).1 ≠ "" := by
  unfold LoanService.mockAgreementLetterURL
  intro h
  have hlen := congrArg String.length h
  simp only [String.length_append] at hlen
  have h0 : "https://storage.example.com/agreements?loan_id=".length = 47 := by decide
  have h1 : "".length = 0 := by decide
  rw [h0, h1] at hlen
  omega

theorem withTransaction_commit {α : Type} {env : Env} {body : Tx α} {w w1 : World}
    {a : α} (hbegin : env.beginErr = none)
    (hbody : body { w with calls := w.calls ++ [.Begin] } = (.ok a, w1)) :
    LoanService.withTransaction env none (LoanService.capture body) w
      = ((some a,
          match env.commitErr with
          | none => none
          | some err => some (.wrap "failed to commit transaction" err)),
         { db := match env.commitErr with
                 | none => w1.db
                 | some _ => w.db,
           calls := w1.calls ++ [.Commit] }) := by
  unfold LoanService.withTransaction LoanService.capture
  rw [hbegin]
  simp only [hbody]
  cases env.commitErr <;> rfl

/-! ## Auto-advance on full funding -/

/-- C13: after a successful accumulate in `ProcessInvestment` (loan loaded, amount accepted
by the pre-check, investment inserted, accumulate applied): when the new total reaches
the principal and the three following writes succeed, the transition to invested is
valid for the updated loan, the generated agreement URL is non-empty, and the calls
between `Begin` and `Commit` are, in this order, `GetLoanByID`, `CreateInvestment`,
`UpdateLoanTotalInvested`, `UpdateLoanState(invested)`, `UpdateLoanAgreementLetterURL`
with that URL and `RecordLoanStateHistory` with previous state approved, the system
employee and the reason "Investment target achieved"; once committed the loan is
invested with the URL attached and exactly one history row has been added.  When the
new total stays below the principal, none of the three calls is made, no history row
is added and the loan stays approved. -/
theorem C13_auto_advance_on_full_funding (env : Env) (w : World) (id : UUID) (loan : Loan)
    (r : LoanRow) (req : CreateInvestmentRequest)
    (hbegin : env.beginErr = none)
    (hload : (LoanRepository.GetLoanByID env.getLoanErr w.db id).1 = .ok loan)
    (hvalid : loan.ValidateInvestmentAmount req.Amount = none)
    (hr : w.db.loans id = some r)
    (hins : env.createInvestmentErr = none) (hacc : env.updateTotalInvestedErr = none) :
    (r.total_invested + req.Amount ≥ r.principal_amount →
      env.updateLoanStateErr = none → env.updateAgreementURLErr = none →
      env.recordHistoryErr = none →
        ((r.accumulated env.dbNow req.Amount).scan id).ValidateStateTransition
            LoanStateInvested = none
        ∧ (LoanService.mockAgreementLetterURL
            (((r.accumulated env.dbNow req.Amount).advanced env.dbNow).scan id)).1 ≠ ""
        ∧ (LoanService.ProcessInvestment env id req w).2.calls
            = w.calls ++ [.Begin, .GetLoanByID id,
                .CreateInvestment (LoanService.newInvestment env id req r.roi),
                .UpdateLoanTotalInvested id req.Amount,
                .UpdateLoanState id LoanStateInvested,
                .UpdateLoanAgreementLetterURL id
                  (LoanService.mockAgreementLetterURL
                    (((r.accumulated env.dbNow req.Amount).advanced env.dbNow).scan id)).1,
                .RecordLoanStateHistory LoanStateApproved
                  (((r.accumulated env.dbNow req.Amount).advanced env.dbNow).scan id)
                  env.SystemEmployeeID "Investment target achieved",
                .Commit]
        ∧ (env.commitErr = none →
            (LoanService.ProcessInvestment env id req w).1
              = (some (LoanService.investmentResponse
                  (LoanService.storedInvestment env id req r.roi)), none)
            ∧ (LoanService.ProcessInvestment env id req w).2.db.loans id
              = some ((r.accumulated env.dbNow req.Amount).funded env.dbNow id)
            ∧ (LoanService.ProcessInvestment env id req w).2.db.loan_state_histories
              = w.db.loan_state_histories ++ [LoanService.targetAchievedHistory env id]))
    ∧ (r.total_invested + req.Amount < r.principal_amount →
        (LoanService.ProcessInvestment env id req w).2.calls
          = w.calls ++ [.Begin, .GetLoanByID id,
              .CreateInvestment (LoanService.newInvestment env id req r.roi),
              .UpdateLoanTotalInvested id req.Amount, .Commit]
        ∧ (∃ r1, (LoanService.ProcessInvestment env id req w).2.db.loans id = some r1
            ∧ r1.state = LoanStateApproved)
        ∧ (LoanService.ProcessInvestment env id req w).2.db.loan_state_histories
            = w.db.loan_state_histories) := by
  obtain ⟨r0, b, hr0, hd, -, hloan⟩ := getLoanByID_ok hload
  have e : r0 = r := by rw [hr] at hr0; exact (Option.some.inj hr0).symm
  subst e
  obtain ⟨-, hs, -⟩ := validateInvestmentAmount_none hvalid
  have hs0 : r0.state = LoanStateApproved := by rw [hloan] at hs; exact hs
  have hrun := processInvestmentTx_run req (w := { w with calls := w.calls ++ [.Begin] })
    hload hvalid hr hins hacc
  refine ⟨fun hfull hstate hurl hhist => ?_, fun hlt => ?_⟩
  · rw [if_pos hfull, Tx.bind_apply,
      autoAdvance_run (r0.accumulated env.dbNow req.Amount) hs0
        (setLoan_loans_same _ _ _) hd hstate hurl hhist] at hrun
    simp only [Tx.pure_apply] at hrun
    have htx := withTransaction_commit (w := w) hbegin hrun
    unfold LoanService.ProcessInvestment
    rw [htx]
    refine ⟨?_, mockAgreementLetterURL_ne_empty _, by simp, fun hcommit => ?_⟩
    · rw [validateStateTransition_invested]
      exact if_pos hs0
    · rw [hcommit]
      refine ⟨rfl, ?_, rfl⟩
      show ((_ : DB).setLoan id _).loans id = _
      exact setLoan_loans_same _ _ _
  · rw [if_neg (not_le.2 hlt), Tx.bind_apply] at hrun
    simp only [Tx.pure_apply] at hrun
    have htx := withTransaction_commit (w := w) hbegin hrun
    unfold LoanService.ProcessInvestment
    rw [htx]
    refine ⟨by simp, ?_, ?_⟩
    · cases env.commitErr with
      | none => exact ⟨_, setLoan_loans_same _ _ _, hs0⟩
      | some err => exact ⟨r0, hr, hs0⟩
    · cases env.commitErr <;> rfl

/-- C13, at a concrete input: 4000 into the loan `L1` of 10000 with 6000 invested. -/
theorem C13_auto_advance_on_full_funding_witness :
    (LoanService.ProcessInvestment exampleEnv "L1" ⟨"L1", "I1", 4000, 4⟩ exampleWorld).2.db.loans
        "L1"
      = some ((exampleRow.accumulated 7 4000).funded 7 "L1")
    ∧ ((exampleRow.accumulated 7 4000).funded 7 "L1").state = LoanStateInvested
    ∧ ((exampleRow.accumulated 7 4000).funded 7 "L1").agreement_letter_url
      = "https://storage.example.com/agreements?loan_id=L1&filename=agreement_loan_L1.pdf&token=mock-token-123" := by
  have h := (C13_auto_advance_on_full_funding exampleEnv exampleWorld "L1"
    ({ exampleRow.scan "L1" with Borrower := some ⟨"B1", "John", "Doe"⟩ }) exampleRow
    ⟨"L1", "I1", 4000, 4⟩ rfl rfl (by decide!) rfl rfl rfl).1
    (by norm_num [exampleRow]) rfl rfl rfl
  exact ⟨(h.2.2.2 rfl).2.1, rfl, by decide⟩

/-! ## Operations that succeed -/

theorem processApproveLoan_success {env : Env} (hok : env.StorageOK) {id : UUID}
    (req : CreateApprovalRequest) {w : World} {r : LoanRow} {b : BorrowerRow}
    (hr : w.db.loans id = some r) (hd : r.deleted_at = none)
    (hb : w.db.borrowers r.borrower_id = some b) (hs : r.state = LoanStateProposed) :
    (∃ resp, (LoanService.ProcessApproveLoan env id req w).1 = (some resp, none))
    ∧ (LoanService.ProcessApproveLoan env id req w).2.db.loans id
        = some { r with state := LoanStateApproved, updated_at := env.dbNow }
    ∧ (LoanService.ProcessApproveLoan env id req w).2.db.borrowers = w.db.borrowers := by
  obtain ⟨hbegin, hcommit, -, hget, happ, hstate, hhist, -⟩ := hok
  have hload := getLoanByID_run hr hd hb
  have hv : (LoanRow.scan id r).ValidateStateTransition LoanStateApproved = none := by
    rw [validateStateTransition_approved]
    exact if_pos hs
  have hbody : ∃ resp w1,
      LoanService.processApproveLoanTx env id req { w with calls := w.calls ++ [.Begin] }
        = (.ok resp, w1)
      ∧ w1.db.loans id = some { r with state := LoanStateApproved, updated_at := env.dbNow }
      ∧ w1.db.borrowers = w.db.borrowers := by
    unfold LoanService.processApproveLoanTx
    rw [Tx.bind_apply, getLoan_world, hget, hload]
    have hv2 : Loan.ValidateStateTransition
        { LoanRow.scan id r with
          Borrower := some { ID := r.borrower_id, FirstName := b.first_name,
                             LastName := b.last_name } } LoanStateApproved = none := hv
    simp only [hv2]
    rw [Tx.bind_apply, createApproval_run happ]
    simp only []
    have hstep : ∀ w2 : World, w2.db.loans id = some r →
        loanRepo.UpdateLoanState env id LoanStateApproved w2
          = (.ok (LoanRow.scan id { r with state := LoanStateApproved, updated_at := env.dbNow }),
              { db := w2.db.setLoan id
                  { r with state := LoanStateApproved, updated_at := env.dbNow },
                calls := w2.calls ++ [.UpdateLoanState id LoanStateApproved] }) :=
      fun w2 h2 => updateLoanState_run hstate LoanStateApproved h2 hd
    rw [Tx.bind_apply, hstep _ (by exact hr)]
    simp only []
    rw [Tx.bind_apply, recordHistory_run hhist]
    exact ⟨_, _, rfl, setLoan_loans_same _ _ _, rfl⟩
  obtain ⟨resp, w1, hrun, hl, hbw⟩ := hbody
  have htx := withTransaction_commit (w := w) hbegin hrun
  unfold LoanService.ProcessApproveLoan
  rw [htx, hcommit]
  exact ⟨⟨resp, rfl⟩, hl, hbw⟩

theorem processInvestment_success {env : Env} (hok : env.StorageOK) {id : UUID}
    (req : CreateInvestmentRequest) {w : World} {r : LoanRow} {b : BorrowerRow}
    (hr : w.db.loans id = some r) (hd : r.deleted_at = none)
    (hb : w.db.borrowers r.borrower_id = some b) (hs : r.state = LoanStateApproved)
    (hpos : 0 < req.Amount) (hle : r.total_invested + req.Amount ≤ r.principal_amount) :
    (LoanService.ProcessInvestment env id req w).1
        = (some (LoanService.investmentResponse
            (LoanService.storedInvestment env id req r.roi)), none)
    ∧ (LoanService.ProcessInvestment env id req w).2.db.loans id
        = some (if r.total_invested + req.Amount ≥ r.principal_amount then
                  (r.accumulated env.dbNow req.Amount).funded env.dbNow id
                else r.accumulated env.dbNow req.Amount)
    ∧ (LoanService.ProcessInvestment env id req w).2.db.borrowers = w.db.borrowers
    ∧ (LoanService.ProcessInvestment env id req w).2.db.investments
        = w.db.investments ++ [LoanService.storedInvestment env id req r.roi] := by
  obtain ⟨hbegin, hcommit, -, hget, -, hstate, hhist, hins, hacc, hurl, -⟩ := hok
  have hload := getLoanByID_run hr hd hb
  rw [← hget] at hload
  have hvalid : Loan.ValidateInvestmentAmount
      { LoanRow.scan id r with
        Borrower := some { ID := r.borrower_id, FirstName := b.first_name,
                           LastName := b.last_name } } req.Amount = none := by
    unfold Loan.ValidateInvestmentAmount Loan.RemainingInvestmentAmount
    have h1 : ¬ req.Amount ≤ 0 := not_le.2 hpos
    have h2 : ¬ req.Amount > r.principal_amount - r.total_invested := by
      rw [not_lt]; linarith
    simp only [LoanRow.scan]
    rw [if_neg h1, if_neg (not_not.2 hs)]
    exact if_neg h2
  have hrun := processInvestmentTx_run req (w := { w with calls := w.calls ++ [.Begin] })
    hload hvalid hr hins hacc
  unfold LoanService.ProcessInvestment
  by_cases hfull : r.total_invested + req.Amount ≥ r.principal_amount
  · rw [if_pos hfull, Tx.bind_apply,
      autoAdvance_run (r.accumulated env.dbNow req.Amount) hs
        (setLoan_loans_same _ _ _) hd hstate hurl hhist] at hrun
    simp only [Tx.pure_apply] at hrun
    rw [withTransaction_commit (w := w) hbegin hrun, hcommit, if_pos hfull]
    refine ⟨rfl, ?_, rfl, rfl⟩
    show ((_ : DB).setLoan id _).loans id = _
    exact setLoan_loans_same _ _ _
  · rw [if_neg hfull, Tx.bind_apply] at hrun
    simp only [Tx.pure_apply] at hrun
    rw [withTransaction_commit (w := w) hbegin hrun, hcommit, if_neg hfull]
    exact ⟨rfl, setLoan_loans_same _ _ _, rfl, rfl⟩

/-! ## The investment row of an accepted investment -/

theorem autoAdvance_ok_investments {env : Env} {id : UUID} {upd : Loan} {w w1 : World}
    {u : Unit} (h : LoanService.autoAdvance env id upd w = (.ok u, w1)) :
    w1.db.investments = w.db.investments := by
  unfold LoanService.autoAdvance at h
  cases hv : upd.ValidateStateTransition LoanStateInvested with
  | some err => rw [hv] at h; exact (Tx.fail_ne_ok h).elim
  | none =>
    rw [hv] at h
    obtain ⟨newState, wb, h1, h⟩ := Tx.bind_ok h
    obtain ⟨r2, hr2, hd2, -, hdbb, -⟩ := updateLoanState_inv h1
    simp only [LoanService.mockAgreementLetterURL] at h
    obtain ⟨u2, wc, h2, h⟩ := Tx.bind_ok h
    obtain ⟨-, hurl⟩ := updateAgreementURL_inv h2
    have hdbc := hurl { r2 with state := LoanStateInvested, updated_at := env.dbNow }
      (by rw [hdbb]; exact setLoan_loans_same _ _ _) hd2
    obtain ⟨hist, wd, h3, h⟩ := Tx.bind_ok h
    obtain ⟨-, hdbd, -⟩ := recordHistory_inv h3
    obtain ⟨-, hw1⟩ := Tx.pure_ok h
    subst hw1
    rw [hdbd, hdbc, hdbb]
    rfl

theorem processInvestmentTx_ok_investment {env : Env} {id : UUID}
    {req : CreateInvestmentRequest} {w w1 : World} {resp : InvestmentResponse}
    (h : LoanService.processInvestmentTx env id req w = (.ok resp, w1)) :
    ∃ r, w.db.loans id = some r
      ∧ resp = LoanService.investmentResponse (LoanService.storedInvestment env id req r.roi)
      ∧ w1.db.investments
          = w.db.investments ++ [LoanService.storedInvestment env id req r.roi] := by
  unfold LoanService.processInvestmentTx at h
  obtain ⟨loan, wa, h1, h⟩ := Tx.bind_ok h
  obtain ⟨hdb, -, r, hr, -, -, -, -, -, -, hroi⟩ := getLoan_inv h1
  cases hv : loan.ValidateInvestmentAmount req.Amount with
  | some err => rw [hv] at h; exact (Tx.fail_ne_ok h).elim
  | none =>
    rw [hv] at h
    obtain ⟨i1, wb, h2, h⟩ := Tx.bind_ok h
    obtain ⟨hi1, hdbb, -⟩ := createInvestment_inv h2
    obtain ⟨upd, wc, h3, h⟩ := Tx.bind_ok h
    obtain ⟨r2, -, -, -, -, -, hdbc, -⟩ := updateTotalInvested_inv (Tx.wrapErr_ok h3)
    obtain ⟨u, wd, h4, h⟩ := Tx.bind_ok h
    obtain ⟨hresp, hw1⟩ := Tx.pure_ok h
    subst hw1
    have hinv : w1.db.investments = wc.db.investments := by
      by_cases hc : (upd.IsFullyInvested && upd.State == LoanStateApproved) = true
      · rw [if_pos hc] at h4
        exact autoAdvance_ok_investments h4
      · rw [if_neg hc] at h4
        rw [(Tx.pure_ok h4).2]
    have hi1' : i1 = LoanService.storedInvestment env id req r.roi := by
      rw [hi1, ← hroi]; rfl
    refine ⟨r, hr, ?_, ?_⟩
    · rw [hresp, hi1']; rfl
    · rw [hinv, hdbc, hdbb, hdb, hi1']; rfl

theorem withTransaction_ok_inv {α : Type} {env : Env} {body : Tx α} {w : World} {a : α}
    (h : (LoanService.withTransaction env none (LoanService.capture body) w).1
      = (some a, none)) :
    ∃ w1, body { w with calls := w.calls ++ [.Begin] } = (.ok a, w1)
      ∧ (LoanService.withTransaction env none (LoanService.capture body) w).2.db = w1.db := by
  unfold LoanService.withTransaction LoanService.capture at h ⊢
  cases hb : env.beginErr with
  | some err => rw [hb] at h; simp at h
  | none =>
    rw [hb] at h
    simp only [] at h ⊢
    rcases hbody : body { w with calls := w.calls ++ [.Begin] } with ⟨err | a1, w1⟩
    · rw [hbody] at h
      simp only [] at h
      cases hrb : env.rollbackErr with
      | none => rw [hrb] at h; simp at h
      | some e => rw [hrb] at h; simp at h
    · rw [hbody] at h
      simp only [] at h ⊢
      cases hc : env.commitErr with
      | some e => rw [hc] at h; simp at h
      | none =>
        rw [hc] at h
        simp at h
        subst h
        exact ⟨w1, rfl, rfl⟩

/-! ## Disbursement: the path up to the payment -/

/-- The world in which `processDisbursementTx` calls the payment adapter. -/
theorem processDisbursementTx_run {env : Env} {id : UUID} (req : CreateDisbursementRequest)
    {w : World} {loan : Loan} {r : LoanRow}
    (hload : (LoanRepository.GetLoanByID env.getLoanErr w.db id).1 = .ok loan)
    (hvalid : loan.ValidateStateTransition LoanStateDisbursed = none)
    (hamt : req.DisbursedAmount = loan.PrincipalAmount)
    (hr : w.db.loans id = some r)
    (hcd : env.createDisbursementErr = none) (hus : env.updateLoanStateErr = none)
    (hrh : env.recordHistoryErr = none) :
    LoanService.processDisbursementTx env id req w
      = (Tx.wrapErr "payment processing failed"
            (paymentAdapter.ProcessPayment env req.DisbursedAmount
              ("disbursement_token_" ++ id)) >>= fun _ =>
          (pure (LoanService.disbursementResponse (LoanService.storedDisbursement env id req))
            : Tx DisbursementResponse))
          { db := w.db.disbursedBy env id req r,
            calls := w.calls ++ [.GetLoanByID id,
              .CreateDisbursement (LoanService.newDisbursement env id req),
              .UpdateLoanState id LoanStateDisbursed,
              .RecordLoanStateHistory LoanStateInvested ((r.disbursed env.dbNow).scan id)
                req.FieldOfficerID "Loan disbursed"] } := by
  obtain ⟨r0, b, hr0, hd, -, -⟩ := getLoanByID_ok hload
  have e : r0 = r := by rw [hr] at hr0; exact (Option.some.inj hr0).symm
  subst e
  unfold LoanService.processDisbursementTx
  rw [Tx.bind_apply, getLoan_world, hload]
  simp only [hvalid]
  rw [if_neg (not_not.2 hamt), Tx.bind_apply, createDisbursement_run hcd]
  simp only []
  have hstep : ∀ w2 : World, w2.db.loans id = some r0 →
      loanRepo.UpdateLoanState env id LoanStateDisbursed w2
        = (.ok ((r0.disbursed env.dbNow).scan id),
            { db := w2.db.setLoan id (r0.disbursed env.dbNow),
              calls := w2.calls ++ [.UpdateLoanState id LoanStateDisbursed] }) :=
    fun w2 h2 => updateLoanState_run hus LoanStateDisbursed h2 hd
  rw [Tx.bind_apply, hstep _ (by exact hr)]
  simp only []
  rw [Tx.bind_apply, recordHistory_run hrh]
  simp only [List.append_assoc, List.singleton_append]
  rfl

/-! ## Disbursement: amount mismatch and payment failure -/

/-- C16: for a loaded loan that passes the validation of the transition to disbursed and
a request whose disbursed amount differs from the principal (in either direction),
`ProcessDisbursement` returns a nil result and the amount-mismatch error (inside the
rollback error if the rollback itself fails); the only calls are `Begin`,
`GetLoanByID` and `Rollback`, so there is no `CreateDisbursement`, no state update,
no history write and no payment call, and the datastore is unchanged. -/
theorem C16_amount_mismatch_rejected (env : Env) (w : World) (id : UUID) (loan : Loan)
    (req : CreateDisbursementRequest)
    (hbegin : env.beginErr = none)
    (hload : (LoanRepository.GetLoanByID env.getLoanErr w.db id).1 = .ok loan)
    (hvalid : loan.ValidateStateTransition LoanStateDisbursed = none)
    (hdiff : req.DisbursedAmount < loan.PrincipalAmount
      ∨ req.DisbursedAmount > loan.PrincipalAmount) :
    (LoanService.ProcessDisbursement env id req w).1
      = (none,
          some (match env.rollbackErr with
            | none => .amountMismatch req.DisbursedAmount loan.PrincipalAmount
            | some rollbackErr => .rollbackFailed rollbackErr
                (.amountMismatch req.DisbursedAmount loan.PrincipalAmount)))
    ∧ (Error.amountMismatch req.DisbursedAmount loan.PrincipalAmount).message
        = "disbursed amount " ++ formatF2 req.DisbursedAmount
            ++ " must match principal amount " ++ formatF2 loan.PrincipalAmount
    ∧ (LoanService.ProcessDisbursement env id req w).2.calls
        = w.calls ++ [.Begin, .GetLoanByID id, .Rollback]
    ∧ (∀ c ∈ [Call.Begin, Call.GetLoanByID id, Call.Rollback],
        c.isWrite = false ∧ c.isPayment = false)
    ∧ (LoanService.ProcessDisbursement env id req w).2.db = w.db := by
  have hne : req.DisbursedAmount ≠ loan.PrincipalAmount := by
    rcases hdiff with h | h
    · exact ne_of_lt h
    · exact ne_of_gt h
  have hbody : LoanService.processDisbursementTx env id req
      { w with calls := w.calls ++ [.Begin] }
      = (.error (.amountMismatch req.DisbursedAmount loan.PrincipalAmount),
          { db := w.db, calls := w.calls ++ [.Begin] ++ [.GetLoanByID id] }) := by
    unfold LoanService.processDisbursementTx
    rw [Tx.bind_apply, getLoan_world, hload]
    simp only [hvalid]
    rw [if_pos hne]
    rfl
  have hrun := withTransaction_rejected (w := w) hbegin hbody
  unfold LoanService.ProcessDisbursement
  rw [hrun]
  exact ⟨rfl, rfl, by simp, by simp [Call.isWrite, Call.isPayment], rfl⟩

/-- C16, at a concrete input: 9000 for the funded loan `L2` of 10000. -/
theorem C16_amount_mismatch_rejected_witness :
    (LoanService.ProcessDisbursement exampleEnv "L2"
        { exampleDisbursementRequest with DisbursedAmount := 9000 } fundedWorld).1
      = (none, some (.amountMismatch 9000 10000))
    ∧ (LoanService.ProcessDisbursement exampleEnv "L2"
        { exampleDisbursementRequest with DisbursedAmount := 9000 } fundedWorld).2.db
      = fundedWorld.db := by
  have h := C16_amount_mismatch_rejected exampleEnv fundedWorld "L2"
    ({ fundedRow.scan "L2" with Borrower := some ⟨"B1", "John", "Doe"⟩ })
    { exampleDisbursementRequest with DisbursedAmount := 9000 } rfl rfl (by decide!)
    (Or.inl (by norm_num [LoanRow.scan, fundedRow]))
  exact ⟨h.1, h.2.2.2.2⟩

/-- C17, as stated, fails: when the payment provider fails after the disbursement row,
the disbursed state and the history row have been written, the operation fails and
the loan `L2` is still recorded as invested, with no disbursement row and no history
row left. -/
theorem C17_counterexample :
    (LoanService.ProcessDisbursement failingPaymentEnv "L2" exampleDisbursementRequest
        fundedWorld).2.calls
      = [.Begin, .GetLoanByID "L2",
          .CreateDisbursement (LoanService.newDisbursement failingPaymentEnv "L2"
            exampleDisbursementRequest),
          .UpdateLoanState "L2" LoanStateDisbursed,
          .RecordLoanStateHistory LoanStateInvested ((fundedRow.disbursed 7).scan "L2") "F1"
            "Loan disbursed",
          .ProcessPayment 10000 "disbursement_token_L2",
          .Rollback]
    ∧ (LoanService.ProcessDisbursement failingPaymentEnv "L2" exampleDisbursementRequest
        fundedWorld).1
      = (none, some (.wrap "payment processing failed"
          (.external "payment provider unavailable")))
    ∧ stateOf "L2" (LoanService.ProcessDisbursement failingPaymentEnv "L2"
        exampleDisbursementRequest fundedWorld).2 = some LoanStateInvested
    ∧ stateOf "L2" (LoanService.ProcessDisbursement failingPaymentEnv "L2"
        exampleDisbursementRequest fundedWorld).2 ≠ some LoanStateDisbursed
    ∧ (LoanService.ProcessDisbursement failingPaymentEnv "L2" exampleDisbursementRequest
        fundedWorld).2.db.disbursements = []
    ∧ (LoanService.ProcessDisbursement failingPaymentEnv "L2" exampleDisbursementRequest
        fundedWorld).2.db.loan_state_histories = [] := by
  refine ⟨by decide!, by decide!, by decide!, by decide!, by decide!, by decide!⟩

/-- C17, amended: when the payment provider fails after the disbursement row, the
disbursed state and the history row have been written, `ProcessDisbursement` returns
a nil result and the payment error wrapped by the operation, and the transaction is
rolled back: after the payment call only `Rollback` is called and the datastore is
what it was before the operation, so the loan is still invested and no disbursement
or history row remains. -/
theorem C17_payment_failure_rolls_back (env : Env) (w : World) (id : UUID) (loan : Loan)
    (r : LoanRow) (req : CreateDisbursementRequest) (paymentErr : Error)
    (hbegin : env.beginErr = none)
    (hload : (LoanRepository.GetLoanByID env.getLoanErr w.db id).1 = .ok loan)
    (hvalid : loan.ValidateStateTransition LoanStateDisbursed = none)
    (hamt : req.DisbursedAmount = loan.PrincipalAmount)
    (hr : w.db.loans id = some r)
    (hcd : env.createDisbursementErr = none) (hus : env.updateLoanStateErr = none)
    (hrh : env.recordHistoryErr = none)
    (hpay : env.payment = .error paymentErr) :
    (LoanService.ProcessDisbursement env id req w).1
      = (none,
          some (match env.rollbackErr with
            | none => .wrap "payment processing failed" paymentErr
            | some rollbackErr => .rollbackFailed rollbackErr
                (.wrap "payment processing failed" paymentErr)))
    ∧ (LoanService.ProcessDisbursement env id req w).2.calls
        = w.calls ++ [.Begin, .GetLoanByID id,
            .CreateDisbursement (LoanService.newDisbursement env id req),
            .UpdateLoanState id LoanStateDisbursed,
            .RecordLoanStateHistory LoanStateInvested ((r.disbursed env.dbNow).scan id)
              req.FieldOfficerID "Loan disbursed",
            .ProcessPayment req.DisbursedAmount ("disbursement_token_" ++ id),
            .Rollback]
    ∧ (LoanService.ProcessDisbursement env id req w).2.db = w.db
    ∧ stateOf id (LoanService.ProcessDisbursement env id req w).2 = some LoanStateInvested
    ∧ (LoanService.ProcessDisbursement env id req w).2.db.disbursements = w.db.disbursements
    ∧ (LoanService.ProcessDisbursement env id req w).2.db.loan_state_histories
        = w.db.loan_state_histories := by
  have hrun := processDisbursementTx_run req (w := { w with calls := w.calls ++ [.Begin] })
    hload hvalid hamt hr hcd hus hrh
  rw [Tx.bind_apply] at hrun
  unfold Tx.wrapErr paymentAdapter.ProcessPayment at hrun
  simp only [hpay] at hrun
  have htx := withTransaction_rollback (w := w) hbegin hrun
  unfold LoanService.ProcessDisbursement
  rw [htx]
  obtain ⟨r0, b, hr0, -, -, hloan⟩ := getLoanByID_ok hload
  have e : r0 = r := by rw [hr] at hr0; exact (Option.some.inj hr0).symm
  subst e
  have hst : r0.state = LoanStateInvested := by
    have := (validateDisbursed_none hvalid).1
    rw [hloan] at this
    exact this
  refine ⟨rfl, by simp, rfl, ?_, rfl, rfl⟩
  simp [stateOf, hr, hst]

/-- C17, amended, at a concrete input: the funded loan `L2` and a failing provider. -/
theorem C17_payment_failure_rolls_back_witness :
    (LoanService.ProcessDisbursement failingPaymentEnv "L2" exampleDisbursementRequest
        fundedWorld).2.db = fundedWorld.db :=
  (C17_payment_failure_rolls_back failingPaymentEnv fundedWorld "L2"
    ({ fundedRow.scan "L2" with Borrower := some ⟨"B1", "John", "Doe"⟩ }) fundedRow
    exampleDisbursementRequest (.external "payment provider unavailable")
    rfl rfl (by decide!) rfl rfl rfl rfl rfl rfl).2.2.1

/-! ## Disbursement: when the payment adapter is called -/

theorem createDisbursement_fail {env : Env} {err : Error}
    (h : env.createDisbursementErr = some err) (d : Disbursement) (w : World) :
    loanRepo.CreateDisbursement env d w
      = (.error err, { db := w.db, calls := w.calls ++ [.CreateDisbursement d] }) := by
  unfold loanRepo.CreateDisbursement repoCall LoanRepository.CreateDisbursement queryRow
  rw [h]

theorem updateLoanState_fail {env : Env} {err : Error}
    (h : env.updateLoanStateErr = some err) (id : UUID) (s : LoanState) (w : World) :
    loanRepo.UpdateLoanState env id s w
      = (.error err, { db := w.db, calls := w.calls ++ [.UpdateLoanState id s] }) := by
  unfold loanRepo.UpdateLoanState repoCall LoanRepository.UpdateLoanState queryRow
  rw [h]

theorem recordHistory_fail {env : Env} {err : Error}
    (h : env.recordHistoryErr = some err) (prev : LoanState) (loan : Loan) (emp : UUID)
    (reason : String) (w : World) :
    loanRepo.RecordLoanStateHistory env prev loan emp reason w
      = (.error err,
          { db := w.db,
            calls := w.calls ++ [.RecordLoanStateHistory prev loan emp reason] }) := by
  unfold loanRepo.RecordLoanStateHistory repoCall LoanRepository.RecordLoanStateHistory queryRow
  rw [h]

/-- Either `processDisbursementTx` fails before the payment, having made no payment call,
or the loan was loaded and validated, the amount matches, the three writes succeeded
and the payment adapter is called next. -/
theorem processDisbursementTx_trace (env : Env) (id : UUID) (req : CreateDisbursementRequest)
    (w : World) :
    (∃ err db1 cs, LoanService.processDisbursementTx env id req w
          = (.error err, { db := db1, calls := w.calls ++ cs })
        ∧ ∀ c ∈ cs, c.isPayment = false)
    ∨ (∃ loan r,
        (LoanRepository.GetLoanByID env.getLoanErr w.db id).1 = .ok loan
        ∧ loan.ValidateStateTransition LoanStateDisbursed = none
        ∧ req.DisbursedAmount = loan.PrincipalAmount
        ∧ w.db.loans id = some r
        ∧ env.createDisbursementErr = none ∧ env.updateLoanStateErr = none
        ∧ env.recordHistoryErr = none) := by
  rcases hload : (LoanRepository.GetLoanByID env.getLoanErr w.db id).1 with err | loan
  · left
    refine ⟨err, w.db, [.GetLoanByID id], ?_, by simp [Call.isPayment]⟩
    unfold LoanService.processDisbursementTx
    rw [Tx.bind_apply, getLoan_world, hload]
  · cases hvalid : loan.ValidateStateTransition LoanStateDisbursed with
    | some err =>
      left
      exact ⟨_, w.db, [.GetLoanByID id], processDisbursementTx_rejected req w hload hvalid,
        by simp [Call.isPayment]⟩
    | none =>
      obtain ⟨r, b, hr, hd, -, -⟩ := getLoanByID_ok hload
      by_cases hamt : req.DisbursedAmount = loan.PrincipalAmount
      · cases hcd : env.createDisbursementErr with
        | some err =>
          left
          refine ⟨err, w.db, [.GetLoanByID id,
            .CreateDisbursement (LoanService.newDisbursement env id req)], ?_,
            by simp [Call.isPayment]⟩
          unfold LoanService.processDisbursementTx
          rw [Tx.bind_apply, getLoan_world, hload]
          simp only [hvalid]
          rw [if_neg (not_not.2 hamt), Tx.bind_apply, createDisbursement_fail hcd]
          simp only [List.append_assoc, List.singleton_append]
          rfl
        | none =>
          cases hus : env.updateLoanStateErr with
          | some err =>
            left
            refine ⟨err, ({ w.db with disbursements := w.db.disbursements
                  ++ [LoanService.storedDisbursement env id req] } : DB),
              [.GetLoanByID id, .CreateDisbursement (LoanService.newDisbursement env id req),
                .UpdateLoanState id LoanStateDisbursed], ?_, by simp [Call.isPayment]⟩
            unfold LoanService.processDisbursementTx
            rw [Tx.bind_apply, getLoan_world, hload]
            simp only [hvalid]
            rw [if_neg (not_not.2 hamt), Tx.bind_apply, createDisbursement_run hcd]
            simp only []
            rw [Tx.bind_apply, updateLoanState_fail hus]
            simp only [List.append_assoc, List.singleton_append]
            rfl
          | none =>
            cases hrh : env.recordHistoryErr with
            | some err =>
              left
              refine ⟨err, ({ w.db with disbursements := w.db.disbursements
                    ++ [LoanService.storedDisbursement env id req] } : DB).setLoan id
                  (r.disbursed env.dbNow),
                [.GetLoanByID id, .CreateDisbursement (LoanService.newDisbursement env id req),
                  .UpdateLoanState id LoanStateDisbursed,
                  .RecordLoanStateHistory LoanStateInvested ((r.disbursed env.dbNow).scan id)
                    req.FieldOfficerID "Loan disbursed"], ?_, by simp [Call.isPayment]⟩
              unfold LoanService.processDisbursementTx
              rw [Tx.bind_apply, getLoan_world, hload]
              simp only [hvalid]
              rw [if_neg (not_not.2 hamt), Tx.bind_apply, createDisbursement_run hcd]
              simp only []
              have hstep : ∀ w2 : World, w2.db.loans id = some r →
                  loanRepo.UpdateLoanState env id LoanStateDisbursed w2
                    = (.ok ((r.disbursed env.dbNow).scan id),
                        { db := w2.db.setLoan id (r.disbursed env.dbNow),
                          calls := w2.calls ++ [.UpdateLoanState id LoanStateDisbursed] }) :=
                fun w2 h2 => updateLoanState_run hus LoanStateDisbursed h2 hd
              rw [Tx.bind_apply, hstep _ (by exact hr)]
              simp only []
              rw [Tx.bind_apply, recordHistory_fail hrh]
              simp only [List.append_assoc, List.singleton_append]
              rfl
            | none =>
              right
              exact ⟨loan, r, rfl, hvalid, hamt, hr, rfl, rfl, rfl⟩
      · left
        refine ⟨.amountMismatch req.DisbursedAmount loan.PrincipalAmount, w.db,
          [.GetLoanByID id], ?_, by simp [Call.isPayment]⟩
        unfold LoanService.processDisbursementTx
        rw [Tx.bind_apply, getLoan_world, hload]
        simp only [hvalid]
        rw [if_pos hamt]
        rfl

/-- C18: in every run of `ProcessDisbursement`, whatever the environment, the calls it
adds contain at most one payment call; and if they contain one, then the loan was
loaded and passed the validation, the amount equals its principal, the three writes
had no error, and the added calls are exactly `Begin`, `GetLoanByID`,
`CreateDisbursement`, `UpdateLoanState(disbursed)`, `RecordLoanStateHistory`, the
payment call with the request's amount and the token "disbursement_token_" followed
by the loan ID, and then `Commit` or `Rollback`.  So a failed validation or a failed
write means no payment call. -/
theorem C18_payment_once_after_writes (env : Env) (w : World) (id : UUID)
    (req : CreateDisbursementRequest) :
    ∃ cs, (LoanService.ProcessDisbursement env id req w).2.calls = w.calls ++ cs
      ∧ (cs.filter Call.isPayment).length ≤ 1
      ∧ (∀ c ∈ cs, c.isPayment = true →
          ∃ loan disbursement newState last,
            (LoanRepository.GetLoanByID env.getLoanErr w.db id).1 = .ok loan
            ∧ loan.ValidateStateTransition LoanStateDisbursed = none
            ∧ req.DisbursedAmount = loan.PrincipalAmount
            ∧ env.createDisbursementErr = none ∧ env.updateLoanStateErr = none
            ∧ env.recordHistoryErr = none
            ∧ c = .ProcessPayment req.DisbursedAmount ("disbursement_token_" ++ id)
            ∧ (last = Call.Commit ∨ last = Call.Rollback)
            ∧ cs = [.Begin, .GetLoanByID id, .CreateDisbursement disbursement,
                .UpdateLoanState id LoanStateDisbursed,
                .RecordLoanStateHistory LoanStateInvested newState req.FieldOfficerID
                  "Loan disbursed",
                c, last]) := by
  unfold LoanService.ProcessDisbursement
  cases hbegin : env.beginErr with
  | some err =>
    refine ⟨[.Begin], ?_, by simp [Call.isPayment], by simp [Call.isPayment]⟩
    unfold LoanService.withTransaction
    rw [hbegin]
  | none =>
    rcases processDisbursementTx_trace env id req { w with calls := w.calls ++ [.Begin] }
      with ⟨err, db1, cs, hbody, hnp⟩ | ⟨loan, r, hload, hvalid, hamt, hr, hcd, hus, hrh⟩
    · rw [withTransaction_rollback (w := w) hbegin hbody]
      refine ⟨[.Begin] ++ cs ++ [.Rollback], by simp, ?_, ?_⟩
      · have : List.filter Call.isPayment cs = [] := by
          rw [List.filter_eq_nil_iff]
          intro c hc
          simp [hnp c hc]
        simp [List.filter_append, this, Call.isPayment]
      · intro c hc hp
        simp only [List.mem_append, List.mem_singleton] at hc
        rcases hc with (rfl | hc) | rfl
        · simp [Call.isPayment] at hp
        · rw [hnp c hc] at hp; cases hp
        · simp [Call.isPayment] at hp
    · have hrun := processDisbursementTx_run req
        (w := { w with calls := w.calls ++ [.Begin] }) hload hvalid hamt hr hcd hus hrh
      rw [Tx.bind_apply] at hrun
      unfold Tx.wrapErr paymentAdapter.ProcessPayment at hrun
      cases hpay : env.payment with
      | error perr =>
        simp only [hpay] at hrun
        rw [withTransaction_rollback (w := w) hbegin hrun]
        refine ⟨[.Begin, .GetLoanByID id,
          .CreateDisbursement (LoanService.newDisbursement env id req),
          .UpdateLoanState id LoanStateDisbursed,
          .RecordLoanStateHistory LoanStateInvested ((r.disbursed env.dbNow).scan id)
            req.FieldOfficerID "Loan disbursed",
          .ProcessPayment req.DisbursedAmount ("disbursement_token_" ++ id), .Rollback],
          by simp, by simp [Call.isPayment], ?_⟩
        intro c hc hp
        simp only [List.mem_cons, List.mem_singleton, List.not_mem_nil, or_false] at hc
        rcases hc with rfl | rfl | rfl | rfl | rfl | rfl | rfl
        all_goals first
          | (simp [Call.isPayment] at hp; done)
          | exact ⟨loan, _, _, .Rollback, hload, hvalid, hamt, hcd, hus, hrh, rfl,
              Or.inr rfl, rfl⟩
      | ok presult =>
        simp only [hpay, Tx.pure_apply] at hrun
        rw [withTransaction_commit (w := w) hbegin hrun]
        refine ⟨[.Begin, .GetLoanByID id,
          .CreateDisbursement (LoanService.newDisbursement env id req),
          .UpdateLoanState id LoanStateDisbursed,
          .RecordLoanStateHistory LoanStateInvested ((r.disbursed env.dbNow).scan id)
            req.FieldOfficerID "Loan disbursed",
          .ProcessPayment req.DisbursedAmount ("disbursement_token_" ++ id), .Commit],
          by simp, by simp [Call.isPayment], ?_⟩
        intro c hc hp
        simp only [List.mem_cons, List.mem_singleton, List.not_mem_nil, or_false] at hc
        rcases hc with rfl | rfl | rfl | rfl | rfl | rfl | rfl
        all_goals first
          | (simp [Call.isPayment] at hp; done)
          | exact ⟨loan, _, _, .Commit, hload, hvalid, hamt, hcd, hus, hrh, rfl,
              Or.inl rfl, rfl⟩

/-- C18, at a concrete input: disbursing the funded loan `L2` calls the payment adapter
once, after the three writes, and then commits. -/
theorem C18_payment_once_after_writes_witness :
    (LoanService.ProcessDisbursement exampleEnv "L2" exampleDisbursementRequest
        fundedWorld).2.calls
      = [.Begin, .GetLoanByID "L2",
          .CreateDisbursement (LoanService.newDisbursement exampleEnv "L2"
            exampleDisbursementRequest),
          .UpdateLoanState "L2" LoanStateDisbursed,
          .RecordLoanStateHistory LoanStateInvested ((fundedRow.disbursed 7).scan "L2") "F1"
            "Loan disbursed",
          .ProcessPayment 10000 "disbursement_token_L2",
          .Commit]
    ∧ ∃ cs, (LoanService.ProcessDisbursement exampleEnv "L2" exampleDisbursementRequest
          fundedWorld).2.calls = fundedWorld.calls ++ cs
        ∧ (cs.filter Call.isPayment).length ≤ 1 := by
  refine ⟨by decide!, ?_⟩
  obtain ⟨cs, h1, h2, -⟩ := C18_payment_once_after_writes exampleEnv fundedWorld "L2"
    exampleDisbursementRequest
  exact ⟨cs, h1, h2⟩

/-! ## Commit or rollback -/

theorem withTransactionRecover_returning {σ : Type} (env : Env) (init : σ)
    (fn : World → (σ × Option Error) × World) (w : World) :
    LoanService.withTransactionRecover env init (LoanService.returning fn) w
      = (.returned (LoanService.withTransaction env init fn w).1,
          (LoanService.withTransaction env init fn w).2) := by
  unfold LoanService.withTransactionRecover LoanService.withTransaction LoanService.returning
  cases env.beginErr with
  | some err => rfl
  | none =>
    simp only []
    rcases hf : fn { w with calls := w.calls ++ [.Begin] } with ⟨⟨s, _ | err⟩, w1⟩
    · cases env.commitErr <;> rfl
    · cases env.rollbackErr <;> rfl

theorem withTransaction_all_or_nothing {α : Type} (env : Env) (body : Tx α) (w : World) :
    ((LoanService.withTransaction env none (LoanService.capture body) w).2.db = w.db
      ∧ ∃ err, (LoanService.withTransaction env none (LoanService.capture body) w).1.2
          = some err)
    ∨ ∃ a w1, body { w with calls := w.calls ++ [.Begin] } = (.ok a, w1)
        ∧ (LoanService.withTransaction env none (LoanService.capture body) w).1
            = (some a, none)
        ∧ (LoanService.withTransaction env none (LoanService.capture body) w).2.db
            = w1.db := by
  cases hbegin : env.beginErr with
  | some err =>
    left
    unfold LoanService.withTransaction
    rw [hbegin]
    exact ⟨rfl, _, rfl⟩
  | none =>
    rcases hbody : body { w with calls := w.calls ++ [.Begin] } with ⟨err | a, w1⟩
    · left
      rw [withTransaction_rollback (w := w) hbegin hbody]
      exact ⟨rfl, _, rfl⟩
    · rw [withTransaction_commit (w := w) hbegin hbody]
      cases env.commitErr with
      | some err => left; exact ⟨rfl, _, rfl⟩
      | none => right; exact ⟨a, w1, rfl, rfl, rfl⟩

theorem processApproveLoanTx_ok_tables {env : Env} {id : UUID} {req : CreateApprovalRequest}
    {w w1 : World} {resp : LoanApprovalResponse}
    (h : LoanService.processApproveLoanTx env id req w = (.ok resp, w1)) :
    ∃ a hist, a.LoanID = id ∧ a.ValidatorID = req.ValidatorID
      ∧ w1.db.approvals = w.db.approvals ++ [a]
      ∧ hist.LoanID = id ∧ hist.PreviousState = LoanStateProposed
      ∧ hist.NewState = LoanStateApproved
      ∧ w1.db.loan_state_histories = w.db.loan_state_histories ++ [hist] := by
  unfold LoanService.processApproveLoanTx at h
  obtain ⟨loan, wa, h1, h⟩ := Tx.bind_ok h
  obtain ⟨hdb, -, r, hr, hd, -, hst, -⟩ := getLoan_inv h1
  cases hv : loan.ValidateStateTransition LoanStateApproved with
  | some err => rw [hv] at h; simp [Tx.fail] at h
  | none =>
    rw [hv] at h
    obtain ⟨a1, wb, h2, h⟩ := Tx.bind_ok h
    obtain ⟨ha1, hdbb, -⟩ := createApproval_inv h2
    obtain ⟨st, wc, h3, h⟩ := Tx.bind_ok h
    obtain ⟨r2, hr2, -, hst2, hdbc, -⟩ := updateLoanState_inv h3
    obtain ⟨hist, wd, h4, h⟩ := Tx.bind_ok h
    obtain ⟨hh, hdbd, -⟩ := recordHistory_inv h4
    obtain ⟨-, hw1⟩ := Tx.pure_ok h
    subst hw1
    have hid : a1.LoanID = id := by rw [ha1]
    refine ⟨a1, hist, hid, by rw [ha1], ?_, ?_, by rw [hh], ?_, ?_⟩
    · rw [hdbd, hdbc, hdbb, hdb]; rfl
    · rw [hh, hst2, hid]; rfl
    · rw [hh, hst2]; rfl
    · rw [hdbd, hdbc, hdbb, hdb]; rfl

theorem processDisbursementTx_ok_db {env : Env} {id : UUID} {req : CreateDisbursementRequest}
    {w w1 : World} {resp : DisbursementResponse}
    (h : LoanService.processDisbursementTx env id req w = (.ok resp, w1)) :
    ∃ r, w.db.loans id = some r ∧ w1.db = w.db.disbursedBy env id req r := by
  rcases processDisbursementTx_trace env id req w
    with ⟨err, db1, cs, hbody, -⟩ | ⟨loan, r, hload, hvalid, hamt, hr, hcd, hus, hrh⟩
  · rw [hbody] at h; simp at h
  · have hrun := processDisbursementTx_run req hload hvalid hamt hr hcd hus hrh
    rw [h, Tx.bind_apply] at hrun
    unfold Tx.wrapErr paymentAdapter.ProcessPayment at hrun
    cases hpay : env.payment with
    | error perr => simp [hpay] at hrun
    | ok presult =>
      simp only [hpay, Tx.pure_apply] at hrun
      refine ⟨r, hr, ?_⟩
      have := congrArg (fun x => x.2.db) hrun
      exact this

/-- C19: `withTransaction`, once the transaction has begun, follows the closure's calls
by `Commit` exactly when the closure returned a nil error (and then, the commit
succeeding, keeps the closure's writes and returns nil); when the closure returns an
error or panics it follows them by `Rollback`, not `Commit`, restores the datastore,
and returns the closure's error unchanged if the rollback succeeds (or panics again
with the same value).  On closures that return, this is the `withTransaction` the
service operations call; so `ProcessApproveLoan`, `ProcessInvestment` and
`ProcessDisbursement` either leave the datastore as it was and return an error, or
return no error and leave every one of their writes in it. -/
theorem C19_commit_or_rollback (env : Env) (w : World) :
    (∀ (σ : Type) (init : σ) (fn : World → Outcome (σ × Option Error) × World),
      env.beginErr = none →
        ((LoanService.withTransactionRecover env init fn w).2.calls
            = (fn { w with calls := w.calls ++ [.Begin] }).2.calls ++ [.Commit]
          ↔ ∃ captured,
              (fn { w with calls := w.calls ++ [.Begin] }).1 = .returned (captured, none))
        ∧ (∀ captured,
            (fn { w with calls := w.calls ++ [.Begin] }).1 = .returned (captured, none) →
            env.commitErr = none →
              (LoanService.withTransactionRecover env init fn w).1
                  = .returned (captured, none)
              ∧ (LoanService.withTransactionRecover env init fn w).2.db
                  = (fn { w with calls := w.calls ++ [.Begin] }).2.db)
        ∧ (∀ captured err,
            (fn { w with calls := w.calls ++ [.Begin] }).1
                = .returned (captured, some err) →
              (LoanService.withTransactionRecover env init fn w).2.calls
                  = (fn { w with calls := w.calls ++ [.Begin] }).2.calls ++ [.Rollback]
              ∧ (LoanService.withTransactionRecover env init fn w).2.db = w.db
              ∧ (env.rollbackErr = none →
                  (LoanService.withTransactionRecover env init fn w).1
                    = .returned (captured, some err)))
        ∧ (∀ p, (fn { w with calls := w.calls ++ [.Begin] }).1 = .panicked p →
              (LoanService.withTransactionRecover env init fn w).2.calls
                  = (fn { w with calls := w.calls ++ [.Begin] }).2.calls ++ [.Rollback]
              ∧ (LoanService.withTransactionRecover env init fn w).2.db = w.db
              ∧ (LoanService.withTransactionRecover env init fn w).1 = .panicked p))
    ∧ (∀ (σ : Type) (init : σ) (fn : World → (σ × Option Error) × World),
        LoanService.withTransactionRecover env init (LoanService.returning fn) w
          = (.returned (LoanService.withTransaction env init fn w).1,
              (LoanService.withTransaction env init fn w).2))
    ∧ (∀ (id : UUID) (req : CreateApprovalRequest),
        ((LoanService.ProcessApproveLoan env id req w).2.db = w.db
          ∧ ∃ err, (LoanService.ProcessApproveLoan env id req w).1.2 = some err)
        ∨ ((LoanService.ProcessApproveLoan env id req w).1.2 = none
          ∧ ∃ r a hist, w.db.loans id = some r
            ∧ (LoanService.ProcessApproveLoan env id req w).2.db.loans id
                = some { r with state := LoanStateApproved, updated_at := env.dbNow }
            ∧ a.LoanID = id
            ∧ (LoanService.ProcessApproveLoan env id req w).2.db.approvals
                = w.db.approvals ++ [a]
            ∧ hist.LoanID = id ∧ hist.NewState = LoanStateApproved
            ∧ (LoanService.ProcessApproveLoan env id req w).2.db.loan_state_histories
                = w.db.loan_state_histories ++ [hist]))
    ∧ (∀ (id : UUID) (req : CreateInvestmentRequest),
        ((LoanService.ProcessInvestment env id req w).2.db = w.db
          ∧ ∃ err, (LoanService.ProcessInvestment env id req w).1.2 = some err)
        ∨ ((LoanService.ProcessInvestment env id req w).1.2 = none
          ∧ ∃ r r1, w.db.loans id = some r
            ∧ (LoanService.ProcessInvestment env id req w).2.db.loans id = some r1
            ∧ r1.total_invested = r.total_invested + req.Amount
            ∧ (LoanService.ProcessInvestment env id req w).2.db.investments
                = w.db.investments ++ [LoanService.storedInvestment env id req r.roi]))
    ∧ (∀ (id : UUID) (req : CreateDisbursementRequest),
        ((LoanService.ProcessDisbursement env id req w).2.db = w.db
          ∧ ∃ err, (LoanService.ProcessDisbursement env id req w).1.2 = some err)
        ∨ ((LoanService.ProcessDisbursement env id req w).1.2 = none
          ∧ ∃ r, w.db.loans id = some r
            ∧ (LoanService.ProcessDisbursement env id req w).2.db
                = w.db.disbursedBy env id req r)) := by
  refine ⟨?_, fun σ init fn => withTransactionRecover_returning env init fn w, ?_, ?_, ?_⟩
  · intro σ init fn hbegin
    unfold LoanService.withTransactionRecover
    rw [hbegin]
    simp only []
    rcases hf : fn { w with calls := w.calls ++ [.Begin] } with ⟨⟨s, _ | err⟩ | p, w1⟩
    · cases hc : env.commitErr <;> simp
    · cases hrb : env.rollbackErr <;> simp
    · simp
  · intro id req
    unfold LoanService.ProcessApproveLoan
    rcases withTransaction_all_or_nothing env (LoanService.processApproveLoanTx env id req) w
      with h | ⟨a, w1, hbody, hres, hdb⟩
    · exact Or.inl h
    · right
      obtain ⟨r, hr, -, -, hl⟩ := processApproveLoanTx_ok hbody
      obtain ⟨ap, hist, h1, -, h2, h3, -, h4, h5⟩ := processApproveLoanTx_ok_tables hbody
      refine ⟨by rw [hres], r, ap, hist, hr, ?_, h1, ?_, h3, h4, ?_⟩
      · rw [hdb, hl]; exact setLoan_loans_same _ _ _
      · rw [hdb, h2]
      · rw [hdb, h5]
  · intro id req
    unfold LoanService.ProcessInvestment
    rcases withTransaction_all_or_nothing env (LoanService.processInvestmentTx env id req) w
      with h | ⟨a, w1, hbody, hres, hdb⟩
    · exact Or.inl h
    · right
      obtain ⟨r, hr, -, -, -, -, hl⟩ := processInvestmentTx_ok hbody
      obtain ⟨r2, hr2, -, hinv⟩ := processInvestmentTx_ok_investment hbody
      have hrr : r2 = r := by
        rw [hr] at hr2
        exact (Option.some.inj hr2).symm
      subst hrr
      have hrow : ∃ r1, w1.db.loans id = some r1
          ∧ r1.total_invested = r2.total_invested + req.Amount := by
        rw [hl]
        exact ⟨_, setLoan_loans_same _ _ _, by split <;> rfl⟩
      obtain ⟨r1, hr1, htot⟩ := hrow
      exact ⟨by rw [hres], r2, r1, hr, by rw [hdb, hr1], htot, by rw [hdb, hinv]⟩
  · intro id req
    unfold LoanService.ProcessDisbursement
    rcases withTransaction_all_or_nothing env (LoanService.processDisbursementTx env id req) w
      with h | ⟨a, w1, hbody, hres, hdb⟩
    · exact Or.inl h
    · right
      obtain ⟨r, hr, hw1⟩ := processDisbursementTx_ok_db hbody
      exact ⟨by rw [hres], r, hr, by rw [hdb, hw1]⟩

/-- C19, at a concrete input: a closure that writes to the loan `L2` and then panics
is followed by `Rollback`, the loan is as it was, and the panic is raised again;
and disbursing `L2` when the payment provider fails leaves the datastore as it was. -/
theorem C19_commit_or_rollback_witness :
    (LoanService.withTransactionRecover exampleEnv none panickingWrite fundedWorld).2.calls
        = [.Begin, .UpdateLoanState "L2" LoanStateDisbursed, .Rollback]
    ∧ (LoanService.withTransactionRecover exampleEnv none panickingWrite fundedWorld).2.db
        = fundedWorld.db
    ∧ (LoanService.withTransactionRecover exampleEnv none panickingWrite fundedWorld).1
        = .panicked "runtime error: invalid memory address or nil pointer dereference"
    ∧ (LoanService.ProcessDisbursement failingPaymentEnv "L2" exampleDisbursementRequest
        fundedWorld).2.db = fundedWorld.db := by
  obtain ⟨-, -, -, hpanic⟩ := (C19_commit_or_rollback exampleEnv fundedWorld).1
    (Option Unit) none panickingWrite rfl
  obtain ⟨h1, h2, h3⟩ := hpanic _ rfl
  refine ⟨h1, h2, h3, ?_⟩
  rcases (C19_commit_or_rollback failingPaymentEnv fundedWorld).2.2.2.2 "L2"
    exampleDisbursementRequest with h | h
  · exact h.1
  · exact absurd h.1 (by decide!)

/-! ## Intake validation -/

theorem validate_field_nil {name : String} {tags : List (String × String × Bool)}
    (h : validate.field name tags = []) : ∀ t ∈ tags, t.2.2 = true := by
  unfold validate.field at h
  cases hf : tags.find? (fun t => !t.2.2) with
  | some t => rw [hf] at h; simp at h
  | none =>
    intro t ht
    have := List.find?_eq_none.mp hf t ht
    simpa using this

theorem validate_struct_nil {req : CreateLoanRequest} (h : validate.Struct req = []) :
    req.BorrowerID ≠ uuidNil ∧ 0 < req.PrincipalAmount
    ∧ 0 ≤ req.InterestRate ∧ req.InterestRate ≤ 1 ∧ req.InterestRate ≠ 0
    ∧ 0 ≤ req.ROI ∧ req.ROI ≤ 1 ∧ req.ROI ≠ 0 := by
  unfold validate.Struct at h
  simp only [List.append_eq_nil] at h
  obtain ⟨⟨⟨hb, hp⟩, hi⟩, hroi⟩ := h
  have hb := validate_field_nil hb
  have hp := validate_field_nil hp
  have hi := validate_field_nil hi
  have hroi := validate_field_nil hroi
  simp at hb hp hi hroi
  exact ⟨hb, hp.2, hi.2.1, hi.2.2, hi.1, hroi.2.1, hroi.2.2, hroi.1⟩

theorem processCreateLoan_ok {env : Env} {req : CreateLoanRequest} {w w1 : World}
    {resp : LoanSummaryResponse}
    (h : LoanService.ProcessCreateLoan env req w = (.ok resp, w1)) :
    w.db.loans env.newID = none
    ∧ w1.db = w.db.setLoan env.newID (LoanRow.proposedFrom env.dbNow req)
    ∧ resp.ID = env.newID ∧ resp.State = LoanStateProposed ∧ resp.TotalInvested = 0
    ∧ resp.PrincipalAmount = req.PrincipalAmount ∧ resp.ROI = req.ROI := by
  unfold LoanService.ProcessCreateLoan at h
  obtain ⟨loan, wa, h1, h⟩ := Tx.bind_ok h
  obtain ⟨lb, wb, h2, h⟩ := Tx.bind_ok h
  obtain ⟨hresp, hw1⟩ := Tx.pure_ok h
  subst hw1
  obtain ⟨hdb, -, r, hr, -, hid, hst, htot, hpr, -, hroi⟩ := getLoan_inv h2
  unfold loanRepo.CreateLoan repoCall LoanRepository.CreateLoan queryRow
    LoanRepository.insertLoanStmt at h1
  cases he : env.createLoanErr with
  | some err => simp [he] at h1
  | none =>
    cases hn : w.db.loans env.newID with
    | some r0 => simp [he, hn] at h1
    | none =>
      simp only [he, hn] at h1
      simp at h1
      obtain ⟨hl, hwa⟩ := h1
      subst hl hwa
      simp only [] at hr hid hdb
      rw [setLoan_loans_same] at hr
      have hr := (Option.some.inj hr).symm
      subst hr
      refine ⟨rfl, by rw [hdb]; rfl, by rw [hresp]; exact hid, by rw [hresp]; exact hst,
        by rw [hresp]; exact htot, by rw [hresp]; exact hpr, by rw [hresp]; exact hroi⟩

theorem createLoan_rejected (env : Env) {req : CreateLoanRequest} (w : World)
    (h : req.PrincipalAmount ≤ 0 ∨ req.InterestRate < 0 ∨ 1 < req.InterestRate
      ∨ req.ROI < 0 ∨ 1 < req.ROI ∨ req.InterestRate < req.ROI) :
    (∃ e es, validate.Struct req = e :: es
      ∧ LoanHandler.CreateLoan env req w
        = (response.ValidationErrorFromValidator "Validation failed" (e :: es), w))
    ∨ LoanHandler.CreateLoan env req w
        = (response.BadRequest "ROI cannot be higher than interest rate", w) := by
  unfold LoanHandler.CreateLoan
  cases hv : validate.Struct req with
  | cons e es => exact Or.inl ⟨e, es, rfl, rfl⟩
  | nil =>
    right
    obtain ⟨-, hp, hi0, hi1, -, hr0, hr1, -⟩ := validate_struct_nil hv
    have hgt : req.ROI > req.InterestRate := by
      rcases h with h | h | h | h | h | h
      · exact absurd hp (not_lt.mpr h)
      · exact absurd hi0 (not_le.mpr h)
      · exact absurd hi1 (not_le.mpr h)
      · exact absurd hr0 (not_le.mpr h)
      · exact absurd hr1 (not_le.mpr h)
      · exact h
    simp only []
    rw [if_pos hgt]

/-- C20 as stated fails: `ProcessCreateLoan` given a request with principal -100
returns a result and inserts a proposed loan with principal -100. -/
theorem C20_counterexample :
    negativePrincipalRequest.PrincipalAmount ≤ 0
    ∧ emptyWorld.db.loans exampleEnv.newID = none
    ∧ (∃ resp, (LoanService.ProcessCreateLoan exampleEnv negativePrincipalRequest
          emptyWorld).1 = .ok resp)
    ∧ (LoanService.ProcessCreateLoan exampleEnv negativePrincipalRequest
          emptyWorld).2.db.loans exampleEnv.newID
        = some { borrower_id := "B1", principal_amount := -100, interest_rate := 1 / 10,
                 roi := 1 / 20, state := LoanStateProposed, agreement_letter_url := "",
                 total_invested := 0, created_at := 7, updated_at := 7,
                 deleted_at := none } := by
  refine ⟨by decide!, by decide!, ⟨_, rfl⟩, by decide!⟩

/-- C20, amended: the checks are made by the handler `LoanHandler.CreateLoan`, which calls
`ProcessCreateLoan` only afterwards.  A bound request with principal <= 0, interest
rate or ROI outside [0,1], or ROI greater than the interest rate is answered with
status 400 (the validation error, or the bad request "ROI cannot be higher than
interest rate"), the service is not called and nothing is created.
`ProcessCreateLoan` itself makes no check: whenever it returns a result, the
identifier was free and the datastore gained exactly the row of that identifier, in
state proposed with total_invested = 0 and the request's borrower, principal, rate
and ROI; and the handler answers 201 only in that case, for a request that passed the
checks. -/
theorem C20_intake_validation (env : Env) (req : CreateLoanRequest) (w : World) :
    ((req.PrincipalAmount ≤ 0 ∨ req.InterestRate < 0 ∨ 1 < req.InterestRate
        ∨ req.ROI < 0 ∨ 1 < req.ROI ∨ req.InterestRate < req.ROI) →
      (LoanHandler.CreateLoan env req w).2 = w
      ∧ (LoanHandler.CreateLoan env req w).1.status = 400
      ∧ (LoanHandler.CreateLoan env req w).1.body.Status = "failed"
      ∧ (LoanHandler.CreateLoan env req w).1.body.Data = none
      ∧ (((LoanHandler.CreateLoan env req w).1.body.Code = "VALIDATION_ERROR"
          ∧ (LoanHandler.CreateLoan env req w).1.body.Message = "Validation failed"
          ∧ (LoanHandler.CreateLoan env req w).1.body.Errors ≠ [])
        ∨ ((LoanHandler.CreateLoan env req w).1.body.Code = "BAD_REQUEST"
          ∧ (LoanHandler.CreateLoan env req w).1.body.Message
              = "ROI cannot be higher than interest rate")))
    ∧ (∀ resp w1, LoanService.ProcessCreateLoan env req w = (.ok resp, w1) →
        w.db.loans env.newID = none
        ∧ w1.db = w.db.setLoan env.newID (LoanRow.proposedFrom env.dbNow req)
        ∧ (LoanRow.proposedFrom env.dbNow req).state = LoanStateProposed
        ∧ (LoanRow.proposedFrom env.dbNow req).total_invested = 0
        ∧ (LoanRow.proposedFrom env.dbNow req).borrower_id = req.BorrowerID
        ∧ (LoanRow.proposedFrom env.dbNow req).principal_amount = req.PrincipalAmount
        ∧ (LoanRow.proposedFrom env.dbNow req).interest_rate = req.InterestRate
        ∧ (LoanRow.proposedFrom env.dbNow req).roi = req.ROI
        ∧ resp.ID = env.newID ∧ resp.State = LoanStateProposed ∧ resp.TotalInvested = 0)
    ∧ ((LoanHandler.CreateLoan env req w).1.status = 201 →
        0 < req.PrincipalAmount ∧ 0 ≤ req.InterestRate ∧ req.InterestRate ≤ 1
        ∧ 0 ≤ req.ROI ∧ req.ROI ≤ 1 ∧ req.ROI ≤ req.InterestRate
        ∧ w.db.loans env.newID = none
        ∧ (LoanHandler.CreateLoan env req w).2.db
            = w.db.setLoan env.newID (LoanRow.proposedFrom env.dbNow req)) := by
  refine ⟨?_, ?_, ?_⟩
  · intro h
    rcases createLoan_rejected env w h with ⟨e, es, -, hrun⟩ | hrun
    · rw [hrun]
      refine ⟨rfl, rfl, rfl, rfl, Or.inl ⟨rfl, rfl, ?_⟩⟩
      simp [response.ValidationErrorFromValidator, response.ValidationError,
        response.ParseValidationErrors]
    · rw [hrun]
      exact ⟨rfl, rfl, rfl, rfl, Or.inr ⟨rfl, rfl⟩⟩
  · intro resp w1 h
    obtain ⟨h1, h2, h3, h4, h5, -, -⟩ := processCreateLoan_ok h
    exact ⟨h1, h2, rfl, rfl, rfl, rfl, rfl, rfl, h3, h4, h5⟩
  · intro h
    unfold LoanHandler.CreateLoan at h ⊢
    cases hv : validate.Struct req with
    | cons e es =>
      rw [hv] at h
      simp [response.ValidationErrorFromValidator, response.ValidationError,
        response.StatusBadRequest] at h
    | nil =>
      rw [hv] at h
      simp only [] at h ⊢
      obtain ⟨-, hp, hi0, hi1, -, hr0, hr1, -⟩ := validate_struct_nil hv
      by_cases hgt : req.ROI > req.InterestRate
      · rw [if_pos hgt] at h
        simp [response.BadRequest, response.StatusBadRequest] at h
      · rw [if_neg hgt] at h ⊢
        rcases hrun : LoanService.ProcessCreateLoan env req w with ⟨err | resp, w1⟩
        · rw [hrun] at h
          simp [response.BadRequest, response.StatusBadRequest] at h
        · obtain ⟨h1, h2, -⟩ := processCreateLoan_ok hrun
          exact ⟨hp, hi0, hi1, hr0, hr1, not_lt.mp hgt, h1, h2⟩

/-- C20, amended, at concrete inputs: the request with principal -100 is answered by
the handler with the validation error "principalamount must be greater than 0" and
the world is untouched; the request (B1, 10000, 0.10, 0.05) is answered with 201 and
its proposed loan is in the datastore. -/
theorem C20_intake_validation_witness :
    (LoanHandler.CreateLoan exampleEnv negativePrincipalRequest emptyWorld).2 = emptyWorld
    ∧ (LoanHandler.CreateLoan exampleEnv negativePrincipalRequest emptyWorld).1
        = response.ValidationError "Validation failed"
            ["principalamount must be greater than 0"]
    ∧ (LoanHandler.CreateLoan exampleEnv ⟨"B1", 10000, 1 / 10, 1 / 20⟩ emptyWorld).1.status
        = 201
    ∧ (LoanHandler.CreateLoan exampleEnv ⟨"B1", 10000, 1 / 10, 1 / 20⟩ emptyWorld).2.db
        = emptyWorld.db.setLoan exampleEnv.newID
            (LoanRow.proposedFrom 7 ⟨"B1", 10000, 1 / 10, 1 / 20⟩) := by
  have hbad := (C20_intake_validation exampleEnv negativePrincipalRequest emptyWorld).1
    (Or.inl (by decide!))
  have hgood := (C20_intake_validation exampleEnv ⟨"B1", 10000, 1 / 10, 1 / 20⟩
    emptyWorld).2.2 (by decide!)
  exact ⟨hbad.1, by decide!, by decide!, hgood.2.2.2.2.2.2.2⟩

/-! ## State history -/

theorem processApproveLoanTx_ok_history {env : Env} {id : UUID} {req : CreateApprovalRequest}
    {w w1 : World} {resp : LoanApprovalResponse}
    (h : LoanService.processApproveLoanTx env id req w = (.ok resp, w1)) :
    w1.db.loan_state_histories
      = w.db.loan_state_histories ++ [LoanService.approvedHistory env id req.ValidatorID] := by
  unfold LoanService.processApproveLoanTx at h
  obtain ⟨loan, wa, h1, h⟩ := Tx.bind_ok h
  obtain ⟨hdb, -, r, hr, hd, -, hst, -⟩ := getLoan_inv h1
  cases hv : loan.ValidateStateTransition LoanStateApproved with
  | some err => rw [hv] at h; simp [Tx.fail] at h
  | none =>
    rw [hv] at h
    obtain ⟨a1, wb, h2, h⟩ := Tx.bind_ok h
    obtain ⟨ha1, hdbb, -⟩ := createApproval_inv h2
    obtain ⟨st, wc, h3, h⟩ := Tx.bind_ok h
    obtain ⟨r2, hr2, -, hst2, hdbc, -⟩ := updateLoanState_inv h3
    obtain ⟨hist, wd, h4, h⟩ := Tx.bind_ok h
    obtain ⟨hh, hdbd, -⟩ := recordHistory_inv h4
    obtain ⟨-, hw1⟩ := Tx.pure_ok h
    subst hw1
    have hid : a1.LoanID = id := by rw [ha1]
    have hval : a1.ValidatorID = req.ValidatorID := by rw [ha1]
    have hhist : hist = LoanService.approvedHistory env id req.ValidatorID := by
      rw [hh, hst2, hid, hval]; rfl
    rw [hdbd, hdbc, hdbb, hdb, hhist]; rfl

theorem autoAdvance_ok_histories {env : Env} {id : UUID} {upd : Loan} {w w1 : World}
    {u : Unit} (h : LoanService.autoAdvance env id upd w = (.ok u, w1)) :
    w1.db.loan_state_histories
      = w.db.loan_state_histories ++ [LoanService.targetAchievedHistory env id] := by
  unfold LoanService.autoAdvance at h
  cases hv : upd.ValidateStateTransition LoanStateInvested with
  | some err => rw [hv] at h; exact (Tx.fail_ne_ok h).elim
  | none =>
    rw [hv] at h
    obtain ⟨newState, wb, h1, h⟩ := Tx.bind_ok h
    obtain ⟨r2, hr2, hd2, hns, hdbb, -⟩ := updateLoanState_inv h1
    simp only [LoanService.mockAgreementLetterURL] at h
    obtain ⟨u2, wc, h2, h⟩ := Tx.bind_ok h
    obtain ⟨-, hurl⟩ := updateAgreementURL_inv h2
    have hdbc := hurl { r2 with state := LoanStateInvested, updated_at := env.dbNow }
      (by rw [hdbb]; exact setLoan_loans_same _ _ _) hd2
    obtain ⟨hist, wd, h3, h⟩ := Tx.bind_ok h
    obtain ⟨hh, hdbd, -⟩ := recordHistory_inv h3
    obtain ⟨-, hw1⟩ := Tx.pure_ok h
    subst hw1
    have hhist : hist = LoanService.targetAchievedHistory env id := by
      rw [hh, hns]; rfl
    rw [hdbd, hdbc, hdbb, hhist]
    rfl

theorem processInvestmentTx_ok_histories {env : Env} {id : UUID}
    {req : CreateInvestmentRequest} {w w1 : World} {resp : InvestmentResponse}
    (h : LoanService.processInvestmentTx env id req w = (.ok resp, w1)) :
    ∃ r, w.db.loans id = some r
      ∧ w1.db.loan_state_histories
          = w.db.loan_state_histories
            ++ (if r.total_invested + req.Amount ≥ r.principal_amount then
                  [LoanService.targetAchievedHistory env id] else []) := by
  unfold LoanService.processInvestmentTx at h
  obtain ⟨loan, wa, h1, h⟩ := Tx.bind_ok h
  obtain ⟨hdb, -, r, hr, -, -, -, -, -, -, hroi⟩ := getLoan_inv h1
  cases hv : loan.ValidateInvestmentAmount req.Amount with
  | some err => rw [hv] at h; exact (Tx.fail_ne_ok h).elim
  | none =>
    rw [hv] at h
    obtain ⟨i1, wb, h2, h⟩ := Tx.bind_ok h
    obtain ⟨hi1, hdbb, -⟩ := createInvestment_inv h2
    obtain ⟨upd, wc, h3, h⟩ := Tx.bind_ok h
    obtain ⟨r2, hr2, -, hs2, -, hupd, hdbc, -⟩ := updateTotalInvested_inv (Tx.wrapErr_ok h3)
    obtain ⟨u, wd, h4, h⟩ := Tx.bind_ok h
    obtain ⟨hresp, hw1⟩ := Tx.pure_ok h
    subst hw1
    have hrr : r2 = r := by
      rw [hdbb, hdb] at hr2
      simp only [] at hr2
      rw [hr] at hr2
      exact (Option.some.inj hr2).symm
    subst hrr
    have hcond : (upd.IsFullyInvested && upd.State == LoanStateApproved) = true
        ↔ r2.total_invested + req.Amount ≥ r2.principal_amount := by
      rw [hupd]
      simp [Loan.IsFullyInvested, LoanRow.scan, hs2]
    have hwc : wc.db.loan_state_histories = w.db.loan_state_histories := by
      rw [hdbc, hdbb, hdb]; rfl
    refine ⟨r2, hr, ?_⟩
    by_cases hc : (upd.IsFullyInvested && upd.State == LoanStateApproved) = true
    · rw [if_pos hc] at h4
      rw [if_pos (hcond.mp hc), autoAdvance_ok_histories h4, hwc]
    · rw [if_neg hc] at h4
      rw [if_neg (fun hfull => hc (hcond.mpr hfull)), (Tx.pure_ok h4).2, hwc]
      simp

/-- C21: an operation that succeeds records its transition exactly once.  A successful
`ProcessApproveLoan` on a loan whose row was `r` appends one history row to the
table: previous state `r.state` (proposed), new state approved (the state of the row
now stored), actor the request's validator, reason "Loan approved".  A successful
`ProcessInvestment` appends one row (approved to invested) if the new total reaches
the principal, and none otherwise.  A successful `ProcessDisbursement` appends one
row: invested to disbursed, actor the field officer, reason "Loan disbursed". -/
theorem C21_one_history_row_per_transition (env : Env) (w : World) (id : UUID) :
    (∀ (req : CreateApprovalRequest) (resp : LoanApprovalResponse),
      (LoanService.ProcessApproveLoan env id req w).1 = (some resp, none) →
      ∃ r hist, w.db.loans id = some r
        ∧ (LoanService.ProcessApproveLoan env id req w).2.db.loans id
            = some { r with state := LoanStateApproved, updated_at := env.dbNow }
        ∧ (LoanService.ProcessApproveLoan env id req w).2.db.loan_state_histories
            = w.db.loan_state_histories ++ [hist]
        ∧ hist.LoanID = id ∧ hist.PreviousState = r.state
        ∧ hist.PreviousState = LoanStateProposed ∧ hist.NewState = LoanStateApproved
        ∧ hist.ChangedBy = req.ValidatorID ∧ hist.ChangeReason = "Loan approved")
    ∧ (∀ (req : CreateInvestmentRequest) (resp : InvestmentResponse),
      (LoanService.ProcessInvestment env id req w).1 = (some resp, none) →
      ∃ r, w.db.loans id = some r ∧ r.state = LoanStateApproved
        ∧ (r.total_invested + req.Amount ≥ r.principal_amount →
            ∃ r1 hist,
              (LoanService.ProcessInvestment env id req w).2.db.loans id = some r1
              ∧ r1.state = LoanStateInvested
              ∧ (LoanService.ProcessInvestment env id req w).2.db.loan_state_histories
                  = w.db.loan_state_histories ++ [hist]
              ∧ hist.LoanID = id ∧ hist.PreviousState = r.state
              ∧ hist.NewState = LoanStateInvested
              ∧ hist.ChangedBy = env.SystemEmployeeID
              ∧ hist.ChangeReason = "Investment target achieved")
        ∧ (r.total_invested + req.Amount < r.principal_amount →
            ∃ r1, (LoanService.ProcessInvestment env id req w).2.db.loans id = some r1
              ∧ r1.state = LoanStateApproved
              ∧ (LoanService.ProcessInvestment env id req w).2.db.loan_state_histories
                  = w.db.loan_state_histories))
    ∧ (∀ (req : CreateDisbursementRequest) (resp : DisbursementResponse),
      (LoanService.ProcessDisbursement env id req w).1 = (some resp, none) →
      ∃ r hist, w.db.loans id = some r
        ∧ (LoanService.ProcessDisbursement env id req w).2.db.loans id
            = some { r with state := LoanStateDisbursed, updated_at := env.dbNow }
        ∧ (LoanService.ProcessDisbursement env id req w).2.db.loan_state_histories
            = w.db.loan_state_histories ++ [hist]
        ∧ hist.LoanID = id ∧ hist.PreviousState = r.state
        ∧ hist.PreviousState = LoanStateInvested ∧ hist.NewState = LoanStateDisbursed
        ∧ hist.ChangedBy = req.FieldOfficerID ∧ hist.ChangeReason = "Loan disbursed") := by
  refine ⟨?_, ?_, ?_⟩
  · intro req resp hok
    unfold LoanService.ProcessApproveLoan at hok ⊢
    obtain ⟨w1, hbody, hdb⟩ := withTransaction_ok_inv hok
    obtain ⟨r, hr, -, hs, hl⟩ := processApproveLoanTx_ok hbody
    have hh := processApproveLoanTx_ok_history hbody
    refine ⟨r, LoanService.approvedHistory env id req.ValidatorID, hr, ?_, ?_, rfl,
      by rw [hs]; rfl, rfl, rfl, rfl, rfl⟩
    · rw [hdb, hl]; exact setLoan_loans_same _ _ _
    · rw [hdb, hh]
  · intro req resp hok
    unfold LoanService.ProcessInvestment at hok ⊢
    obtain ⟨w1, hbody, hdb⟩ := withTransaction_ok_inv hok
    obtain ⟨r, hr, -, hs, -, -, hl⟩ := processInvestmentTx_ok hbody
    obtain ⟨r2, hr2, hh⟩ := processInvestmentTx_ok_histories hbody
    have hrr : r2 = r := by
      rw [hr] at hr2
      exact (Option.some.inj hr2).symm
    subst hrr
    refine ⟨r2, hr, hs, ?_, ?_⟩
    · intro hfull
      rw [if_pos hfull] at hl hh
      have hrow : ∃ r1, w1.db.loans id = some r1 ∧ r1.state = LoanStateInvested := by
        rw [hl]
        exact ⟨_, setLoan_loans_same _ _ _, rfl⟩
      obtain ⟨r1, hr1, hs1⟩ := hrow
      exact ⟨r1, LoanService.targetAchievedHistory env id, by rw [hdb, hr1], hs1,
        by rw [hdb, hh], rfl, by rw [hs]; rfl, rfl, rfl, rfl⟩
    · intro hlt
      have hnot : ¬ r2.total_invested + req.Amount ≥ r2.principal_amount := not_le.mpr hlt
      rw [if_neg hnot] at hl hh
      have hrow : ∃ r1, w1.db.loans id = some r1 ∧ r1.state = LoanStateApproved := by
        rw [hl]
        exact ⟨_, setLoan_loans_same _ _ _, hs⟩
      obtain ⟨r1, hr1, hs1⟩ := hrow
      exact ⟨r1, by rw [hdb, hr1], hs1, by rw [hdb, hh]; simp⟩
  · intro req resp hok
    unfold LoanService.ProcessDisbursement at hok ⊢
    obtain ⟨w1, hbody, hdb⟩ := withTransaction_ok_inv hok
    obtain ⟨r, hr, -, hs, -⟩ := processDisbursementTx_ok hbody
    obtain ⟨r2, hr2, hw1⟩ := processDisbursementTx_ok_db hbody
    have hrr : r2 = r := by
      rw [hr] at hr2
      exact (Option.some.inj hr2).symm
    subst hrr
    refine ⟨r2, LoanService.disbursedHistory env id req.FieldOfficerID, hr, ?_, ?_, rfl,
      by rw [hs]; rfl, rfl, rfl, rfl, rfl⟩
    · rw [hdb, hw1]; simp [DB.disbursedBy, LoanRow.disbursed]
    · rw [hdb, hw1]; rfl

/-- C21, at a concrete input: disbursing the funded loan `L2` succeeds and appends
exactly one history row (invested, disbursed, officer `F1`, "Loan disbursed");
investing 1000 in the loan `L1` (10000, 6000 invested) succeeds and leaves no history
row. -/
theorem C21_one_history_row_per_transition_witness :
    (∃ hist,
      (LoanService.ProcessDisbursement exampleEnv "L2" exampleDisbursementRequest
          fundedWorld).2.db.loan_state_histories
        = fundedWorld.db.loan_state_histories ++ [hist]
      ∧ hist.PreviousState = LoanStateInvested ∧ hist.NewState = LoanStateDisbursed
      ∧ hist.ChangedBy = "F1" ∧ hist.ChangeReason = "Loan disbursed")
    ∧ (LoanService.ProcessInvestment exampleEnv "L1" ⟨"L1", "I1", 1000, 4⟩
        exampleWorld).1.2 = none
    ∧ (LoanService.ProcessInvestment exampleEnv "L1" ⟨"L1", "I1", 1000, 4⟩
        exampleWorld).2.db.loan_state_histories = [] := by
  obtain ⟨-, -, hdis⟩ := C21_one_history_row_per_transition exampleEnv fundedWorld "L2"
  obtain ⟨r, hist, -, -, hh, -, -, h2, h3, h4, h5⟩ := hdis exampleDisbursementRequest _ rfl
  exact ⟨⟨hist, hh, h2, h3, h4, h5⟩, by decide!, by decide!⟩

/-! ## Expected return, pre-check and guard, disbursement preconditions -/

/-- C28 fails on the code: `CalculateExpectedReturn` is `Amount * loanROI`, while
`ProcessInvestment` stores `Amount * (1 + ROI)`.  Investing 1000 in the loan `L1`
(ROI 0.05) stores an investment with expected return 1050, on which
`CalculateExpectedReturn 0.05` is 50; and for every successful `ProcessInvestment`
the two values differ by the amount, which is positive. -/
theorem C28_calculateExpectedReturn_differs :
    ((LoanService.ProcessInvestment exampleEnv "L1" ⟨"L1", "I1", 1000, 4⟩
        exampleWorld).2.db.investments
      = [LoanService.storedInvestment exampleEnv "L1" ⟨"L1", "I1", 1000, 4⟩ (1 / 20)]
      ∧ (LoanService.storedInvestment exampleEnv "L1" ⟨"L1", "I1", 1000, 4⟩
          (1 / 20)).ExpectedReturn = 1050
      ∧ (LoanService.storedInvestment exampleEnv "L1" ⟨"L1", "I1", 1000, 4⟩
          (1 / 20)).CalculateExpectedReturn (1 / 20) = 50)
    ∧ ∀ (env : Env) (w : World) (id : UUID) (req : CreateInvestmentRequest)
        (resp : InvestmentResponse),
        (LoanService.ProcessInvestment env id req w).1 = (some resp, none) →
        ∃ r investment, w.db.loans id = some r
          ∧ (LoanService.ProcessInvestment env id req w).2.db.investments
              = w.db.investments ++ [investment]
          ∧ investment.ExpectedReturn = req.Amount * (1 + r.roi)
          ∧ investment.CalculateExpectedReturn r.roi = req.Amount * r.roi
          ∧ investment.CalculateExpectedReturn r.roi ≠ investment.ExpectedReturn := by
  refine ⟨⟨by decide!, by decide!, by decide!⟩, ?_⟩
  intro env w id req resp hok
  unfold LoanService.ProcessInvestment at hok ⊢
  obtain ⟨w1, hbody, hdb⟩ := withTransaction_ok_inv hok
  obtain ⟨r, hr, -, -, hpos, -, -⟩ := processInvestmentTx_ok hbody
  obtain ⟨r2, hr2, -, hinv⟩ := processInvestmentTx_ok_investment hbody
  have hrr : r2 = r := by
    rw [hr] at hr2
    exact (Option.some.inj hr2).symm
  subst hrr
  refine ⟨r2, LoanService.storedInvestment env id req r2.roi, hr, by rw [hdb, hinv], rfl, rfl,
    ?_⟩
  show req.Amount * r2.roi ≠ req.Amount * (1 + r2.roi)
  intro heq
  have : req.Amount = 0 := by linarith
  rw [this] at hpos
  exact lt_irrefl _ hpos

/-- C29: a loan that `GetLoanByID` returned from the datastore and an amount that
`ValidateInvestmentAmount` accepts for it pass the guard of the accumulate statement
run on the same datastore: `UpdateLoanTotalInvested` returns the loan with the amount
added and stores that row; it does not report "not applied". -/
theorem C29_precheck_implies_guard (driverErr : Option Error) (now : Time) (db : DB)
    (id : UUID) (loan : Loan) (amount : ℚ)
    (hload : (LoanRepository.GetLoanByID driverErr db id).1 = .ok loan)
    (hvalid : loan.ValidateInvestmentAmount amount = none) :
    ∃ r, db.loans id = some r
      ∧ LoanRepository.UpdateLoanTotalInvested none now db id amount
          = (.ok ((r.accumulated now amount).scan id),
              db.setLoan id (r.accumulated now amount))
      ∧ (r.accumulated now amount).total_invested = loan.TotalInvested + amount
      ∧ (LoanRepository.UpdateLoanTotalInvested none now db id amount).1
          ≠ .error .notApplied := by
  obtain ⟨r, b, hr, hd, -, hloan⟩ := getLoanByID_ok hload
  obtain ⟨-, hs, hle⟩ := validateInvestmentAmount_none hvalid
  have hguard : r.deleted_at = none ∧ r.state = LoanStateApproved
      ∧ r.total_invested + amount ≤ r.principal_amount := by
    rw [hloan] at hs hle
    refine ⟨hd, hs, ?_⟩
    have : amount ≤ r.principal_amount - r.total_invested := hle
    linarith
  have hrun : LoanRepository.UpdateLoanTotalInvested none now db id amount
      = (.ok ((r.accumulated now amount).scan id),
          db.setLoan id (r.accumulated now amount)) := by
    rw [accumulateStmt_eq, hr]
    simp only []
    rw [if_pos hguard]
    rfl
  refine ⟨r, hr, hrun, ?_, ?_⟩
  · rw [hloan]; rfl
  · rw [hrun]
    intro h
    cases h

/-- C29, at a concrete input: the loan `L1` (10000, 6000 invested) and the amount 4000. -/
theorem C29_precheck_implies_guard_witness :
    (LoanRepository.UpdateLoanTotalInvested none 7 exampleDB "L1" 4000).1
      ≠ .error .notApplied
    ∧ ∃ r, exampleDB.loans "L1" = some r
      ∧ (LoanRepository.UpdateLoanTotalInvested none 7 exampleDB "L1" 4000).2.loans "L1"
          = some (r.accumulated 7 4000) := by
  obtain ⟨r, hr, hrun, -, hne⟩ := C29_precheck_implies_guard none 7 exampleDB "L1"
    { LoanRow.scan "L1" exampleRow with
      Borrower := some { ID := "B1", FirstName := "John", LastName := "Doe" } }
    4000 rfl (by decide!)
  refine ⟨hne, r, hr, ?_⟩
  rw [hrun]
  exact setLoan_loans_same _ _ _

theorem autoAdvance_ok_borrowers {env : Env} {id : UUID} {upd : Loan} {w w1 : World}
    {u : Unit} (h : LoanService.autoAdvance env id upd w = (.ok u, w1)) :
    w1.db.borrowers = w.db.borrowers := by
  unfold LoanService.autoAdvance at h
  cases hv : upd.ValidateStateTransition LoanStateInvested with
  | some err => rw [hv] at h; exact (Tx.fail_ne_ok h).elim
  | none =>
    rw [hv] at h
    obtain ⟨newState, wb, h1, h⟩ := Tx.bind_ok h
    obtain ⟨r2, hr2, hd2, -, hdbb, -⟩ := updateLoanState_inv h1
    simp only [LoanService.mockAgreementLetterURL] at h
    obtain ⟨u2, wc, h2, h⟩ := Tx.bind_ok h
    obtain ⟨-, hurl⟩ := updateAgreementURL_inv h2
    have hdbc := hurl { r2 with state := LoanStateInvested, updated_at := env.dbNow }
      (by rw [hdbb]; exact setLoan_loans_same _ _ _) hd2
    obtain ⟨hist, wd, h3, h⟩ := Tx.bind_ok h
    obtain ⟨-, hdbd, -⟩ := recordHistory_inv h3
    obtain ⟨-, hw1⟩ := Tx.pure_ok h
    subst hw1
    rw [hdbd, hdbc, hdbb]
    rfl

theorem processInvestmentTx_ok_borrowers {env : Env} {id : UUID}
    {req : CreateInvestmentRequest} {w w1 : World} {resp : InvestmentResponse}
    (h : LoanService.processInvestmentTx env id req w = (.ok resp, w1)) :
    w1.db.borrowers = w.db.borrowers
    ∧ ∃ r b, w.db.loans id = some r ∧ w.db.borrowers r.borrower_id = some b := by
  unfold LoanService.processInvestmentTx at h
  obtain ⟨loan, wa, h1, h⟩ := Tx.bind_ok h
  have hload : (LoanRepository.GetLoanByID env.getLoanErr w.db id).1 = .ok loan := by
    have := congrArg Prod.fst h1
    exact this
  obtain ⟨r, b, hr, -, hb, -⟩ := getLoanByID_ok hload
  obtain ⟨hdb, -⟩ := getLoan_inv h1
  cases hv : loan.ValidateInvestmentAmount req.Amount with
  | some err => rw [hv] at h; exact (Tx.fail_ne_ok h).elim
  | none =>
    rw [hv] at h
    obtain ⟨i1, wb, h2, h⟩ := Tx.bind_ok h
    obtain ⟨-, hdbb, -⟩ := createInvestment_inv h2
    obtain ⟨upd, wc, h3, h⟩ := Tx.bind_ok h
    obtain ⟨r2, -, -, -, -, -, hdbc, -⟩ := updateTotalInvested_inv (Tx.wrapErr_ok h3)
    obtain ⟨u, wd, h4, h⟩ := Tx.bind_ok h
    obtain ⟨-, hw1⟩ := Tx.pure_ok h
    subst hw1
    have hwc : wc.db.borrowers = w.db.borrowers := by
      rw [hdbc, hdbb, hdb]; rfl
    refine ⟨?_, r, b, hr, hb⟩
    by_cases hc : (upd.IsFullyInvested && upd.State == LoanStateApproved) = true
    · rw [if_pos hc] at h4
      rw [autoAdvance_ok_borrowers h4, hwc]
    · rw [if_neg hc] at h4
      rw [(Tx.pure_ok h4).2, hwc]

/-- C30: if `ProcessInvestment` succeeds and leaves the loan in state invested (the
auto-advance), the row now stored is invested, its total_invested is at least its
principal and its agreement-letter URL is non-empty; reloading it with `GetLoanByID`
succeeds, and `ValidateStateTransition(disbursed)` on the reloaded loan returns no
error. -/
theorem C30_auto_advanced_loan_is_disbursable (env : Env) (w : World) (id : UUID)
    (req : CreateInvestmentRequest) (resp : InvestmentResponse)
    (hok : (LoanService.ProcessInvestment env id req w).1 = (some resp, none))
    (hinvested : stateOf id (LoanService.ProcessInvestment env id req w).2
      = some LoanStateInvested) :
    (∃ r1, (LoanService.ProcessInvestment env id req w).2.db.loans id = some r1
      ∧ r1.state = LoanStateInvested ∧ r1.total_invested ≥ r1.principal_amount
      ∧ r1.agreement_letter_url ≠ "")
    ∧ (∃ loan, (LoanRepository.GetLoanByID none
          (LoanService.ProcessInvestment env id req w).2.db id).1 = .ok loan)
    ∧ ∀ (driverErr : Option Error) (loan : Loan),
        (LoanRepository.GetLoanByID driverErr
          (LoanService.ProcessInvestment env id req w).2.db id).1 = .ok loan →
        loan.ValidateStateTransition LoanStateDisbursed = none := by
  unfold LoanService.ProcessInvestment at hok hinvested ⊢
  obtain ⟨w1, hbody, hdb⟩ := withTransaction_ok_inv hok
  obtain ⟨r, hr, hd, hs, hpos, hle, hl⟩ := processInvestmentTx_ok hbody
  obtain ⟨hbor, r2, b, hr2, hb⟩ := processInvestmentTx_ok_borrowers hbody
  have hrr : r2 = r := by
    rw [hr] at hr2
    exact (Option.some.inj hr2).symm
  subst hrr
  have hfull : r2.total_invested + req.Amount ≥ r2.principal_amount := by
    by_contra hnot
    rw [if_neg hnot] at hl
    unfold stateOf at hinvested
    rw [hdb, hl, setLoan_loans_same] at hinvested
    simp only [Option.map_some'] at hinvested
    rw [hs] at hinvested
    exact absurd (Option.some.inj hinvested) (by decide)
  rw [if_pos hfull] at hl
  have hrow : ∃ r1, w1.db.loans id = some r1 ∧ r1.state = LoanStateInvested
      ∧ r1.total_invested ≥ r1.principal_amount ∧ r1.agreement_letter_url ≠ ""
      ∧ r1.deleted_at = none ∧ r1.borrower_id = r2.borrower_id := by
    rw [hl]
    exact ⟨_, setLoan_loans_same _ _ _, rfl, hfull, mockAgreementLetterURL_ne_empty _, hd, rfl⟩
  obtain ⟨r1, hr1, hs1, hf1, hu1, hd1, hb1⟩ := hrow
  have hvalid : ∀ (driverErr : Option Error) (loan : Loan),
      (LoanRepository.GetLoanByID driverErr w1.db id).1 = .ok loan →
      loan.ValidateStateTransition LoanStateDisbursed = none := by
    intro driverErr loan hload
    obtain ⟨r3, b3, hr3, -, -, hloan⟩ := getLoanByID_ok hload
    have h31 : r3 = r1 := by
      rw [hr1] at hr3
      exact (Option.some.inj hr3).symm
    subst h31
    rw [validateStateTransition_disbursed, hloan]
    simp [LoanRow.scan, Loan.validateDisbursementTransition, Loan.IsFullyInvested, hs1, hf1,
      hu1]
  refine ⟨⟨r1, by rw [hdb, hr1], hs1, hf1, hu1⟩, ?_, ?_⟩
  · rw [hdb]
    exact ⟨_, getLoanByID_run hr1 hd1 (by rw [hbor, hb1]; exact hb)⟩
  · rw [hdb]
    exact hvalid

/-- C30, at a concrete input: 4000 into the loan `L1` (10000, 6000 invested). -/
theorem C30_auto_advanced_loan_is_disbursable_witness :
    ∃ loan, (LoanRepository.GetLoanByID none
        (LoanService.ProcessInvestment exampleEnv "L1" ⟨"L1", "I1", 4000, 4⟩
          exampleWorld).2.db "L1").1 = .ok loan
      ∧ loan.ValidateStateTransition LoanStateDisbursed = none := by
  obtain ⟨-, ⟨loan, hload⟩, hvalid⟩ := C30_auto_advanced_loan_is_disbursable exampleEnv
    exampleWorld "L1" ⟨"L1", "I1", 4000, 4⟩
    (LoanService.investmentResponse
      (LoanService.storedInvestment exampleEnv "L1" ⟨"L1", "I1", 4000, 4⟩ (1 / 20)))
    (by decide!) (by decide!)
  exact ⟨loan, hload, hvalid none loan hload⟩

/-! ## The notification scheduler -/

/-- The four ways `processSendingEmail` can go. -/
theorem processSendingEmail_cases (env : CronEnv) (investment : Investment) (loan : Loan)
    (borrower : Borrower) (w : CronWorld) :
    (∃ err,
      LoanRepository.GetInvestorByID
          (env.fault w.calls.length (CronService.lookupCall investment)) w.investors
          investment.InvestorID = .error err
      ∧ CronService.processSendingEmail env investment loan borrower w
          = (some (.wrap "failed to get investor" err),
              { w with calls := w.calls ++ [CronService.lookupCall investment] }))
    ∨ ∃ investor,
      LoanRepository.GetInvestorByID
          (env.fault w.calls.length (CronService.lookupCall investment)) w.investors
          investment.InvestorID = .ok investor
      ∧ ((∃ err,
            env.fault (w.calls.length + 1)
              (CronService.sendCall env investment loan investor borrower) = some err
            ∧ CronService.processSendingEmail env investment loan borrower w
                = (some (.wrap "failed to send email" err),
                    { w with calls := w.calls ++ [CronService.lookupCall investment,
                        CronService.sendCall env investment loan investor borrower] }))
        ∨ (env.fault (w.calls.length + 1)
              (CronService.sendCall env investment loan investor borrower) = none
          ∧ ((∃ err,
                env.fault (w.calls.length + 2)
                  (CronService.markCall env w.calls.length investment) = some err
                ∧ CronService.processSendingEmail env investment loan borrower w
                    = (some (.wrap "failed to update investment" err),
                        { w with calls := w.calls ++ [CronService.lookupCall investment,
                            CronService.sendCall env investment loan investor borrower,
                            CronService.markCall env w.calls.length investment] }))
            ∨ (env.fault (w.calls.length + 2)
                  (CronService.markCall env w.calls.length investment) = none
              ∧ CronService.processSendingEmail env investment loan borrower w
                  = (none,
                      { w with
                        db := CronService.markedDB env w.calls.length investment w.db
                        email_notifications :=
                          CronService.notified env w.calls.length investment loan investor
                            borrower w.email_notifications
                        calls := w.calls ++ [CronService.lookupCall investment,
                          CronService.sendCall env investment loan investor borrower,
                          CronService.markCall env w.calls.length investment,
                          CronService.notifyCall env w.calls.length investment loan investor
                            borrower] }))))) := by
  unfold CronService.processSendingEmail cronRepo.GetInvestorByID
  cases hlookup : LoanRepository.GetInvestorByID
      (env.fault w.calls.length (CronService.lookupCall investment)) w.investors
      investment.InvestorID with
  | error err =>
    left
    refine ⟨err, rfl, ?_⟩
    unfold CronService.lookupCall at hlookup
    simp only [hlookup]
    rfl
  | ok investor =>
    right
    refine ⟨investor, rfl, ?_⟩
    unfold CronService.lookupCall at hlookup
    simp only [hlookup, emailAdapter.SendEmail, List.length_append, List.length_singleton]
    cases hsend : env.fault (w.calls.length + 1)
        (CronService.sendCall env investment loan investor borrower) with
    | some err =>
      left
      refine ⟨err, rfl, ?_⟩
      unfold CronService.sendCall at hsend
      simp only [hsend, List.append_assoc]
      rfl
    | none =>
      right
      refine ⟨rfl, ?_⟩
      unfold CronService.sendCall at hsend
      simp only [hsend, cronRepo.UpdateInvestmentAgreementSent,
        LoanRepository.UpdateInvestmentAgreementSent, List.length_append,
        List.length_singleton]
      cases hmark : env.fault (w.calls.length + 2)
          (CronService.markCall env w.calls.length investment) with
      | some err =>
        left
        refine ⟨err, rfl, ?_⟩
        unfold CronService.markCall at hmark
        simp only [show w.calls.length + 1 + 1 = w.calls.length + 2 from rfl, hmark,
          List.append_assoc]
        rfl
      | none =>
        right
        refine ⟨rfl, ?_⟩
        unfold CronService.markCall at hmark
        simp only [show w.calls.length + 1 + 1 = w.calls.length + 2 from rfl, hmark,
          cronRepo.CreateEmailNotification, List.length_append, List.length_singleton,
          List.append_assoc]
        rfl

/-- C22: in every run of `processSendingEmail`, whatever fails, a call of
`UpdateInvestmentAgreementSent` is made only when the investor was found and
`SendEmail` returned no error; it is then the call right after that `SendEmail`, for
this investment, with the flag true and a timestamp.  If the investor lookup or
`SendEmail` fails, an error is returned, no mark and no `CreateEmailNotification`
call is made, and neither the datastore nor the notification table changes.  The
datastore changes only through that mark. -/
theorem C22_mark_only_after_send (env : CronEnv) (investment : Investment) (loan : Loan)
    (borrower : Borrower) (w : CronWorld) :
    ∃ cs, (CronService.processSendingEmail env investment loan borrower w).2.calls
        = w.calls ++ cs
      ∧ (∀ c ∈ cs, c.isMark = true →
          ∃ investor rest,
            LoanRepository.GetInvestorByID
                (env.fault w.calls.length (CronService.lookupCall investment)) w.investors
                investment.InvestorID = .ok investor
            ∧ env.fault (w.calls.length + 1)
                (CronService.sendCall env investment loan investor borrower) = none
            ∧ c = .UpdateInvestmentAgreementSent investment.ID true
                (some (env.now (w.calls.length + 2)))
            ∧ cs = [CronCall.GetInvestorByID investment.InvestorID,
                CronService.sendCall env investment loan investor borrower, c] ++ rest)
      ∧ (((∃ err, LoanRepository.GetInvestorByID
                (env.fault w.calls.length (CronService.lookupCall investment)) w.investors
                investment.InvestorID = .error err)
          ∨ ∃ investor err, LoanRepository.GetInvestorByID
                (env.fault w.calls.length (CronService.lookupCall investment)) w.investors
                investment.InvestorID = .ok investor
              ∧ env.fault (w.calls.length + 1)
                (CronService.sendCall env investment loan investor borrower) = some err) →
          (∃ err, (CronService.processSendingEmail env investment loan borrower w).1
              = some err)
          ∧ (CronService.processSendingEmail env investment loan borrower w).2.db = w.db
          ∧ (CronService.processSendingEmail env investment loan borrower w).2.email_notifications
              = w.email_notifications
          ∧ ∀ c ∈ cs, c.isMark = false ∧ c.isNotification = false)
      ∧ ((CronService.processSendingEmail env investment loan borrower w).2.db = w.db
          ∨ ((∃ c ∈ cs, c.isMark = true)
            ∧ (CronService.processSendingEmail env investment loan borrower w).2.db
                = CronService.markedDB env w.calls.length investment w.db)) := by
  rcases processSendingEmail_cases env investment loan borrower w with
    ⟨err, hlookup, hrun⟩ | ⟨investor, hlookup, ⟨err, hsend, hrun⟩ |
      ⟨hsend, ⟨err, hmark, hrun⟩ | ⟨hmark, hrun⟩⟩⟩
  · rw [hrun]
    refine ⟨[CronService.lookupCall investment], rfl, ?_, ?_, Or.inl rfl⟩
    · intro c hc hm
      simp only [List.mem_singleton] at hc
      subst hc
      simp [CronService.lookupCall, CronCall.isMark] at hm
    · intro _
      refine ⟨⟨_, rfl⟩, rfl, rfl, ?_⟩
      intro c hc
      simp only [List.mem_singleton] at hc
      subst hc
      exact ⟨rfl, rfl⟩
  · rw [hrun]
    refine ⟨[CronService.lookupCall investment,
      CronService.sendCall env investment loan investor borrower], rfl, ?_, ?_, Or.inl rfl⟩
    · intro c hc hm
      simp only [List.mem_cons, List.mem_singleton, List.not_mem_nil, or_false] at hc
      rcases hc with rfl | rfl
      · simp [CronService.lookupCall, CronCall.isMark] at hm
      · simp [CronService.sendCall, CronCall.isMark] at hm
    · intro _
      refine ⟨⟨_, rfl⟩, rfl, rfl, ?_⟩
      intro c hc
      simp only [List.mem_cons, List.mem_singleton, List.not_mem_nil, or_false] at hc
      rcases hc with rfl | rfl
      · exact ⟨rfl, rfl⟩
      · exact ⟨rfl, rfl⟩
  · rw [hrun]
    refine ⟨[CronService.lookupCall investment,
      CronService.sendCall env investment loan investor borrower,
      CronService.markCall env w.calls.length investment], rfl, ?_, ?_, Or.inl rfl⟩
    · intro c hc hm
      simp only [List.mem_cons, List.mem_singleton, List.not_mem_nil, or_false] at hc
      rcases hc with rfl | rfl | rfl
      · simp [CronService.lookupCall, CronCall.isMark] at hm
      · simp [CronService.sendCall, CronCall.isMark] at hm
      · exact ⟨investor, [], hlookup, hsend, rfl, rfl⟩
    · rintro (⟨e, he⟩ | ⟨inv2, e, hl2, he⟩)
      · rw [hlookup] at he; cases he
      · rw [hlookup] at hl2
        cases hl2
        rw [hsend] at he; cases he
  · rw [hrun]
    refine ⟨[CronService.lookupCall investment,
      CronService.sendCall env investment loan investor borrower,
      CronService.markCall env w.calls.length investment,
      CronService.notifyCall env w.calls.length investment loan investor borrower], rfl,
      ?_, ?_, Or.inr ⟨⟨CronService.markCall env w.calls.length investment, by simp, rfl⟩, rfl⟩⟩
    · intro c hc hm
      simp only [List.mem_cons, List.mem_singleton, List.not_mem_nil, or_false] at hc
      rcases hc with rfl | rfl | rfl | rfl
      · simp [CronService.lookupCall, CronCall.isMark] at hm
      · simp [CronService.sendCall, CronCall.isMark] at hm
      · exact ⟨investor, [CronService.notifyCall env w.calls.length investment loan investor
          borrower], hlookup, hsend, rfl, rfl⟩
      · simp [CronService.notifyCall, CronCall.isMark] at hm
    · rintro (⟨e, he⟩ | ⟨inv2, e, hl2, he⟩)
      · rw [hlookup] at he; cases he
      · rw [hlookup] at hl2
        cases hl2
        rw [hsend] at he; cases he

/-- C22, at a concrete input: when the e-mail provider fails for the investment `N1`,
the only calls are the investor lookup and the `SendEmail`, and `N1` is still
unsent. -/
theorem C22_mark_only_after_send_witness :
    (CronService.processSendingEmail failingEmailEnv firstPending (fundedRow.scan "L2")
        exampleBorrower pendingWorld).2.calls
      = [.GetInvestorByID "I1",
          .SendEmail "ann@example.com" "Investment Agreement - Loan #L2" "Dear Ann"]
    ∧ (CronService.processSendingEmail failingEmailEnv firstPending (fundedRow.scan "L2")
        exampleBorrower pendingWorld).2.db = pendingWorld.db := by
  refine ⟨by decide!, ?_⟩
  obtain ⟨cs, -, -, hfail, -⟩ := C22_mark_only_after_send failingEmailEnv firstPending
    (fundedRow.scan "L2") exampleBorrower pendingWorld
  exact (hfail (Or.inr ⟨_, .external "smtp: connection refused", rfl, rfl⟩)).2.1

/-- C24: when the investor is found, `SendEmail` and `UpdateInvestmentAgreementSent`
succeed and `CreateEmailNotification` fails, `processSendingEmail` returns nil; the
datastore is the one left by the mark, so every row of this investment has
agreement_sent = true; the notification table is unchanged; and
`CreateEmailNotification` is the last call, so no compensating update is issued. -/
theorem C24_notification_failure_keeps_mark (env : CronEnv) (investment : Investment)
    (loan : Loan) (borrower : Borrower) (w : CronWorld) (investor : Investor)
    (notifyErr : Error)
    (hlookup : LoanRepository.GetInvestorByID
        (env.fault w.calls.length (CronService.lookupCall investment)) w.investors
        investment.InvestorID = .ok investor)
    (hsend : env.fault (w.calls.length + 1)
        (CronService.sendCall env investment loan investor borrower) = none)
    (hmark : env.fault (w.calls.length + 2)
        (CronService.markCall env w.calls.length investment) = none)
    (hnotify : env.fault (w.calls.length + 3)
        (CronService.notifyCall env w.calls.length investment loan investor borrower)
        = some notifyErr) :
    (CronService.processSendingEmail env investment loan borrower w).1 = none
    ∧ (CronService.processSendingEmail env investment loan borrower w).2.db
        = CronService.markedDB env w.calls.length investment w.db
    ∧ (∀ i ∈ (CronService.processSendingEmail env investment loan borrower w).2.db.investments,
        i.ID = investment.ID →
          i.AgreementSent = true ∧ i.AgreementSentAt = some (env.now (w.calls.length + 2)))
    ∧ (CronService.processSendingEmail env investment loan borrower w).2.db.investments.map
          (fun i => i.ID) = w.db.investments.map (fun i => i.ID)
    ∧ (CronService.processSendingEmail env investment loan borrower w).2.email_notifications
        = w.email_notifications
    ∧ (CronService.processSendingEmail env investment loan borrower w).2.calls
        = w.calls ++ [.GetInvestorByID investment.InvestorID,
            CronService.sendCall env investment loan investor borrower,
            .UpdateInvestmentAgreementSent investment.ID true
              (some (env.now (w.calls.length + 2))),
            CronService.notifyCall env w.calls.length investment loan investor borrower] := by
  rcases processSendingEmail_cases env investment loan borrower w with
    ⟨err, hl, -⟩ | ⟨inv2, hl, ⟨err, hs, -⟩ | ⟨-, ⟨err, hm, -⟩ | ⟨-, hrun⟩⟩⟩
  · rw [hlookup] at hl; cases hl
  · rw [hlookup] at hl; cases hl
    rw [hsend] at hs; cases hs
  · rw [hmark] at hm; cases hm
  · rw [hlookup] at hl
    cases hl
    rw [hrun]
    refine ⟨rfl, rfl, ?_, ?_, ?_, rfl⟩
    · intro i hi hid
      simp only [CronService.markedDB, LoanRepository.markAgreementStmt, List.mem_map] at hi
      obtain ⟨j, -, hj⟩ := hi
      by_cases hjid : j.ID = investment.ID
      · rw [if_pos hjid] at hj
        subst hj
        exact ⟨rfl, rfl⟩
      · rw [if_neg hjid] at hj
        subst hj
        exact absurd hid hjid
    · simp only [CronService.markedDB, LoanRepository.markAgreementStmt, List.map_map]
      apply List.map_congr_left
      intro j _
      simp only [Function.comp]
      split <;> rfl
    · simp only [CronService.notified, LoanRepository.CreateEmailNotification, hnotify]

/-- C24, at a concrete input: the investment `N1` when recording the notification
fails. -/
theorem C24_notification_failure_keeps_mark_witness :
    (CronService.processSendingEmail failingNotificationEnv firstPending
        (fundedRow.scan "L2") exampleBorrower pendingWorld).1 = none
    ∧ (CronService.processSendingEmail failingNotificationEnv firstPending
        (fundedRow.scan "L2") exampleBorrower pendingWorld).2.db.investments.map
          (fun i => (i.ID, i.AgreementSent))
        = [("N1", true), ("N2", false)]
    ∧ (CronService.processSendingEmail failingNotificationEnv firstPending
        (fundedRow.scan "L2") exampleBorrower pendingWorld).2.email_notifications = [] := by
  have h := C24_notification_failure_keeps_mark failingNotificationEnv firstPending
    (fundedRow.scan "L2") exampleBorrower pendingWorld
    { ID := "I1", CreatedAt := 1, UpdatedAt := 1, InvestorCode := "INV-1", Name := "Ann",
      Email := "ann@example.com", PhoneNumber := "", IsActive := true }
    (.external "pq: relation email_notifications is locked") rfl rfl rfl rfl
  exact ⟨h.1, by decide!, h.2.2.2.2.1⟩

/-- What `processSendingEmail` leaves alone, and the one investor lookup it makes,
whatever fails. -/
theorem processSendingEmail_frame (env : CronEnv) (investment : Investment) (loan : Loan)
    (borrower : Borrower) (w : CronWorld) :
    (CronService.processSendingEmail env investment loan borrower w).2.investors = w.investors
    ∧ (CronService.processSendingEmail env investment loan borrower w).2.borrowers_deleted_at
        = w.borrowers_deleted_at
    ∧ (CronService.processSendingEmail env investment loan borrower w).2.db.loans = w.db.loans
    ∧ (CronService.processSendingEmail env investment loan borrower w).2.db.borrowers
        = w.db.borrowers
    ∧ ∃ cs, (CronService.processSendingEmail env investment loan borrower w).2.calls
          = w.calls ++ cs
        ∧ cs.filterMap CronCall.investorFetched = [investment.InvestorID]
        ∧ cs.filterMap CronCall.loanFetched = []
        ∧ cs.filterMap CronCall.borrowerFetched = [] := by
  rcases processSendingEmail_cases env investment loan borrower w with
    ⟨err, -, hrun⟩ | ⟨investor, -, ⟨err, -, hrun⟩ | ⟨-, ⟨err, -, hrun⟩ | ⟨-, hrun⟩⟩⟩
  all_goals
    rw [hrun]
    exact ⟨rfl, rfl, rfl, rfl, _, rfl, rfl, rfl, rfl⟩

/-- The loop over one group attempts every investment, in order, whatever fails. -/
theorem sendAll_frame (env : CronEnv) (loan : Loan) (borrower : Borrower)
    (investments : List Investment) (w : CronWorld) :
    (CronService.sendAll env loan borrower investments w).investors = w.investors
    ∧ (CronService.sendAll env loan borrower investments w).borrowers_deleted_at
        = w.borrowers_deleted_at
    ∧ (CronService.sendAll env loan borrower investments w).db.loans = w.db.loans
    ∧ (CronService.sendAll env loan borrower investments w).db.borrowers = w.db.borrowers
    ∧ ∃ cs, (CronService.sendAll env loan borrower investments w).calls = w.calls ++ cs
        ∧ cs.filterMap CronCall.investorFetched = investments.map (fun i => i.InvestorID)
        ∧ cs.filterMap CronCall.loanFetched = []
        ∧ cs.filterMap CronCall.borrowerFetched = [] := by
  induction investments generalizing w with
  | nil => exact ⟨rfl, rfl, rfl, rfl, [], by simp [CronService.sendAll], rfl, rfl, rfl⟩
  | cons investment rest ih =>
    obtain ⟨h1, h2, h3, h4, cs1, hc1, hi1, hl1, hb1⟩ :=
      processSendingEmail_frame env investment loan borrower w
    obtain ⟨g1, g2, g3, g4, cs2, hc2, hi2, hl2, hb2⟩ :=
      ih (CronService.processSendingEmail env investment loan borrower w).2
    unfold CronService.sendAll
    refine ⟨g1.trans h1, g2.trans h2, g3.trans h3, g4.trans h4, cs1 ++ cs2, ?_, ?_, ?_, ?_⟩
    · rw [hc2, hc1, List.append_assoc]
    · rw [List.filterMap_append, hi1, hi2]; rfl
    · rw [List.filterMap_append, hl1, hl2]; rfl
    · rw [List.filterMap_append, hb1, hb2]; rfl

/-- The three ways `processInvestmentsForLoan` can go. -/
theorem processInvestmentsForLoan_cases (env : CronEnv) (loanID : UUID)
    (investments : List Investment) (w : CronWorld) :
    (∃ err,
      (LoanRepository.GetLoanByID (env.fault w.calls.length (.GetLoanByID loanID)) w.db
          loanID).1 = .error err
      ∧ CronService.processInvestmentsForLoan env loanID investments w
          = (some (.wrap "failed to get loan" err),
              { w with calls := w.calls ++ [.GetLoanByID loanID] }))
    ∨ ∃ loan,
      (LoanRepository.GetLoanByID (env.fault w.calls.length (.GetLoanByID loanID)) w.db
          loanID).1 = .ok loan
      ∧ ((∃ err,
            LoanRepository.GetBorrowerByID
                (env.fault (w.calls.length + 1) (.GetBorrowerByID loan.BorrowerID)) w.db
                w.borrowers_deleted_at loan.BorrowerID = .error err
            ∧ CronService.processInvestmentsForLoan env loanID investments w
                = (some (.wrap "failed to get borrower" err),
                    { w with calls := w.calls ++ [.GetLoanByID loanID,
                        .GetBorrowerByID loan.BorrowerID] }))
        ∨ ∃ borrower,
            LoanRepository.GetBorrowerByID
                (env.fault (w.calls.length + 1) (.GetBorrowerByID loan.BorrowerID)) w.db
                w.borrowers_deleted_at loan.BorrowerID = .ok borrower
            ∧ CronService.processInvestmentsForLoan env loanID investments w
                = (none,
                    CronService.sendAll env loan borrower investments
                      { w with calls := w.calls ++ [.GetLoanByID loanID,
                          .GetBorrowerByID loan.BorrowerID] })) := by
  unfold CronService.processInvestmentsForLoan cronRepo.GetLoanByID
  cases hloan : (LoanRepository.GetLoanByID (env.fault w.calls.length (.GetLoanByID loanID))
      w.db loanID).1 with
  | error err => exact Or.inl ⟨err, rfl, rfl⟩
  | ok loan =>
    right
    refine ⟨loan, rfl, ?_⟩
    simp only [cronRepo.GetBorrowerByID, List.length_append, List.length_singleton]
    cases hb : LoanRepository.GetBorrowerByID
        (env.fault (w.calls.length + 1) (.GetBorrowerByID loan.BorrowerID)) w.db
        w.borrowers_deleted_at loan.BorrowerID with
    | error err =>
      left
      refine ⟨err, rfl, ?_⟩
      simp only [List.append_assoc]
      rfl
    | ok borrower =>
      right
      refine ⟨borrower, rfl, ?_⟩
      simp only [List.append_assoc]
      rfl

/-- One group: the loan is fetched once, the borrower at most once, and what is left
alone, whatever fails. -/
theorem processInvestmentsForLoan_frame (env : CronEnv) (loanID : UUID)
    (investments : List Investment) (w : CronWorld) :
    (CronService.processInvestmentsForLoan env loanID investments w).2.investors = w.investors
    ∧ (CronService.processInvestmentsForLoan env loanID investments w).2.borrowers_deleted_at
        = w.borrowers_deleted_at
    ∧ (CronService.processInvestmentsForLoan env loanID investments w).2.db.loans = w.db.loans
    ∧ (CronService.processInvestmentsForLoan env loanID investments w).2.db.borrowers
        = w.db.borrowers
    ∧ ∃ cs, (CronService.processInvestmentsForLoan env loanID investments w).2.calls
          = w.calls ++ cs
        ∧ cs.filterMap CronCall.loanFetched = [loanID]
        ∧ (cs.filterMap CronCall.borrowerFetched).length ≤ 1 := by
  rcases processInvestmentsForLoan_cases env loanID investments w with
    ⟨err, -, hrun⟩ | ⟨loan, -, ⟨err, -, hrun⟩ | ⟨borrower, -, hrun⟩⟩
  · rw [hrun]
    exact ⟨rfl, rfl, rfl, rfl, _, rfl, rfl, by simp [CronCall.borrowerFetched]⟩
  · rw [hrun]
    exact ⟨rfl, rfl, rfl, rfl, _, rfl, rfl, by simp [CronCall.borrowerFetched]⟩
  · rw [hrun]
    obtain ⟨h1, h2, h3, h4, cs, hc, -, hl, hb⟩ := sendAll_frame env loan borrower investments
      { w with calls := w.calls ++ [.GetLoanByID loanID, .GetBorrowerByID loan.BorrowerID] }
    refine ⟨h1, h2, h3, h4, [.GetLoanByID loanID, .GetBorrowerByID loan.BorrowerID] ++ cs,
      ?_, ?_, ?_⟩
    · rw [hc, List.append_assoc]
    · rw [List.filterMap_append, hl]; rfl
    · rw [List.filterMap_append, hb]; simp [CronCall.borrowerFetched]

/-- The loop over the groups attempts every group, in order, whatever fails. -/
theorem processGroups_frame (env : CronEnv) (groups : List (UUID × List Investment))
    (w : CronWorld) :
    (CronService.processGroups env groups w).investors = w.investors
    ∧ (CronService.processGroups env groups w).borrowers_deleted_at = w.borrowers_deleted_at
    ∧ (CronService.processGroups env groups w).db.loans = w.db.loans
    ∧ (CronService.processGroups env groups w).db.borrowers = w.db.borrowers
    ∧ ∃ cs, (CronService.processGroups env groups w).calls = w.calls ++ cs
        ∧ cs.filterMap CronCall.loanFetched = groups.map (fun g => g.1)
        ∧ (cs.filterMap CronCall.borrowerFetched).length ≤ groups.length := by
  induction groups generalizing w with
  | nil => exact ⟨rfl, rfl, rfl, rfl, [], by simp [CronService.processGroups], rfl, by simp⟩
  | cons g rest ih =>
    obtain ⟨loanID, investments⟩ := g
    obtain ⟨h1, h2, h3, h4, cs1, hc1, hl1, hb1⟩ :=
      processInvestmentsForLoan_frame env loanID investments w
    obtain ⟨g1, g2, g3, g4, cs2, hc2, hl2, hb2⟩ :=
      ih (CronService.processInvestmentsForLoan env loanID investments w).2
    unfold CronService.processGroups
    refine ⟨g1.trans h1, g2.trans h2, g3.trans h3, g4.trans h4, cs1 ++ cs2, ?_, ?_, ?_⟩
    · rw [hc2, hc1, List.append_assoc]
    · rw [List.filterMap_append, hl1, hl2]; rfl
    · rw [List.filterMap_append, List.length_append, List.length_cons]
      omega

/-! ## Grouping the pending investments by loan -/

theorem appendAt_keys (m : List (UUID × List Investment)) (k : UUID) (i : Investment) :
    (CronService.appendAt m k i).map (fun g => g.1)
      = if k ∈ m.map (fun g => g.1) then m.map (fun g => g.1)
        else m.map (fun g => g.1) ++ [k] := by
  induction m with
  | nil => simp [CronService.appendAt]
  | cons g rest ih =>
    obtain ⟨k1, group⟩ := g
    unfold CronService.appendAt
    by_cases h : k1 = k
    · subst h
      simp
    · rw [if_neg h]
      simp only [List.map_cons, List.mem_cons, ih]
      have hk : ¬ k = k1 := fun e => h e.symm
      by_cases hm : k ∈ rest.map (fun g => g.1)
      · simp [hm]
      · simp [hm, hk]

theorem appendAt_mem {m : List (UUID × List Investment)} {k : UUID} {i : Investment}
    {k1 : UUID} {g1 : List Investment} (hnd : (m.map (fun g => g.1)).Nodup)
    (h : (k1, g1) ∈ CronService.appendAt m k i) :
    (k1 ≠ k ∧ (k1, g1) ∈ m)
    ∨ (k1 = k ∧ ((∃ g, (k, g) ∈ m ∧ g1 = g ++ [i])
        ∨ (k ∉ m.map (fun g => g.1) ∧ g1 = [i]))) := by
  induction m with
  | nil =>
    simp only [CronService.appendAt, List.mem_singleton, Prod.mk.injEq] at h
    exact Or.inr ⟨h.1, Or.inr ⟨by simp, h.2⟩⟩
  | cons g rest ih =>
    obtain ⟨k2, group⟩ := g
    simp only [List.map_cons, List.nodup_cons] at hnd
    unfold CronService.appendAt at h
    by_cases hk : k2 = k
    · subst hk
      rw [if_pos rfl] at h
      rcases List.mem_cons.mp h with hhead | htail
      · simp only [Prod.mk.injEq] at hhead
        exact Or.inr ⟨hhead.1, Or.inl ⟨group, List.mem_cons_self _ _, hhead.2⟩⟩
      · have h1 : k1 ≠ k2 := by
          intro e
          exact hnd.1 (List.mem_map.mpr ⟨(k1, g1), htail, e⟩)
        exact Or.inl ⟨h1, List.mem_cons_of_mem _ htail⟩
    · rw [if_neg hk] at h
      rcases List.mem_cons.mp h with h | h
      · simp only [Prod.mk.injEq] at h
        obtain ⟨rfl, rfl⟩ := h
        exact Or.inl ⟨hk, List.mem_cons_self _ _⟩
      · rcases ih hnd.2 h with ⟨hne, hm⟩ | ⟨rfl, ⟨g, hg, hg1⟩ | ⟨hnot, hg1⟩⟩
        · exact Or.inl ⟨hne, List.mem_cons_of_mem _ hm⟩
        · exact Or.inr ⟨rfl, Or.inl ⟨g, List.mem_cons_of_mem _ hg, hg1⟩⟩
        · refine Or.inr ⟨rfl, Or.inr ⟨?_, hg1⟩⟩
          simp only [List.map_cons, List.mem_cons, not_or]
          exact ⟨fun e => hk e.symm, hnot⟩

theorem appendAt_perm (m : List (UUID × List Investment)) (k : UUID) (i : Investment) :
    ((CronService.appendAt m k i).flatMap (fun g => g.2)).Perm
      (m.flatMap (fun g => g.2) ++ [i]) := by
  induction m with
  | nil => simp [CronService.appendAt]
  | cons g rest ih =>
    obtain ⟨k1, group⟩ := g
    unfold CronService.appendAt
    by_cases h : k1 = k
    · rw [if_pos h]
      simp only [List.flatMap_cons, List.append_assoc]
      exact List.Perm.append_left _ List.perm_append_comm
    · rw [if_neg h]
      simp only [List.flatMap_cons, List.append_assoc]
      exact List.Perm.append_left _ ih

theorem grouped_appendAt {m : List (UUID × List Investment)} {seen : List Investment}
    (h : CronService.Grouped m seen) (i : Investment) :
    CronService.Grouped (CronService.appendAt m i.LoanID i) (seen ++ [i]) := by
  obtain ⟨hnd, hgroups, hkeys, hperm⟩ := h
  refine ⟨?_, ?_, ?_, ?_⟩
  · rw [appendAt_keys]
    by_cases hm : i.LoanID ∈ m.map (fun g => g.1)
    · rw [if_pos hm]; exact hnd
    · rw [if_neg hm]
      exact List.Nodup.append hnd (List.nodup_singleton _) (by simpa using hm)
  · intro k g hg
    rcases appendAt_mem hnd hg with ⟨hne, hm⟩ | ⟨rfl, ⟨g0, hg0, rfl⟩ | ⟨hnot, rfl⟩⟩
    · obtain ⟨hfil, hnon⟩ := hgroups k g hm
      refine ⟨?_, hnon⟩
      rw [List.filter_append, ← hfil]
      have : ¬ i.LoanID = k := fun e => hne e.symm
      simp [this]
    · obtain ⟨hfil, -⟩ := hgroups _ g0 hg0
      refine ⟨?_, by simp⟩
      rw [List.filter_append, ← hfil]
      simp
    · refine ⟨?_, by simp⟩
      rw [List.filter_append]
      have hnone : seen.filter (fun j => j.LoanID = i.LoanID) = [] := by
        rw [List.filter_eq_nil_iff]
        intro j hj
        have := hkeys j hj
        intro e
        simp only [decide_eq_true_eq] at e
        rw [e] at this
        exact hnot this
      rw [hnone]
      simp
  · intro j hj
    rw [appendAt_keys]
    rcases List.mem_append.mp hj with hj | hj
    · have := hkeys j hj
      by_cases hm : i.LoanID ∈ m.map (fun g => g.1)
      · rw [if_pos hm]; exact this
      · rw [if_neg hm]; exact List.mem_append_left _ this
    · simp only [List.mem_singleton] at hj
      subst hj
      by_cases hm : j.LoanID ∈ m.map (fun g => g.1)
      · rw [if_pos hm]; exact hm
      · rw [if_neg hm]; simp
  · exact (appendAt_perm m i.LoanID i).trans (List.Perm.append_right _ hperm)

theorem grouped_foldl (rest : List Investment) :
    ∀ (m : List (UUID × List Investment)) (seen : List Investment),
      CronService.Grouped m seen →
      CronService.Grouped
        (rest.foldl (fun m investment => CronService.appendAt m investment.LoanID investment) m)
        (seen ++ rest) := by
  induction rest with
  | nil => intro m seen h; simpa using h
  | cons i rest ih =>
    intro m seen h
    have := ih _ _ (grouped_appendAt h i)
    simpa [List.append_assoc] using this

/-- The grouping loop groups the pending investments by loan. -/
theorem groupByLoan_grouped (investments : List Investment) :
    CronService.Grouped (CronService.groupByLoan investments) investments := by
  have h0 : CronService.Grouped [] [] := ⟨by simp, by simp, by simp, by simp⟩
  have := grouped_foldl investments [] [] h0
  simpa [CronService.groupByLoan] using this

theorem rangeOrder_perm (env : CronEnv) (m : List (UUID × List Investment)) :
    (CronService.rangeOrder env m).Perm m :=
  List.perm_insertionSort _ _

/-! ## A pass in which the lookups succeed -/

theorem groupReady_congr {w v : CronWorld} {loanID : UUID}
    (h1 : v.db.loans = w.db.loans) (h2 : v.db.borrowers = w.db.borrowers)
    (h3 : v.borrowers_deleted_at = w.borrowers_deleted_at) (h : w.GroupReady loanID) :
    v.GroupReady loanID := by
  obtain ⟨r, b, hr, hd, hb, hbd⟩ := h
  exact ⟨r, b, by rw [h1]; exact hr, hd, by rw [h2]; exact hb, by rw [h3]; exact hbd⟩

theorem investorReady_congr {w v : CronWorld} {investorID : UUID}
    (h1 : v.investors = w.investors) (h : w.InvestorReady investorID) :
    v.InvestorReady investorID := by
  obtain ⟨r, hr, hd⟩ := h
  exact ⟨r, by rw [h1]; exact hr, hd⟩

theorem emailOf_congr {w v : CronWorld} (h1 : v.investors = w.investors) (investorID : UUID) :
    v.emailOf investorID = w.emailOf investorID := by
  unfold CronWorld.emailOf
  rw [h1]

/-- With the loan and its borrower at hand and no driver fault on the two lookups,
`processInvestmentsForLoan` reaches its loop. -/
theorem processInvestmentsForLoan_ready {env : CronEnv} (hfault : env.NoLookupFault)
    {loanID : UUID} (investments : List Investment) {w : CronWorld}
    (hready : w.GroupReady loanID) :
    ∃ loan borrower,
      CronService.processInvestmentsForLoan env loanID investments w
        = (none,
            CronService.sendAll env loan borrower investments
              { w with calls := w.calls ++ [.GetLoanByID loanID,
                  .GetBorrowerByID loan.BorrowerID] }) := by
  obtain ⟨r, b, hr, hd, hb, hbd⟩ := hready
  have hload := getLoanByID_run hr hd hb
  rcases processInvestmentsForLoan_cases env loanID investments w with
    ⟨err, hl, -⟩ | ⟨loan, hl, ⟨err, hbor, -⟩ | ⟨borrower, -, hrun⟩⟩
  · rw [(hfault _ _).1, hload] at hl
    cases hl
  · rw [(hfault _ _).1, hload] at hl
    have hloan := (Except.ok.inj hl).symm
    rw [(hfault _ _).2] at hbor
    have hbid : loan.BorrowerID = r.borrower_id := by rw [hloan]; rfl
    rw [hbid] at hbor
    simp [LoanRepository.GetBorrowerByID, hb, hbd] at hbor
  · exact ⟨loan, borrower, hrun⟩

/-- The loop over one group when nothing fails: one e-mail to each investor's address and
one mark for each investment, in order. -/
theorem sendAll_quiet {env : CronEnv} (hquiet : env.AllQuiet) (loan : Loan)
    (borrower : Borrower) (investments : List Investment) (w : CronWorld)
    (hinvestors : ∀ i ∈ investments, w.InvestorReady i.InvestorID) :
    ∃ cs, (CronService.sendAll env loan borrower investments w).calls = w.calls ++ cs
      ∧ cs.filterMap CronCall.sentTo = investments.map (fun i => w.emailOf i.InvestorID)
      ∧ cs.filterMap CronCall.marked = investments.map (fun i => i.ID)
      ∧ (cs.filter CronCall.isMark).length = investments.length := by
  induction investments generalizing w with
  | nil => exact ⟨[], by simp [CronService.sendAll], rfl, rfl, rfl⟩
  | cons i rest ih =>
    obtain ⟨row, hrow, hdel⟩ := hinvestors i (List.mem_cons_self _ _)
    have hframe := (processSendingEmail_frame env i loan borrower w).1
    have hrest : ∀ j ∈ rest,
        (CronService.processSendingEmail env i loan borrower w).2.InvestorReady
          j.InvestorID :=
      fun j hj => investorReady_congr hframe (hinvestors j (List.mem_cons_of_mem _ hj))
    obtain ⟨cs2, hc2, hs2, hm2, hn2⟩ :=
      ih (CronService.processSendingEmail env i loan borrower w).2 hrest
    have hlookup : LoanRepository.GetInvestorByID
        (env.fault w.calls.length (CronService.lookupCall i)) w.investors i.InvestorID
        = .ok { ID := i.InvestorID, CreatedAt := row.created_at, UpdatedAt := row.updated_at,
                InvestorCode := row.investor_code, Name := row.name, Email := row.email,
                PhoneNumber := row.phone_number, IsActive := row.is_active } := by
      simp [LoanRepository.GetInvestorByID, hquiet _ _, hrow, hdel]
    rcases processSendingEmail_cases env i loan borrower w with
      ⟨err, hl, -⟩ | ⟨investor, hl, ⟨err, hs, -⟩ | ⟨-, ⟨err, hm, -⟩ | ⟨-, hrun⟩⟩⟩
    · rw [hlookup] at hl; cases hl
    · rw [hquiet _ _] at hs; cases hs
    · rw [hquiet _ _] at hm; cases hm
    · rw [hlookup] at hl
      have hinv := (Except.ok.inj hl).symm
      have hemail : investor.Email = w.emailOf i.InvestorID := by
        rw [hinv]
        simp [CronWorld.emailOf, hrow]
      unfold CronService.sendAll
      rw [hc2]
      rw [hrun] at hs2 ⊢
      refine ⟨[CronService.lookupCall i, CronService.sendCall env i loan investor borrower,
        CronService.markCall env w.calls.length i,
        CronService.notifyCall env w.calls.length i loan investor borrower] ++ cs2,
        by simp, ?_, ?_, ?_⟩
      · rw [List.filterMap_append, hs2]
        simp [CronService.lookupCall, CronService.sendCall, CronService.markCall,
          CronService.notifyCall, CronCall.sentTo, hemail, CronWorld.emailOf]
      · rw [List.filterMap_append, hm2]
        simp [CronService.lookupCall, CronService.sendCall, CronService.markCall,
          CronService.notifyCall, CronCall.marked]
      · rw [List.filter_append, List.length_append, hn2]
        simp [CronService.lookupCall, CronService.sendCall, CronService.markCall,
          CronService.notifyCall, CronCall.isMark]
        omega

/-- One group when its two lookups succeed: the borrower is fetched once and every
investment of the group is attempted, whatever else fails. -/
theorem processInvestmentsForLoan_ready_calls {env : CronEnv} (hfault : env.NoLookupFault)
    {loanID : UUID} (investments : List Investment) {w : CronWorld}
    (hready : w.GroupReady loanID) :
    (CronService.processInvestmentsForLoan env loanID investments w).1 = none
    ∧ ∃ cs, (CronService.processInvestmentsForLoan env loanID investments w).2.calls
          = w.calls ++ cs
        ∧ cs.filterMap CronCall.investorFetched = investments.map (fun i => i.InvestorID)
        ∧ (cs.filterMap CronCall.borrowerFetched).length = 1 := by
  obtain ⟨loan, borrower, hrun⟩ := processInvestmentsForLoan_ready hfault investments hready
  rw [hrun]
  obtain ⟨-, -, -, -, cs, hc, hi, -, hb⟩ := sendAll_frame env loan borrower investments
    { w with calls := w.calls ++ [.GetLoanByID loanID, .GetBorrowerByID loan.BorrowerID] }
  refine ⟨rfl, [.GetLoanByID loanID, .GetBorrowerByID loan.BorrowerID] ++ cs, ?_, ?_, ?_⟩
  · rw [hc, List.append_assoc]
  · rw [List.filterMap_append, hi]; rfl
  · rw [List.filterMap_append, hb]; rfl

/-- The loop over the groups when every loan and borrower lookup succeeds: each group's
borrower is fetched once and every investment of every group is attempted, whatever
else fails. -/
theorem processGroups_ready {env : CronEnv} (hfault : env.NoLookupFault)
    (groups : List (UUID × List Investment)) (w : CronWorld)
    (hready : ∀ g ∈ groups, w.GroupReady g.1) :
    ∃ cs, (CronService.processGroups env groups w).calls = w.calls ++ cs
      ∧ cs.filterMap CronCall.investorFetched
          = groups.flatMap (fun g => g.2.map (fun i => i.InvestorID))
      ∧ (cs.filterMap CronCall.borrowerFetched).length = groups.length := by
  induction groups generalizing w with
  | nil => exact ⟨[], by simp [CronService.processGroups], rfl, rfl⟩
  | cons g rest ih =>
    obtain ⟨loanID, investments⟩ := g
    obtain ⟨-, cs1, hc1, hi1, hb1⟩ := processInvestmentsForLoan_ready_calls hfault investments
      (hready (loanID, investments) (List.mem_cons_self _ _))
    obtain ⟨-, h2, h3, h4, -⟩ := processInvestmentsForLoan_frame env loanID investments w
    obtain ⟨cs2, hc2, hi2, hb2⟩ :=
      ih (CronService.processInvestmentsForLoan env loanID investments w).2
        (fun g hg => groupReady_congr h3 h4 h2 (hready g (List.mem_cons_of_mem _ hg)))
    unfold CronService.processGroups
    refine ⟨cs1 ++ cs2, ?_, ?_, ?_⟩
    · rw [hc2, hc1, List.append_assoc]
    · rw [List.filterMap_append, hi1, hi2]; rfl
    · rw [List.filterMap_append, List.length_append, hb1, hb2, List.length_cons]
      omega

/-- The loop over the groups when nothing fails. -/
theorem processGroups_quiet {env : CronEnv} (hquiet : env.AllQuiet)
    (groups : List (UUID × List Investment)) (w : CronWorld)
    (hready : ∀ g ∈ groups, w.GroupReady g.1)
    (hinvestors : ∀ g ∈ groups, ∀ i ∈ g.2, w.InvestorReady i.InvestorID) :
    ∃ cs, (CronService.processGroups env groups w).calls = w.calls ++ cs
      ∧ cs.filterMap CronCall.sentTo
          = (groups.flatMap (fun g => g.2)).map (fun i => w.emailOf i.InvestorID)
      ∧ cs.filterMap CronCall.marked = (groups.flatMap (fun g => g.2)).map (fun i => i.ID)
      ∧ (cs.filter CronCall.isMark).length = (groups.flatMap (fun g => g.2)).length := by
  have hfault : env.NoLookupFault := fun n id => ⟨hquiet _ _, hquiet _ _⟩
  induction groups generalizing w with
  | nil => exact ⟨[], by simp [CronService.processGroups], rfl, rfl, rfl⟩
  | cons g rest ih =>
    obtain ⟨loanID, investments⟩ := g
    obtain ⟨loan, borrower, hrun⟩ := processInvestmentsForLoan_ready hfault investments
      (hready (loanID, investments) (List.mem_cons_self _ _))
    obtain ⟨h1, h2, h3, h4, -⟩ := processInvestmentsForLoan_frame env loanID investments w
    obtain ⟨cs2, hc2, hs2, hm2, hn2⟩ :=
      ih (CronService.processInvestmentsForLoan env loanID investments w).2
        (fun g hg => groupReady_congr h3 h4 h2 (hready g (List.mem_cons_of_mem _ hg)))
        (fun g hg i hi => investorReady_congr h1
          (hinvestors g (List.mem_cons_of_mem _ hg) i hi))
    obtain ⟨cs1, hc1, hs1, hm1, hn1⟩ := sendAll_quiet hquiet loan borrower investments
      { w with calls := w.calls ++ [.GetLoanByID loanID, .GetBorrowerByID loan.BorrowerID] }
      (fun i hi => investorReady_congr rfl
        (hinvestors (loanID, investments) (List.mem_cons_self _ _) i hi))
    have hemail : ∀ k,
        (CronService.processInvestmentsForLoan env loanID investments w).2.emailOf k
          = w.emailOf k := emailOf_congr h1
    unfold CronService.processGroups
    refine ⟨[.GetLoanByID loanID, .GetBorrowerByID loan.BorrowerID] ++ cs1 ++ cs2, ?_, ?_, ?_,
      ?_⟩
    · rw [hc2, hrun]
      simp only []
      rw [hc1]
      simp [List.append_assoc]
    · rw [List.filterMap_append, List.filterMap_append, hs1, hs2]
      simp only [List.flatMap_cons, List.map_append, hemail]
      rfl
    · rw [List.filterMap_append, List.filterMap_append, hm1, hm2]
      simp only [List.flatMap_cons, List.map_append]
      rfl
    · rw [List.filter_append, List.filter_append, List.length_append, List.length_append,
        hn1, hn2]
      simp only [List.flatMap_cons, List.length_append]
      simp [CronCall.isMark]

/-- The three ways a pass can go. -/
theorem processInvestmentAgreements_cases (env : CronEnv) (w : CronWorld) :
    ((∃ err, env.fault w.calls.length .GetInvestmentsNeedingAgreementEmail = some err)
      ∧ CronService.processInvestmentAgreements env w
          = { w with calls := w.calls ++ [.GetInvestmentsNeedingAgreementEmail] })
    ∨ (env.fault w.calls.length .GetInvestmentsNeedingAgreementEmail = none
      ∧ LoanRepository.pendingAgreementStmt w.db = []
      ∧ CronService.processInvestmentAgreements env w
          = { w with calls := w.calls ++ [.GetInvestmentsNeedingAgreementEmail] })
    ∨ (env.fault w.calls.length .GetInvestmentsNeedingAgreementEmail = none
      ∧ LoanRepository.pendingAgreementStmt w.db ≠ []
      ∧ CronService.processInvestmentAgreements env w
          = CronService.processGroups env
              (CronService.rangeOrder env
                (CronService.groupByLoan (LoanRepository.pendingAgreementStmt w.db)))
              { w with calls := w.calls ++ [.GetInvestmentsNeedingAgreementEmail] }) := by
  unfold CronService.processInvestmentAgreements cronRepo.GetInvestmentsNeedingAgreementEmail
    LoanRepository.GetInvestmentsNeedingAgreementEmail
  cases hf : env.fault w.calls.length .GetInvestmentsNeedingAgreementEmail with
  | some err => exact Or.inl ⟨⟨err, rfl⟩, rfl⟩
  | none =>
    right
    simp only []
    by_cases hp : LoanRepository.pendingAgreementStmt w.db = []
    · left
      refine ⟨trivial, hp, ?_⟩
      rw [hp]
      rfl
    · right
      refine ⟨trivial, hp, ?_⟩
      have hlen : ¬ (LoanRepository.pendingAgreementStmt w.db).length = 0 := by
        intro h
        exact hp (List.length_eq_zero.mp h)
      rw [if_neg hlen]

theorem grouped_key_mem {m : List (UUID × List Investment)} {seen : List Investment}
    (h : CronService.Grouped m seen) {g : UUID × List Investment} (hg : g ∈ m) :
    ∃ i ∈ seen, i.LoanID = g.1 := by
  obtain ⟨k, group⟩ := g
  obtain ⟨hfil, hnon⟩ := h.2.1 k group hg
  obtain ⟨i, hi⟩ := List.exists_mem_of_ne_nil _ hnon
  rw [hfil, List.mem_filter] at hi
  exact ⟨i, hi.1, by simpa using hi.2⟩

/-- C23: no failure stops a pass.  Whatever fails (every call may): the loop over a
group makes the investor lookup, the first step of `processSendingEmail`, for every
investment of the group, in order; the loop over the groups makes the loan lookup,
the first step of `processInvestmentsForLoan`, for every group, in order; and in a
pass whose pending query succeeds every loan of the pending set is looked up exactly
once.  If moreover the loan and borrower lookups succeed, every pending investment
is attempted exactly once, whatever fails in the investor lookup, the send, the mark
or the audit record. -/
theorem C23_failure_isolation (env : CronEnv) (w : CronWorld) :
    (∀ (loan : Loan) (borrower : Borrower) (investments : List Investment),
      ∃ cs, (CronService.sendAll env loan borrower investments w).calls = w.calls ++ cs
        ∧ cs.filterMap CronCall.investorFetched = investments.map (fun i => i.InvestorID))
    ∧ (∀ (groups : List (UUID × List Investment)),
      ∃ cs, (CronService.processGroups env groups w).calls = w.calls ++ cs
        ∧ cs.filterMap CronCall.loanFetched = groups.map (fun g => g.1))
    ∧ (env.fault w.calls.length .GetInvestmentsNeedingAgreementEmail = none →
      ∃ cs, (CronService.processInvestmentAgreements env w).calls
          = w.calls ++ [.GetInvestmentsNeedingAgreementEmail] ++ cs
        ∧ (cs.filterMap CronCall.loanFetched).Perm
            ((CronService.groupByLoan (LoanRepository.pendingAgreementStmt w.db)).map
              (fun g => g.1))
        ∧ (cs.filterMap CronCall.loanFetched).Nodup
        ∧ (∀ i ∈ LoanRepository.pendingAgreementStmt w.db,
            i.LoanID ∈ cs.filterMap CronCall.loanFetched)
        ∧ (env.NoLookupFault →
            (∀ i ∈ LoanRepository.pendingAgreementStmt w.db, w.GroupReady i.LoanID) →
            (cs.filterMap CronCall.investorFetched).Perm
              ((LoanRepository.pendingAgreementStmt w.db).map (fun i => i.InvestorID)))) := by
  refine ⟨?_, ?_, ?_⟩
  · intro loan borrower investments
    obtain ⟨-, -, -, -, cs, hc, hi, -⟩ := sendAll_frame env loan borrower investments w
    exact ⟨cs, hc, hi⟩
  · intro groups
    obtain ⟨-, -, -, -, cs, hc, hl, -⟩ := processGroups_frame env groups w
    exact ⟨cs, hc, hl⟩
  · intro hfault
    have hgrouped := groupByLoan_grouped (LoanRepository.pendingAgreementStmt w.db)
    rcases processInvestmentAgreements_cases env w with
      ⟨⟨err, he⟩, -⟩ | ⟨-, hnil, hrun⟩ | ⟨-, -, hrun⟩
    · rw [hfault] at he; cases he
    · rw [hrun, hnil]
      exact ⟨[], by simp, by simp [CronService.groupByLoan], by simp, by simp,
        fun _ _ => by simp⟩
    · rw [hrun]
      have hperm := rangeOrder_perm env
        (CronService.groupByLoan (LoanRepository.pendingAgreementStmt w.db))
      obtain ⟨-, -, -, -, cs, hc, hl, -⟩ := processGroups_frame env
        (CronService.rangeOrder env
          (CronService.groupByLoan (LoanRepository.pendingAgreementStmt w.db)))
        { w with calls := w.calls ++ [.GetInvestmentsNeedingAgreementEmail] }
      have hkeys : (cs.filterMap CronCall.loanFetched).Perm
          ((CronService.groupByLoan (LoanRepository.pendingAgreementStmt w.db)).map
            (fun g => g.1)) := by
        rw [hl]
        exact hperm.map _
      refine ⟨cs, hc, hkeys, hkeys.nodup_iff.mpr hgrouped.1, ?_, ?_⟩
      · intro i hi
        exact hkeys.mem_iff.mpr (hgrouped.2.2.1 i hi)
      · intro hlookup hready
        obtain ⟨cs2, hc2, hi2, -⟩ := processGroups_ready hlookup
          (CronService.rangeOrder env
            (CronService.groupByLoan (LoanRepository.pendingAgreementStmt w.db)))
          { w with calls := w.calls ++ [.GetInvestmentsNeedingAgreementEmail] }
          (by
            intro g hg
            obtain ⟨i, hi, hk⟩ := grouped_key_mem hgrouped (hperm.mem_iff.mp hg)
            rw [← hk]
            exact groupReady_congr rfl rfl rfl (hready i hi))
        have hcs : cs2 = cs := by
          have := hc.symm.trans hc2
          exact (List.append_cancel_left this).symm
        subst hcs
        rw [hi2, ← List.map_flatMap]
        exact ((hperm.flatMap_right _).trans hgrouped.2.2.2).map _

/-- C23, at a concrete input: the provider refuses the first investor's address; the
second investment of the same loan is still processed, sent and marked. -/
theorem C23_failure_isolation_witness :
    (CronService.processInvestmentAgreements failingFirstEmailEnv pendingWorld).calls
      = [.GetInvestmentsNeedingAgreementEmail, .GetLoanByID "L2", .GetBorrowerByID "B1",
          .GetInvestorByID "I1",
          .SendEmail "ann@example.com" "Investment Agreement - Loan #L2" "Dear Ann",
          .GetInvestorByID "I2",
          .SendEmail "bob@example.com" "Investment Agreement - Loan #L2" "Dear Bob",
          .UpdateInvestmentAgreementSent "N2" true (some 107),
          .CreateEmailNotification
            (CronService.newNotification "e0000000-0000-0000-0000-000000000002" 107
              { ID := "N2", CreatedAt := 4, UpdatedAt := 4, LoanID := "L2",
                InvestorID := "I2", Amount := 4000, InvestmentDate := 4,
                ExpectedReturn := 4200, AgreementSent := false, AgreementSentAt := none }
              "Investment Agreement - Loan #L2" "Dear Bob")]
    ∧ ∃ cs, (CronService.processInvestmentAgreements failingFirstEmailEnv pendingWorld).calls
          = pendingWorld.calls ++ [.GetInvestmentsNeedingAgreementEmail] ++ cs
        ∧ ∀ i ∈ LoanRepository.pendingAgreementStmt pendingWorld.db,
            i.LoanID ∈ cs.filterMap CronCall.loanFetched := by
  refine ⟨by decide!, ?_⟩
  obtain ⟨cs, hc, -, -, hall, -⟩ :=
    (C23_failure_isolation failingFirstEmailEnv pendingWorld).2.2 rfl
  exact ⟨cs, hc, hall⟩

/-! ## What a pass leaves in the table of investments -/

/-- Each row after `processSendingEmail` stems from a row before it with the same id; a
row that was marked as sent stays marked. -/
theorem processSendingEmail_rows (env : CronEnv) (investment : Investment) (loan : Loan)
    (borrower : Borrower) (w : CronWorld) :
    ∀ row1 ∈ (CronService.processSendingEmail env investment loan borrower w).2.db.investments,
      ∃ row ∈ w.db.investments, row.ID = row1.ID
        ∧ (row.AgreementSent = true → row1.AgreementSent = true) := by
  rcases processSendingEmail_cases env investment loan borrower w with
    ⟨err, -, hrun⟩ | ⟨investor, -, ⟨err, -, hrun⟩ | ⟨-, ⟨err, -, hrun⟩ | ⟨-, hrun⟩⟩⟩
  · rw [hrun]; exact fun row1 h => ⟨row1, h, rfl, id⟩
  · rw [hrun]; exact fun row1 h => ⟨row1, h, rfl, id⟩
  · rw [hrun]; exact fun row1 h => ⟨row1, h, rfl, id⟩
  · rw [hrun]
    intro row1 h
    simp only [CronService.markedDB, LoanRepository.markAgreementStmt, List.mem_map] at h
    obtain ⟨row, hrow, hmap⟩ := h
    refine ⟨row, hrow, ?_, ?_⟩
    · rw [← hmap]; split <;> rfl
    · intro hsent
      rw [← hmap]
      split
      · rfl
      · exact hsent

/-- When nothing fails, the rows of the investment are marked as sent. -/
theorem processSendingEmail_marks {env : CronEnv} (hquiet : env.AllQuiet)
    (investment : Investment) (loan : Loan) (borrower : Borrower) {w : CronWorld}
    (hready : w.InvestorReady investment.InvestorID) :
    ∀ row1 ∈ (CronService.processSendingEmail env investment loan borrower w).2.db.investments,
      row1.ID = investment.ID → row1.AgreementSent = true := by
  obtain ⟨irow, hrow, hdel⟩ := hready
  rcases processSendingEmail_cases env investment loan borrower w with
    ⟨err, hl, -⟩ | ⟨investor, -, ⟨err, hs, -⟩ | ⟨-, ⟨err, hm, -⟩ | ⟨-, hrun⟩⟩⟩
  · simp [LoanRepository.GetInvestorByID, hquiet _ _, hrow, hdel] at hl
  · rw [hquiet _ _] at hs; cases hs
  · rw [hquiet _ _] at hm; cases hm
  · rw [hrun]
    intro row1 h hid
    simp only [CronService.markedDB, LoanRepository.markAgreementStmt, List.mem_map] at h
    obtain ⟨row, -, hmap⟩ := h
    by_cases hrid : row.ID = investment.ID
    · rw [if_pos hrid] at hmap
      rw [← hmap]
    · rw [if_neg hrid] at hmap
      rw [← hmap] at hid
      exact absurd hid hrid

theorem sendAll_rows (env : CronEnv) (loan : Loan) (borrower : Borrower)
    (investments : List Investment) (w : CronWorld) :
    ∀ row1 ∈ (CronService.sendAll env loan borrower investments w).db.investments,
      ∃ row ∈ w.db.investments, row.ID = row1.ID
        ∧ (row.AgreementSent = true → row1.AgreementSent = true) := by
  induction investments generalizing w with
  | nil => exact fun row1 h => ⟨row1, h, rfl, id⟩
  | cons i rest ih =>
    intro row1 h
    unfold CronService.sendAll at h
    obtain ⟨row2, h2, hid2, hs2⟩ := ih _ row1 h
    obtain ⟨row, h0, hid, hs⟩ := processSendingEmail_rows env i loan borrower w row2 h2
    exact ⟨row, h0, hid.trans hid2, fun hsent => hs2 (hs hsent)⟩

theorem sendAll_marks {env : CronEnv} (hquiet : env.AllQuiet) (loan : Loan)
    (borrower : Borrower) (investments : List Investment) (w : CronWorld)
    (hinvestors : ∀ i ∈ investments, w.InvestorReady i.InvestorID) :
    ∀ row1 ∈ (CronService.sendAll env loan borrower investments w).db.investments,
      row1.ID ∈ investments.map (fun i => i.ID) → row1.AgreementSent = true := by
  induction investments generalizing w with
  | nil => intro row1 _ h; simp at h
  | cons i rest ih =>
    intro row1 h hmem
    unfold CronService.sendAll at h
    have hframe := (processSendingEmail_frame env i loan borrower w).1
    by_cases hrest : row1.ID ∈ rest.map (fun i => i.ID)
    · exact ih _ (fun j hj => investorReady_congr hframe
        (hinvestors j (List.mem_cons_of_mem _ hj))) row1 h hrest
    · have hid : row1.ID = i.ID := by
        simp only [List.map_cons, List.mem_cons] at hmem
        rcases hmem with hmem | hmem
        · exact hmem
        · exact absurd hmem hrest
      obtain ⟨row2, h2, hid2, hs2⟩ := sendAll_rows env loan borrower rest _ row1 h
      exact hs2 (processSendingEmail_marks hquiet i loan borrower
        (hinvestors i (List.mem_cons_self _ _)) row2 h2 (hid2.trans hid))

theorem processGroups_rows (env : CronEnv) (groups : List (UUID × List Investment))
    (w : CronWorld) :
    ∀ row1 ∈ (CronService.processGroups env groups w).db.investments,
      ∃ row ∈ w.db.investments, row.ID = row1.ID
        ∧ (row.AgreementSent = true → row1.AgreementSent = true) := by
  induction groups generalizing w with
  | nil => exact fun row1 h => ⟨row1, h, rfl, id⟩
  | cons g rest ih =>
    obtain ⟨loanID, investments⟩ := g
    intro row1 h
    unfold CronService.processGroups at h
    obtain ⟨row2, h2, hid2, hs2⟩ := ih _ row1 h
    have hstep : ∃ row ∈ w.db.investments, row.ID = row2.ID
        ∧ (row.AgreementSent = true → row2.AgreementSent = true) := by
      rcases processInvestmentsForLoan_cases env loanID investments w with
        ⟨err, -, hrun⟩ | ⟨loan, -, ⟨err, -, hrun⟩ | ⟨borrower, -, hrun⟩⟩
      · rw [hrun] at h2; exact ⟨row2, h2, rfl, id⟩
      · rw [hrun] at h2; exact ⟨row2, h2, rfl, id⟩
      · rw [hrun] at h2
        exact sendAll_rows env loan borrower investments
          { w with calls := w.calls ++ [.GetLoanByID loanID,
              .GetBorrowerByID loan.BorrowerID] } row2 h2
    obtain ⟨row, h0, hid, hs⟩ := hstep
    exact ⟨row, h0, hid.trans hid2, fun hsent => hs2 (hs hsent)⟩

theorem processGroups_marks {env : CronEnv} (hquiet : env.AllQuiet)
    (groups : List (UUID × List Investment)) (w : CronWorld)
    (hready : ∀ g ∈ groups, w.GroupReady g.1)
    (hinvestors : ∀ g ∈ groups, ∀ i ∈ g.2, w.InvestorReady i.InvestorID) :
    ∀ row1 ∈ (CronService.processGroups env groups w).db.investments,
      row1.ID ∈ (groups.flatMap (fun g => g.2)).map (fun i => i.ID) →
      row1.AgreementSent = true := by
  have hfault : env.NoLookupFault := fun n id => ⟨hquiet _ _, hquiet _ _⟩
  induction groups generalizing w with
  | nil => intro row1 _ h; simp at h
  | cons g rest ih =>
    obtain ⟨loanID, investments⟩ := g
    intro row1 h hmem
    unfold CronService.processGroups at h
    obtain ⟨h1, h2, h3, h4, -⟩ := processInvestmentsForLoan_frame env loanID investments w
    by_cases hrest : row1.ID ∈ (rest.flatMap (fun g => g.2)).map (fun i => i.ID)
    · exact ih _
        (fun g hg => groupReady_congr h3 h4 h2 (hready g (List.mem_cons_of_mem _ hg)))
        (fun g hg i hi => investorReady_congr h1
          (hinvestors g (List.mem_cons_of_mem _ hg) i hi)) row1 h hrest
    · have hin : row1.ID ∈ investments.map (fun i => i.ID) := by
        simp only [List.flatMap_cons, List.map_append, List.mem_append] at hmem
        rcases hmem with hmem | hmem
        · exact hmem
        · exact absurd hmem hrest
      obtain ⟨row2, hr2, hid2, hs2⟩ := processGroups_rows env rest _ row1 h
      obtain ⟨loan, borrower, hrun⟩ := processInvestmentsForLoan_ready hfault investments
        (hready (loanID, investments) (List.mem_cons_self _ _))
      rw [hrun] at hr2
      exact hs2 (sendAll_marks hquiet loan borrower investments
        { w with calls := w.calls ++ [.GetLoanByID loanID,
            .GetBorrowerByID loan.BorrowerID] }
        (fun i hi => investorReady_congr rfl
          (hinvestors (loanID, investments) (List.mem_cons_self _ _) i hi))
        row2 hr2 (by rw [hid2]; exact hin))

/-- C25: in a pass in which no call fails and every pending investment's loan (with its
borrower) and investor can be loaded, the calls after the pending query contain one
`SendEmail` for each pending investment, to the address of its investor, and one
`UpdateInvestmentAgreementSent(id, true, timestamp)` for each pending investment,
and no other send or mark; afterwards every row of a pending investment has
agreement_sent = true.  (The calls of different loans come in the order this pass
ranges over the map.) -/
theorem C25_one_send_and_mark_each (env : CronEnv) (w : CronWorld)
    (hquiet : env.AllQuiet)
    (hloans : ∀ i ∈ LoanRepository.pendingAgreementStmt w.db, w.GroupReady i.LoanID)
    (hinvestors : ∀ i ∈ LoanRepository.pendingAgreementStmt w.db,
      w.InvestorReady i.InvestorID) :
    (∃ cs, (CronService.processInvestmentAgreements env w).calls
        = w.calls ++ [.GetInvestmentsNeedingAgreementEmail] ++ cs
      ∧ (cs.filterMap CronCall.sentTo).Perm
          ((LoanRepository.pendingAgreementStmt w.db).map
            (fun i => w.emailOf i.InvestorID))
      ∧ (cs.filterMap CronCall.marked).Perm
          ((LoanRepository.pendingAgreementStmt w.db).map (fun i => i.ID))
      ∧ (cs.filter CronCall.isMark).length = (LoanRepository.pendingAgreementStmt w.db).length)
    ∧ ∀ row ∈ (CronService.processInvestmentAgreements env w).db.investments,
        row.ID ∈ (LoanRepository.pendingAgreementStmt w.db).map (fun i => i.ID) →
        row.AgreementSent = true := by
  have hgrouped := groupByLoan_grouped (LoanRepository.pendingAgreementStmt w.db)
  rcases processInvestmentAgreements_cases env w with
    ⟨⟨err, he⟩, -⟩ | ⟨-, hnil, hrun⟩ | ⟨-, -, hrun⟩
  · rw [hquiet _ _] at he; cases he
  · rw [hrun, hnil]
    exact ⟨⟨[], by simp, by simp, by simp, by simp⟩, fun row _ h => by simp at h⟩
  · rw [hrun]
    have hperm := rangeOrder_perm env
      (CronService.groupByLoan (LoanRepository.pendingAgreementStmt w.db))
    have hflat : ((CronService.rangeOrder env
        (CronService.groupByLoan (LoanRepository.pendingAgreementStmt w.db))).flatMap
          (fun g => g.2)).Perm (LoanRepository.pendingAgreementStmt w.db) :=
      (hperm.flatMap_right _).trans hgrouped.2.2.2
    have hready : ∀ g ∈ CronService.rangeOrder env
        (CronService.groupByLoan (LoanRepository.pendingAgreementStmt w.db)),
        ({ w with calls := w.calls ++ [.GetInvestmentsNeedingAgreementEmail] }
          : CronWorld).GroupReady g.1 := by
      intro g hg
      obtain ⟨i, hi, hk⟩ := grouped_key_mem hgrouped (hperm.mem_iff.mp hg)
      rw [← hk]
      exact groupReady_congr rfl rfl rfl (hloans i hi)
    have hinv : ∀ g ∈ CronService.rangeOrder env
        (CronService.groupByLoan (LoanRepository.pendingAgreementStmt w.db)),
        ∀ i ∈ g.2, ({ w with calls := w.calls ++ [.GetInvestmentsNeedingAgreementEmail] }
          : CronWorld).InvestorReady i.InvestorID := by
      intro g hg i hi
      have hmem : i ∈ LoanRepository.pendingAgreementStmt w.db :=
        hflat.mem_iff.mp (List.mem_flatMap.mpr ⟨g, hg, hi⟩)
      exact investorReady_congr rfl (hinvestors i hmem)
    refine ⟨?_, ?_⟩
    · obtain ⟨cs, hc, hs, hm, hn⟩ := processGroups_quiet hquiet _ _ hready hinv
      refine ⟨cs, hc, ?_, ?_, ?_⟩
      · rw [hs]
        exact hflat.map _
      · rw [hm]
        exact hflat.map _
      · rw [hn]
        exact hflat.length_eq
    · intro row hrow hmem
      apply processGroups_marks hquiet _ _ hready hinv row hrow
      exact ((hflat.map (fun i => i.ID)).mem_iff).mpr hmem

theorem quietCronEnv_allQuiet : quietCronEnv.AllQuiet := fun _ _ => rfl

/-- C25, at a concrete input: two unsent investments on the invested loan `L2` give two
sends, to `ann@example.com` and `bob@example.com`, and two marks; both rows end up
with agreement_sent = true. -/
theorem C25_one_send_and_mark_each_witness :
    LoanRepository.pendingAgreementStmt pendingWorld.db = pendingInvestments
    ∧ (CronService.processInvestmentAgreements quietCronEnv pendingWorld).calls
      = [.GetInvestmentsNeedingAgreementEmail, .GetLoanByID "L2", .GetBorrowerByID "B1",
          .GetInvestorByID "I1",
          .SendEmail "ann@example.com" "Investment Agreement - Loan #L2" "Dear Ann",
          .UpdateInvestmentAgreementSent "N1" true (some 105),
          .CreateEmailNotification
            (CronService.newNotification "e0000000-0000-0000-0000-000000000001" 105
              firstPending "Investment Agreement - Loan #L2" "Dear Ann"),
          .GetInvestorByID "I2",
          .SendEmail "bob@example.com" "Investment Agreement - Loan #L2" "Dear Bob",
          .UpdateInvestmentAgreementSent "N2" true (some 109),
          .CreateEmailNotification
            (CronService.newNotification "e0000000-0000-0000-0000-000000000002" 109
              { ID := "N2", CreatedAt := 4, UpdatedAt := 4, LoanID := "L2",
                InvestorID := "I2", Amount := 4000, InvestmentDate := 4,
                ExpectedReturn := 4200, AgreementSent := false, AgreementSentAt := none }
              "Investment Agreement - Loan #L2" "Dear Bob")]
    ∧ ∀ row ∈ (CronService.processInvestmentAgreements quietCronEnv pendingWorld).db.investments,
        row.ID ∈ (LoanRepository.pendingAgreementStmt pendingWorld.db).map (fun i => i.ID) →
        row.AgreementSent = true := by
  have hpending : LoanRepository.pendingAgreementStmt pendingWorld.db = pendingInvestments := by
    decide!
  have hready : pendingWorld.GroupReady "L2" :=
    ⟨fundedRow, { first_name := "John", last_name := "Doe" }, rfl, rfl, rfl, rfl⟩
  have h := C25_one_send_and_mark_each quietCronEnv pendingWorld quietCronEnv_allQuiet
    (by
      rw [hpending]
      intro i hi
      simp only [pendingInvestments, List.mem_cons, List.mem_singleton, List.not_mem_nil,
        or_false] at hi
      rcases hi with rfl | rfl <;> exact hready)
    (by
      rw [hpending]
      intro i hi
      simp only [pendingInvestments, List.mem_cons, List.mem_singleton, List.not_mem_nil,
        or_false] at hi
      rcases hi with rfl | rfl
      · exact ⟨_, rfl, rfl⟩
      · exact ⟨_, rfl, rfl⟩)
  exact ⟨hpending, by decide!, h.2⟩

theorem pendingAgreementStmt_sorted (db : DB) :
    List.Sorted (fun a b : Investment => a.CreatedAt ≤ b.CreatedAt)
      (LoanRepository.pendingAgreementStmt db) := by
  haveI : IsTotal Investment (fun a b => a.CreatedAt ≤ b.CreatedAt) :=
    ⟨fun a b => Nat.le_total a.CreatedAt b.CreatedAt⟩
  haveI : IsTrans Investment (fun a b => a.CreatedAt ≤ b.CreatedAt) :=
    ⟨fun _ _ _ h1 h2 => Nat.le_trans h1 h2⟩
  exact List.sorted_insertionSort _ _

/-- One group: the loan is fetched once; its borrower is fetched once if that lookup
succeeded and not at all if it failed. -/
theorem processInvestmentsForLoan_fetches (env : CronEnv) (loanID : UUID)
    (investments : List Investment) (w : CronWorld) :
    ∃ cs, (CronService.processInvestmentsForLoan env loanID investments w).2.calls
        = w.calls ++ cs
      ∧ cs.filterMap CronCall.loanFetched = [loanID]
      ∧ ((∃ err, (LoanRepository.GetLoanByID
              (env.fault w.calls.length (.GetLoanByID loanID)) w.db loanID).1 = .error err) →
          cs.filterMap CronCall.borrowerFetched = [])
      ∧ (∀ loan, (LoanRepository.GetLoanByID
              (env.fault w.calls.length (.GetLoanByID loanID)) w.db loanID).1 = .ok loan →
          cs.filterMap CronCall.borrowerFetched = [loan.BorrowerID]) := by
  rcases processInvestmentsForLoan_cases env loanID investments w with
    ⟨err, hl, hrun⟩ | ⟨loan, hl, ⟨err, -, hrun⟩ | ⟨borrower, -, hrun⟩⟩
  · rw [hrun]
    refine ⟨[.GetLoanByID loanID], rfl, rfl, fun _ => rfl, ?_⟩
    intro loan h
    rw [hl] at h; cases h
  · rw [hrun]
    refine ⟨[.GetLoanByID loanID, .GetBorrowerByID loan.BorrowerID], rfl, rfl, ?_, ?_⟩
    · rintro ⟨e, he⟩
      rw [hl] at he; cases he
    · intro loan2 h
      rw [hl] at h
      cases h
      rfl
  · rw [hrun]
    obtain ⟨-, -, -, -, cs, hc, -, hlf, hbf⟩ := sendAll_frame env loan borrower investments
      { w with calls := w.calls ++ [.GetLoanByID loanID, .GetBorrowerByID loan.BorrowerID] }
    refine ⟨[.GetLoanByID loanID, .GetBorrowerByID loan.BorrowerID] ++ cs, ?_, ?_, ?_, ?_⟩
    · rw [hc, List.append_assoc]
    · rw [List.filterMap_append, hlf]; rfl
    · rintro ⟨e, he⟩
      rw [hl] at he; cases he
    · intro loan2 h
      rw [hl] at h
      cases h
      rw [List.filterMap_append, hbf]
      rfl

/-- C27 as stated fails: when the loan lookup fails, the borrower of that loan is not
fetched at all.  In a pass over the two pending investments of `L2` in which
`GetLoanByID` fails, the only calls are the pending query and `GetLoanByID`. -/
theorem C27_counterexample :
    LoanRepository.pendingAgreementStmt pendingWorld.db = pendingInvestments
    ∧ "L2" ∈ pendingInvestments.map (fun i => i.LoanID)
    ∧ (CronService.processInvestmentAgreements failingLoanLookupEnv pendingWorld).calls
        = [.GetInvestmentsNeedingAgreementEmail, .GetLoanByID "L2"]
    ∧ (CronService.processInvestmentAgreements failingLoanLookupEnv
          pendingWorld).calls.filterMap CronCall.borrowerFetched = [] := by
  refine ⟨by decide!, by decide, by decide!, by decide!⟩

/-- C27, amended: the pending investments come oldest first; the grouping step gives a
map with one key per loan of the pending set, each key holding exactly the pending
investments of that loan in the order of the pending query, so that every pending
investment is in exactly one group; the pass visits the groups in some order, each
once.  In a pass whose pending query succeeds, `GetLoanByID` is called exactly once
for each distinct loan of the pending set and for no other loan; in each group the
borrower is fetched once if the loan lookup succeeded and not at all if it failed,
so at most once per group, and once per group when the lookups succeed. -/
theorem C27_grouping_by_loan (env : CronEnv) (w : CronWorld) :
    List.Sorted (fun a b : Investment => a.CreatedAt ≤ b.CreatedAt)
      (LoanRepository.pendingAgreementStmt w.db)
    ∧ ((CronService.groupByLoan (LoanRepository.pendingAgreementStmt w.db)).map
        (fun g => g.1)).Nodup
    ∧ (∀ k g, (k, g) ∈ CronService.groupByLoan (LoanRepository.pendingAgreementStmt w.db) →
        g = (LoanRepository.pendingAgreementStmt w.db).filter (fun i => i.LoanID = k)
        ∧ g ≠ [])
    ∧ (∀ i ∈ LoanRepository.pendingAgreementStmt w.db,
        i.LoanID ∈ (CronService.groupByLoan (LoanRepository.pendingAgreementStmt w.db)).map
          (fun g => g.1))
    ∧ ((CronService.groupByLoan (LoanRepository.pendingAgreementStmt w.db)).flatMap
        (fun g => g.2)).Perm (LoanRepository.pendingAgreementStmt w.db)
    ∧ (CronService.rangeOrder env
        (CronService.groupByLoan (LoanRepository.pendingAgreementStmt w.db))).Perm
        (CronService.groupByLoan (LoanRepository.pendingAgreementStmt w.db))
    ∧ (∀ (loanID : UUID) (investments : List Investment) (v : CronWorld),
        ∃ cs, (CronService.processInvestmentsForLoan env loanID investments v).2.calls
            = v.calls ++ cs
          ∧ cs.filterMap CronCall.loanFetched = [loanID]
          ∧ ((∃ err, (LoanRepository.GetLoanByID
                (env.fault v.calls.length (.GetLoanByID loanID)) v.db loanID).1
                  = .error err) →
              cs.filterMap CronCall.borrowerFetched = [])
          ∧ (∀ loan, (LoanRepository.GetLoanByID
                (env.fault v.calls.length (.GetLoanByID loanID)) v.db loanID).1 = .ok loan →
              cs.filterMap CronCall.borrowerFetched = [loan.BorrowerID]))
    ∧ (env.fault w.calls.length .GetInvestmentsNeedingAgreementEmail = none →
        ∃ cs, (CronService.processInvestmentAgreements env w).calls
            = w.calls ++ [.GetInvestmentsNeedingAgreementEmail] ++ cs
          ∧ (∀ k, (cs.filterMap CronCall.loanFetched).count k
              = if k ∈ (LoanRepository.pendingAgreementStmt w.db).map (fun i => i.LoanID)
                then 1 else 0)
          ∧ (cs.filterMap CronCall.borrowerFetched).length
              ≤ (CronService.groupByLoan (LoanRepository.pendingAgreementStmt w.db)).length
          ∧ (env.NoLookupFault →
              (∀ i ∈ LoanRepository.pendingAgreementStmt w.db, w.GroupReady i.LoanID) →
              (cs.filterMap CronCall.borrowerFetched).length
                = (CronService.groupByLoan
                    (LoanRepository.pendingAgreementStmt w.db)).length)) := by
  have hgrouped := groupByLoan_grouped (LoanRepository.pendingAgreementStmt w.db)
  have hperm := rangeOrder_perm env
    (CronService.groupByLoan (LoanRepository.pendingAgreementStmt w.db))
  refine ⟨pendingAgreementStmt_sorted w.db, hgrouped.1, hgrouped.2.1, hgrouped.2.2.1,
    hgrouped.2.2.2, hperm, fun loanID investments v =>
      processInvestmentsForLoan_fetches env loanID investments v, ?_⟩
  intro hfault
  rcases processInvestmentAgreements_cases env w with
    ⟨⟨err, he⟩, -⟩ | ⟨-, hnil, hrun⟩ | ⟨-, -, hrun⟩
  · rw [hfault] at he; cases he
  · rw [hrun, hnil]
    exact ⟨[], by simp, by simp, by simp, fun _ _ => by simp [CronService.groupByLoan]⟩
  · rw [hrun]
    obtain ⟨-, -, -, -, cs, hc, hl, hb⟩ := processGroups_frame env
      (CronService.rangeOrder env
        (CronService.groupByLoan (LoanRepository.pendingAgreementStmt w.db)))
      { w with calls := w.calls ++ [.GetInvestmentsNeedingAgreementEmail] }
    have hkeys : (cs.filterMap CronCall.loanFetched).Perm
        ((CronService.groupByLoan (LoanRepository.pendingAgreementStmt w.db)).map
          (fun g => g.1)) := by
      rw [hl]
      exact hperm.map _
    have hmemkeys : ∀ k,
        k ∈ (CronService.groupByLoan (LoanRepository.pendingAgreementStmt w.db)).map
          (fun g => g.1)
        ↔ k ∈ (LoanRepository.pendingAgreementStmt w.db).map (fun i => i.LoanID) := by
      intro k
      constructor
      · intro hk
        obtain ⟨g, hg, hgk⟩ := List.mem_map.mp hk
        obtain ⟨i, hi, hik⟩ := grouped_key_mem hgrouped hg
        exact List.mem_map.mpr ⟨i, hi, hik.trans hgk⟩
      · intro hk
        obtain ⟨i, hi, hik⟩ := List.mem_map.mp hk
        rw [← hik]
        exact hgrouped.2.2.1 i hi
    refine ⟨cs, hc, ?_, ?_, ?_⟩
    · intro k
      rw [hkeys.count_eq]
      by_cases hk : k ∈ (LoanRepository.pendingAgreementStmt w.db).map (fun i => i.LoanID)
      · rw [if_pos hk]
        exact List.count_eq_one_of_mem hgrouped.1 ((hmemkeys k).mpr hk)
      · rw [if_neg hk]
        exact List.count_eq_zero_of_not_mem (fun h => hk ((hmemkeys k).mp h))
    · rw [← hperm.length_eq]
      exact hb
    · intro hlookup hready
      obtain ⟨cs2, hc2, -, hb2⟩ := processGroups_ready hlookup
        (CronService.rangeOrder env
          (CronService.groupByLoan (LoanRepository.pendingAgreementStmt w.db)))
        { w with calls := w.calls ++ [.GetInvestmentsNeedingAgreementEmail] }
        (by
          intro g hg
          obtain ⟨i, hi, hk⟩ := grouped_key_mem hgrouped (hperm.mem_iff.mp hg)
          rw [← hk]
          exact groupReady_congr rfl rfl rfl (hready i hi))
      have hcs : cs2 = cs := by
        have := hc.symm.trans hc2
        exact (List.append_cancel_left this).symm
      subst hcs
      rw [hb2, hperm.length_eq]

/-- C27, amended, at a concrete input: the two pending investments of `L2` form one
group, in the order of the pending query, and a pass in which nothing fails fetches
the loan once and the borrower once. -/
theorem C27_grouping_by_loan_witness :
    CronService.groupByLoan (LoanRepository.pendingAgreementStmt pendingWorld.db)
      = [("L2", pendingInvestments)]
    ∧ ∃ cs, (CronService.processInvestmentAgreements quietCronEnv pendingWorld).calls
          = pendingWorld.calls ++ [.GetInvestmentsNeedingAgreementEmail] ++ cs
        ∧ (cs.filterMap CronCall.loanFetched).count "L2" = 1
        ∧ (cs.filterMap CronCall.borrowerFetched).length ≤ 1 := by
  refine ⟨by decide!, ?_⟩
  obtain ⟨cs, hc, hcount, hb, -⟩ :=
    (C27_grouping_by_loan quietCronEnv pendingWorld).2.2.2.2.2.2.2 rfl
  refine ⟨cs, hc, ?_, ?_⟩
  · rw [hcount "L2"]
    decide!
  · have hlen : (CronService.groupByLoan
        (LoanRepository.pendingAgreementStmt pendingWorld.db)).length = 1 := by decide!
    rw [hlen] at hb
    exact hb

end Go10
